import Mathlib

/-!
Verification development for the LMStudio-Code retrieval-and-context engine.

Shallow embedding of the core components (token ledger, conversation
ledger, codebase index, prompt assembler, action extractor) of the
repository, together with proofs and refutations of the frozen claims
C1..C10 about them.

Modelling conventions:
* JavaScript strings are modelled as Lean `String` (a structure over
  `List Char`); the low-level scanning functions of the action extractor
  work on `List Char` directly.
* JavaScript numbers are modelled as `Nat`/`Int` with the exact rational
  value of the floating-point constants involved (3.5 chars per token,
  the 0.95 safety margin, the budget fractions).  For the inputs
  appearing in this development the double-precision computations of the
  source agree with exact rational arithmetic.
* The tiktoken encoder is an external collaborator (a node module); the
  token measurement defined in the repository itself is the estimation
  fallback (`encoding = null`), which is the measurement modelled here.
* `async`/`await` collaborator results (summaries, file contents, parsed
  JSON argument objects) are passed to the embedded functions as explicit
  arguments; a collaborator failure is an `Except.error` / `Option.none`
  argument, mirroring the `try`/`catch` control flow of the source.
-/

/-! ## Token Ledger (`TokenCounter`, src/unnamed/part_005)

`estimateTokens`: `Math.ceil(text.length / 3.5)`; `ceil (n / 3.5)` is
`ceil (2n/7)`, i.e. `(2n + 6) / 7` in natural division.  `countTokens`
falls back to `estimateTokens` when no encoder is loaded; the
`if (!text) return 0` guard coincides with the formula at length 0. -/

def estimateTokens (text : String) : Nat :=
  (2 * text.length + 6) / 7

def countTokens (text : String) : Nat :=
  estimateTokens text

/-- A chat message as passed around by the core: a role string and a
content string.  (The creation timestamp stored by `addMessage` is
carried verbatim and never inspected by the operations the claims are
about, so it is omitted from the model.) -/
structure ChatMessage where
  role : String
  content : String
deriving Repr, DecidableEq

/-- `countMessagesTokens`: per-message overhead 4 plus role and content
tokens, plus a fixed tail overhead of 2 (0 for the empty list, per the
`if (!messages || messages.length === 0) return 0` guard). -/
def countMessagesTokens (messages : List ChatMessage) : Nat :=
  if messages = [] then 0
  else messages.foldl (fun acc m => acc + 4 + countTokens m.role + countTokens m.content) 0 + 2

/-- `calculateAvailableTokens(maxTokens, reservedForResponse)`:
`Math.max(0, maxTokens - reservedForResponse)`; `Nat` subtraction
realises the clamp at 0. -/
def calculateAvailableTokens (maxTokens reservedForResponse : Nat) : Nat :=
  maxTokens - reservedForResponse

/-- The six named allocations of `allocateTokenBudget` (fractions
0.05/0.05/0.20/0.30/0.35/0.05 of the available tokens, floored). -/
structure TokenBudget where
  systemPrompt : Nat
  taskList : Nat
  compressedHistory : Nat
  recentHistory : Nat
  fileContents : Nat
  userQuery : Nat
deriving Repr, DecidableEq

def allocateTokenBudget (availableTokens : Nat) : TokenBudget where
  systemPrompt := availableTokens * 5 / 100
  taskList := availableTokens * 5 / 100
  compressedHistory := availableTokens * 20 / 100
  recentHistory := availableTokens * 30 / 100
  fileContents := availableTokens * 35 / 100
  userQuery := availableTokens * 5 / 100

/-- `text.substring(0, k)` for `0 ≤ k`: the first `k` characters (the
whole string when `k` exceeds the length). -/
def jsSubstringTo (s : String) (k : Nat) : String :=
  String.mk (s.data.take k)

/-- The marker `'\n... [truncated]'` appended by `truncateToTokenLimit`. -/
def truncationMarker : String := "\n... [truncated]"

/-- The shrink loop of `truncateToTokenLimit`: while the text still
measures over `maxTokens` and is non-empty, chop 100 characters off the
end (`truncated.substring(0, truncated.length - 100)`).  Structural
recursion on a fuel argument; `truncShrink` below supplies fuel
`s.length + 1`, which is enough because every iteration removes at
least one character. -/
def truncShrinkFuel (maxTokens : Nat) : Nat → String → String
  | 0, s => s
  | fuel + 1, s =>
    if countTokens s > maxTokens ∧ 0 < s.length then
      truncShrinkFuel maxTokens fuel (jsSubstringTo s (s.length - 100))
    else s

def truncShrink (maxTokens : Nat) (s : String) : String :=
  truncShrinkFuel maxTokens (s.length + 1) s

/-- `truncateToTokenLimit(text, maxTokens)`.  The initial cut point
`Math.floor(text.length * (maxTokens / currentTokens) * 0.95)` is
modelled in exact rational arithmetic as
`19 * length * maxTokens / (20 * currentTokens)`. -/
def truncateToTokenLimit (text : String) (maxTokens : Nat) : String :=
  if text = "" then ""
  else
    let currentTokens := countTokens text
    if currentTokens ≤ maxTokens then text
    else
      let estimatedChars := 19 * text.length * maxTokens / (20 * currentTokens)
      truncShrink maxTokens (jsSubstringTo text estimatedChars) ++ truncationMarker

/-! ## Conversation Ledger (`ContextManager`, src/src/taskManager.js)

The ledger holds the full message window and a compressed-summary
string.  (The unused `activeWindow` field of the source structure is
only ever reset to `[]` and never read by the operations under claim,
so it is omitted.)  The summarization collaborator
`lmstudioClient.compress(...)` is an external model call; its outcome is
passed to `compressHistory` as an `Except` argument, mirroring the
`try { ... await ... } catch { ... }` control flow. -/

structure History where
  full : List ChatMessage
  compressed : String
deriving Repr, DecidableEq

/-- `getRecentMessages(count)` is `this.history.full.slice(-count)`.
For `count ≥ 1` this is the last `count` messages (the whole window when
it is shorter); for `count = 0` JavaScript evaluates `slice(-0)` =
`slice(0)`, the **whole** window. -/
def getRecentMessages (h : History) (count : Nat) : List ChatMessage :=
  if count = 0 then h.full else h.full.drop (h.full.length - count)

/-- `compressHistory(keepRecentCount)` with the collaborator outcome as
an argument.  `toCompress` is `full.slice(0, -keepRecentCount)` (empty
for `keepRecentCount = 0`, because `slice(0, -0)` is `slice(0, 0)`) and
`toKeep` is `full.slice(-keepRecentCount)`. -/
def compressHistory (h : History) (keepRecentCount : Nat)
    (compressResult : Except String String) : History :=
  if h.full.length ≤ keepRecentCount then h
  else
    let toCompress := if keepRecentCount = 0 then ([] : List ChatMessage)
      else h.full.take (h.full.length - keepRecentCount)
    let toKeep := if keepRecentCount = 0 then h.full
      else h.full.drop (h.full.length - keepRecentCount)
    if toCompress.length = 0 then h
    else
      match compressResult with
      | Except.error _ => h
      | Except.ok compressed =>
        { full := toKeep
          compressed :=
            if h.compressed = "" then compressed
            else h.compressed ++ "\n\n" ++ compressed }

/-- Result of `getMessagesForPrompt`. -/
structure HistoryData where
  recentMessages : List ChatMessage
  compressedHistory : String
deriving Repr, DecidableEq

/-- `getMessagesForPrompt(tokenBudget, recentCount)`: the recent
messages plus the compressed summary, with only the summary truncated
(`availableForCompressed > 0`) or dropped (`availableForCompressed ≤ 0`)
when over budget. -/
def getMessagesForPrompt (h : History) (tokenBudget recentCount : Nat) : HistoryData :=
  let recentMessages := getRecentMessages h recentCount
  let recentTokens := countMessagesTokens recentMessages
  let compressedTokens := countTokens h.compressed
  if recentTokens + compressedTokens > tokenBudget then
    if recentTokens < tokenBudget then
      { recentMessages
        compressedHistory := truncateToTokenLimit h.compressed (tokenBudget - recentTokens) }
    else
      { recentMessages, compressedHistory := "" }
  else
    { recentMessages, compressedHistory := h.compressed }

/-! ## Codebase Index (`CodebaseIndexer`, src/src/codebaseIndexer.js)

`readLineRange` works on the file content delivered by the file-system
collaborator (`fs.readFile`); path resolution is not modelled.  The
`content.split('\n')` of the source is modelled by `splitNl`
(JavaScript `split` keeps empty segments and yields `['']` for the
empty string). -/

def splitNl : List Char → List (List Char)
  | [] => [[]]
  | c :: rest =>
    if c = '\n' then [] :: splitNl rest
    else
      match splitNl rest with
      | [] => [[c]]
      | l :: ls => (c :: l) :: ls

def linesOf (content : String) : List String :=
  (splitNl content.data).map String.mk

/-- Result record of `readLineRange` (the returned `path`/`relativePath`
fields are the collaborator-resolved paths and are not modelled). -/
structure LineRangeResult where
  startLine : Int
  endLine : Int
  totalLines : Nat
  lines : List String
  content : String
deriving Repr, DecidableEq

/-- `readLineRange(filePath, startLine, endLine)` on the file content:
1-indexed inclusive bounds, clamped with `Math.max(0, startLine - 1)`
and `Math.min(lines.length - 1, endLine - 1)`; throws (here:
`Except.error`) when `start > end || start >= lines.length`. -/
def readLineRange (content : String) (startLine endLine : Int) : Except String LineRangeResult :=
  let lines := linesOf content
  let start : Int := max 0 (startLine - 1)
  let stop : Int := min ((lines.length : Int) - 1) (endLine - 1)
  if start > stop ∨ start ≥ (lines.length : Int) then
    Except.error "Invalid line range"
  else
    let selected := (lines.drop start.toNat).take (stop - start + 1).toNat
    Except.ok
      { startLine := start + 1
        endLine := stop + 1
        totalLines := lines.length
        lines := selected
        content := String.intercalate "\n" selected }

/-! ### `searchFiles` and its zero-match fallback

Index entries carry the fields `searchFiles` consults: the
project-relative path, the extracted function/class/import names, and
the modification time (the ISO `mtime` string; `new Date(...)`
comparison of ISO strings is order-isomorphic to the timestamp, which
is modelled as a `Nat`).  The remaining `IndexEntry` fields (absolute
path, size, extension, exports, ...) are never consulted by
`searchFiles` and are omitted.

`Array.prototype.sort` with a consistent comparator produces the unique
stable order; it is modelled by a stable insertion sort
(`stableSortBy gt` puts `a` strictly before `b` exactly when
`gt a b`, and preserves the original order of ties). -/

structure IndexEntry where
  relativePath : String
  functions : List String
  classes : List String
  imports : List String
  modified : Nat
deriving Repr, DecidableEq

/-- `String.prototype.toLowerCase` on the ASCII range (the identifiers
and paths being scored). -/
def asciiLowerChar (c : Char) : Char :=
  if 'A' ≤ c ∧ c ≤ 'Z' then Char.ofNat (c.toNat + 32) else c

def strLower (s : String) : String :=
  String.mk (s.data.map asciiLowerChar)

/-- `haystack.includes(needle)`. -/
def containsSubAux (needle : List Char) : List Char → Bool
  | [] => needle.isEmpty
  | c :: rest => List.isPrefixOf needle (c :: rest) || containsSubAux needle rest

def jsIncludes (hay needle : String) : Bool :=
  containsSubAux needle.data hay.data

/-- The per-file score of `searchFiles`: +10 for a filename substring
match, +5 per matching function or class name, +2 per matching import
target (all case-insensitive substring tests against the lowered
query). -/
def scoreFile (lowerQuery : String) (f : IndexEntry) : Nat :=
  (if jsIncludes (strLower f.relativePath) lowerQuery then 10 else 0) +
  5 * (f.functions.filter (fun fn => jsIncludes (strLower fn) lowerQuery)).length +
  5 * (f.classes.filter (fun c => jsIncludes (strLower c) lowerQuery)).length +
  2 * (f.imports.filter (fun imp => jsIncludes (strLower imp) lowerQuery)).length

/-- Insert `a` into `l`, before the first element it must strictly
precede; ties keep the existing element first (stability). -/
def insertDescBy (gt : α → α → Prop) [DecidableRel gt] (a : α) : List α → List α
  | [] => [a]
  | b :: bs => if gt a b then a :: b :: bs else b :: insertDescBy gt a bs

def stableSortBy (gt : α → α → Prop) [DecidableRel gt] (l : List α) : List α :=
  l.foldl (fun acc a => insertDescBy gt a acc) []

/-- `searchFiles(query, maxResults)`: score every indexed file, keep the
positive scores sorted descending, take the top `maxResults`; if no
file scored positive, fall back to the whole index (when it fits) or
the `maxResults` most recently modified files. -/
def searchFiles (files : List IndexEntry) (query : String) (maxResults : Nat) :
    List IndexEntry :=
  let lowerQuery := strLower query
  let results := (files.map (fun f => (f, scoreFile lowerQuery f))).filter (fun p => 0 < p.2)
  let sorted := stableSortBy (fun a b => b.2 < a.2) results
  let topResults := (sorted.take maxResults).map Prod.fst
  if topResults = [] ∧ files ≠ [] then
    if files.length ≤ maxResults then files
    else (stableSortBy (fun a b => b.modified < a.modified) files).take maxResults
  else topResults

/-! ## Prompt Assembler (`PromptBuilder.buildPrompt`, src/unnamed/part_008)

`buildPrompt` is modelled as a pure function of the collaborator
results it awaits: the resolved system prompt text, the optional
LMCODE.md custom instructions, the task-list text, the relevant files
already read from disk, the conversation ledger, the configured
`recentMessagesCount`, the user query and the resolved context window
(`maxTokens`). -/

/-- A relevant file as consumed by `formatFileContents`
(`{path, content}`; the `size` field is never consulted). -/
structure PromptFile where
  path : String
  content : String
deriving Repr, DecidableEq

/-- JavaScript whitespace for `trim()` and `\s` (the ASCII part; the
non-ASCII space characters of the JS classes never occur in the
modelled data). -/
def jsWsChar (c : Char) : Bool :=
  c = ' ' || c = '\t' || c = '\n' || c = '\r' || c = '\x0b' || c = '\x0c'

def jsTrimChars (cs : List Char) : List Char :=
  ((cs.dropWhile jsWsChar).reverse.dropWhile jsWsChar).reverse

def jsTrim (s : String) : String :=
  String.mk (jsTrimChars s.data)

/-- The greedy file-inclusion loop of `formatFileContents`: append each
file block whole while it fits, otherwise append one truncated tail (if
more than 100 tokens remain) and stop. -/
def formatFilesLoop (tokenBudget : Nat) : List PromptFile → String → Nat → String
  | [], content, _ => content
  | f :: rest, content, tokensUsed =>
    let fileHeader := "--- " ++ f.path ++ " ---\n"
    let fileBlock := fileHeader ++ f.content ++ "\n\n"
    let fileTokens := countTokens fileBlock
    if tokensUsed + fileTokens > tokenBudget then
      let availableTokens : Int :=
        (tokenBudget : Int) - tokensUsed - countTokens (fileHeader ++ "\n\n")
      if availableTokens > 100 then
        content ++ fileHeader ++ truncateToTokenLimit f.content availableTokens.toNat ++ "\n\n"
      else content
    else formatFilesLoop tokenBudget rest (content ++ fileBlock) (tokensUsed + fileTokens)

def formatFileContents (files : List PromptFile) (tokenBudget : Nat) : String :=
  if files = [] then ""
  else jsTrim (formatFilesLoop tokenBudget files "RELEVANT FILES:\n\n"
    (countTokens "RELEVANT FILES:\n\n"))

/-- The message list as first assembled by `buildPrompt`: primary system
message (system prompt + optional project instructions + task list),
optional compressed-history system message, optional relevant-files
system message, the recent history, and the user query. -/
def assembleMessages (systemPrompt : String) (customInstructions : Option String)
    (taskList : String) (relevantFiles : List PromptFile) (hd : HistoryData)
    (userQuery : String) (budget : TokenBudget) : List ChatMessage :=
  let systemContent := systemPrompt
    ++ (match customInstructions with
        | some ci => "\n\n# PROJECT INSTRUCTIONS\n\n" ++ ci
        | none => "")
    ++ (if taskList ≠ "" ∧ taskList ≠ "No pending tasks." then "\n\n" ++ taskList else "")
  let filesContent := formatFileContents relevantFiles budget.fileContents
  [⟨"system", systemContent⟩]
  ++ (if hd.compressedHistory ≠ "" then
        [⟨"system", "PREVIOUS CONVERSATION SUMMARY:\n" ++ hd.compressedHistory⟩] else [])
  ++ (if relevantFiles ≠ [] ∧ filesContent ≠ "" then [⟨"system", filesContent⟩] else [])
  ++ hd.recentMessages
  ++ [⟨"user", userQuery⟩]

/-- Step 1 of the degrade ladder: index of the first non-system message
at position `systemMessageCount ≤ i < messages.length - 1` (the user
query at the last position is never removed). -/
def findRemovableIdx (msgs : List ChatMessage) (k : Nat) : Option Nat :=
  (List.findIdx? (fun m => !(m.role == "system")) (msgs.dropLast.drop k)).map (fun i => i + k)

/-- The `while (actualTokens > availableTokens && messages.length >
systemMessageCount + 1)` removal loop (`systemMessageCount` is computed
once, before the loop).  Fuel-based structural recursion;
`reduceMessages` supplies fuel `msgs.length + 1`, enough because every
iteration removes one message. -/
def reduceLoopFuel (avail k : Nat) : Nat → List ChatMessage → List ChatMessage
  | 0, msgs => msgs
  | fuel + 1, msgs =>
    if countMessagesTokens msgs > avail ∧ msgs.length > k + 1 then
      match findRemovableIdx msgs k with
      | some i => reduceLoopFuel avail k fuel (msgs.eraseIdx i)
      | none => msgs
    else msgs

def reduceMessages (avail k : Nat) (msgs : List ChatMessage) : List ChatMessage :=
  reduceLoopFuel avail k (msgs.length + 1) msgs

/-- Step 2 of the degrade ladder: if still over budget, remove the first
system message whose content contains `'RELEVANT FILES:'`. -/
def dropFilesMessage (avail : Nat) (msgs : List ChatMessage) : List ChatMessage :=
  if countMessagesTokens msgs > avail then
    match List.findIdx?
        (fun m => m.role == "system" && containsSubAux ("RELEVANT FILES:".data) m.content.data)
        msgs with
    | some i => msgs.eraseIdx i
    | none => msgs
  else msgs

structure PromptMetadata where
  totalTokens : Nat
  availableTokens : Nat
  budget : TokenBudget
  fileCount : Nat
  historyMessageCount : Nat
  hasCompressedHistory : Bool
  wasReduced : Bool
deriving Repr, DecidableEq

structure PromptResult where
  messages : List ChatMessage
  metadata : PromptMetadata
deriving Repr, DecidableEq

/-- `buildPrompt(userQuery, options)`: available tokens reserve 800 for
the response; the history budget is `recentHistory + compressedHistory`;
after assembly the degrade ladder fires when the measured total exceeds
the available tokens.  Note that `wasReduced` is computed as
`actualTokens > availableTokens` only *after* the ladder ran. -/
def buildPrompt (systemPrompt : String) (customInstructions : Option String)
    (taskList : String) (relevantFiles : List PromptFile) (hist : History)
    (recentMessagesCount : Nat) (userQuery : String) (maxTokens : Nat) : PromptResult :=
  let availableTokens := calculateAvailableTokens maxTokens 800
  let budget := allocateTokenBudget availableTokens
  let hd := getMessagesForPrompt hist (budget.recentHistory + budget.compressedHistory)
    recentMessagesCount
  let messages := assembleMessages systemPrompt customInstructions taskList relevantFiles
    hd userQuery budget
  let k := (messages.filter (fun m => m.role == "system")).length
  let m1 := if countMessagesTokens messages > availableTokens
    then reduceMessages availableTokens k messages else messages
  let final := dropFilesMessage availableTokens m1
  { messages := final
    metadata :=
      { totalTokens := countMessagesTokens final
        availableTokens := availableTokens
        budget := budget
        fileCount := relevantFiles.length
        historyMessageCount := hd.recentMessages.length
        hasCompressedHistory := !(hd.compressedHistory == "")
        wasReduced := decide (countMessagesTokens final > availableTokens) } }

/-- A 35-character user message (10 tokens under the estimation
measure), enough to push the prompt of `buildPrompt_wasReduced_bug`
over its 20-token budget. -/
def overlongContent : String := "aaaaaaaaaaaaaaaaaaaaaaaaaaaaaaaaaaa"

/-! ## Action Extractor

Two surface grammars map to one canonical action set:

* Grammar A (tagged blocks): `ResponseParser.parseResponse`
  (src/unnamed/part_008) extracts actions with global case-insensitive
  regexes.  Each regex is a sequence of literals, `\s*` gaps, and lazy
  captures (`(.*?)` before a closing tag, `([\s\S]*?)` for multi-line
  bodies), modelled by `PatPiece` sequences; `regex.exec` with the `g`
  flag (leftmost match, then continue after it) is modelled by
  `execAll`.
* Grammar B (function calls): `parseToolCalls` and
  `convertToolCallsToActions` (src/unnamed/part_004).  `JSON.parse` of
  the argument string is an external primitive; its outcome is the
  `Option ToolArgs` carried by a raw call, `none` modelling a parse
  failure (the `catch` branch substitutes an empty argument object).
  Absent JSON fields read as `undefined`, modelled by `Option`. -/

/-- Case-folding for the `/i` regex flag (ASCII; the tag literals are
ASCII). -/
def chEqCI (a b : Char) : Bool :=
  asciiLowerChar a == asciiLowerChar b

/-- `l` is a case-insensitive prefix of `s`. -/
def ciStarts : List Char → List Char → Bool
  | [], _ => true
  | _ :: _, [] => false
  | a :: as, b :: bs => chEqCI a b && ciStarts as bs

/-- JavaScript regex line terminators (the characters `.` does not
match). -/
def isNlChar (c : Char) : Bool :=
  c = '\n' || c = '\r' || c = ' ' || c = ' '

/-- One piece of a source regex: a literal (matched case-insensitively
under `/i`), a `\s*` gap, a lazy single-line capture `(.*?)`, or a lazy
any-character capture `([\s\S]*?)`.  A capture piece is always followed
by its closing literal. -/
inductive PatPiece
| lit (l : List Char)
| ws
| capDot
| capAll
deriving Repr, DecidableEq

/-- Lazy capture up to the first (case-insensitive) occurrence of
`closer`: shortest capture first, extending one character at a time; a
`(.*?)` capture (`dotOnly`) cannot extend across a line terminator. -/
def scanClose (dotOnly : Bool) (closer : List Char) : List Char → Option (List Char × List Char)
  | [] => none
  | c :: rest =>
    if ciStarts closer (c :: rest) then some ([], (c :: rest).drop closer.length)
    else if dotOnly && isNlChar c then none
    else
      match scanClose dotOnly closer rest with
      | some (cap, rem) => some (c :: cap, rem)
      | none => none

/-- Match a piece sequence at the start of `s`: on success, the list of
captures and the remainder after the match.  (`\s*` before a literal is
deterministic because no literal starts with whitespace.) -/
def matchPieces : List PatPiece → List Char → Option (List (List Char) × List Char)
  | [], s => some ([], s)
  | .lit l :: ps, s => if ciStarts l s then matchPieces ps (s.drop l.length) else none
  | .ws :: ps, s => matchPieces ps (s.dropWhile jsWsChar)
  | .capDot :: ps, s =>
    match ps with
    | .lit l :: ps2 =>
      match scanClose true l s with
      | some (cap, rem) =>
        match matchPieces ps2 rem with
        | some (caps, rem2) => some (cap :: caps, rem2)
        | none => none
      | none => none
    | _ => none
  | .capAll :: ps, s =>
    match ps with
    | .lit l :: ps2 =>
      match scanClose false l s with
      | some (cap, rem) =>
        match matchPieces ps2 rem with
        | some (caps, rem2) => some (cap :: caps, rem2)
        | none => none
      | none => none
    | _ => none

/-- `while ((match = pattern.exec(text)) !== null)` with the `g` flag:
find the leftmost match at or after the current position, record its
captures, continue after it.  Fuel-based structural recursion; every
pattern below starts with a non-empty literal, so each step advances by
at least one character and fuel `s.length + 1` suffices. -/
def execAllFuel (pieces : List PatPiece) : Nat → List Char → List (List (List Char))
  | 0, _ => []
  | _ + 1, [] => []
  | fuel + 1, c :: rest =>
    match matchPieces pieces (c :: rest) with
    | some (caps, rem) => caps :: execAllFuel pieces fuel rem
    | none => execAllFuel pieces fuel rest

def execAll (pieces : List PatPiece) (s : List Char) : List (List (List Char)) :=
  execAllFuel pieces (s.length + 1) s

/-- `this.patterns.fileEdit`. -/
def fileEditPieces : List PatPiece :=
  [.lit "<file_edit>".data, .ws, .lit "<path>".data, .capDot, .lit "</path>".data,
   .ws, .lit "<operation>".data, .capDot, .lit "</operation>".data,
   .ws, .lit "<old>".data, .capAll, .lit "</old>".data,
   .ws, .lit "<new>".data, .capAll, .lit "</new>".data,
   .ws, .lit "</file_edit>".data]

/-- `this.patterns.fileCreate`. -/
def fileCreatePieces : List PatPiece :=
  [.lit "<file_create>".data, .ws, .lit "<path>".data, .capDot, .lit "</path>".data,
   .ws, .lit "<content>".data, .capAll, .lit "</content>".data,
   .ws, .lit "</file_create>".data]

/-- `this.patterns.fileDelete`. -/
def fileDeletePieces : List PatPiece :=
  [.lit "<file_delete>".data, .ws, .lit "<path>".data, .capDot, .lit "</path>".data,
   .ws, .lit "</file_delete>".data]

/-- `this.patterns.taskUpdate`. -/
def taskUpdatePieces : List PatPiece :=
  [.lit "<task_update>".data, .capAll, .lit "</task_update>".data]

/-- `this.patterns.question`. -/
def questionPieces : List PatPiece :=
  [.lit "<question>".data, .capAll, .lit "</question>".data]

/-- `this.patterns.search`. -/
def searchPieces : List PatPiece :=
  [.lit "<search>".data, .capAll, .lit "</search>".data]

/-- `this.patterns.readLines`. -/
def readLinesPieces : List PatPiece :=
  [.lit "<read_lines>".data, .ws, .lit "<path>".data, .capDot, .lit "</path>".data,
   .ws, .lit "<start>".data, .capDot, .lit "</start>".data,
   .ws, .lit "<end>".data, .capDot, .lit "</end>".data,
   .ws, .lit "</read_lines>".data]

/-- `cleanPath`: trim, strip a leading `---` marker (with following
whitespace), a trailing `---` marker (with preceding whitespace), one
surrounding quote character on each side, and trim again. -/
def cleanPathChars (cs : List Char) : List Char :=
  let t1 := jsTrimChars cs
  let t2 := if ['-', '-', '-'].isPrefixOf t1 then (t1.drop 3).dropWhile jsWsChar else t1
  let t3 := if ['-', '-', '-'].isPrefixOf t2.reverse
    then ((t2.reverse.drop 3).dropWhile jsWsChar).reverse else t2
  let t4 := match t3 with
    | [] => ([] : List Char)
    | c :: rest => if c = '"' || c = '\'' then rest else c :: rest
  let t5 := match t4.reverse with
    | [] => ([] : List Char)
    | c :: rest => if c = '"' || c = '\'' then rest.reverse else t4
  jsTrimChars t5

def cleanPath (s : String) : String :=
  String.mk (cleanPathChars s.data)

/-- A `fileEdits` item of `parseResponse` (the constant `type: 'edit'`
tag is omitted; it is never consulted downstream). -/
structure FileEditAction where
  path : String
  operation : String
  oldText : String
  newText : String
deriving Repr, DecidableEq

/-- A `fileCreates` item (constant `type: 'create'` omitted). -/
structure FileCreateAction where
  path : String
  content : String
deriving Repr, DecidableEq

/-- A `fileDeletes` item (constant `type: 'delete'` omitted). -/
structure FileDeleteAction where
  path : String
deriving Repr, DecidableEq

structure TaskUpdateItem where
  status : String
  description : String
deriving Repr, DecidableEq

structure ReadLinesAction where
  path : String
  startLine : Int
  endLine : Int
deriving Repr, DecidableEq

def capsGet (caps : List (List Char)) (i : Nat) : List Char :=
  (caps.drop i).headD []

def extractFileEdits (s : String) : List FileEditAction :=
  (execAll fileEditPieces s.data).map (fun caps =>
    { path := cleanPath (String.mk (capsGet caps 0))
      operation := jsTrim (String.mk (capsGet caps 1))
      oldText := jsTrim (String.mk (capsGet caps 2))
      newText := jsTrim (String.mk (capsGet caps 3)) })

def extractFileCreates (s : String) : List FileCreateAction :=
  (execAll fileCreatePieces s.data).map (fun caps =>
    { path := cleanPath (String.mk (capsGet caps 0))
      content := jsTrim (String.mk (capsGet caps 1)) })

def extractFileDeletes (s : String) : List FileDeleteAction :=
  (execAll fileDeletePieces s.data).map (fun caps =>
    { path := cleanPath (String.mk (capsGet caps 0)) })

/-- One line of `_parseTaskUpdateContent`: the `- DONE:`/`- ✓`,
`- TODO:`/`- [ ]`, `- IN_PROGRESS:`/`- [~]` and bare `- ` forms (the
tag and the following whitespace are stripped from the description; the
bare `- ` form strips exactly those two characters). -/
def parseTaskLine (line : List Char) : Option TaskUpdateItem :=
  let t := jsTrimChars line
  if "- DONE:".data.isPrefixOf t then
    some ⟨"completed", String.mk ((t.drop 7).dropWhile jsWsChar)⟩
  else if "- ✓".data.isPrefixOf t then
    some ⟨"completed", String.mk ((t.drop 3).dropWhile jsWsChar)⟩
  else if "- TODO:".data.isPrefixOf t then
    some ⟨"pending", String.mk ((t.drop 7).dropWhile jsWsChar)⟩
  else if "- [ ]".data.isPrefixOf t then
    some ⟨"pending", String.mk ((t.drop 5).dropWhile jsWsChar)⟩
  else if "- IN_PROGRESS:".data.isPrefixOf t then
    some ⟨"in-progress", String.mk ((t.drop 14).dropWhile jsWsChar)⟩
  else if "- [~]".data.isPrefixOf t then
    some ⟨"in-progress", String.mk ((t.drop 5).dropWhile jsWsChar)⟩
  else if "- ".data.isPrefixOf t then
    some ⟨"pending", String.mk (t.drop 2)⟩
  else none

def parseTaskUpdateContent (content : String) : List TaskUpdateItem :=
  (splitNl content.data).filterMap parseTaskLine

def extractTaskUpdates (s : String) : List TaskUpdateItem :=
  ((execAll taskUpdatePieces s.data).map (fun caps =>
    parseTaskUpdateContent (jsTrim (String.mk (capsGet caps 0))))).flatten

def extractQuestions (s : String) : List String :=
  (execAll questionPieces s.data).map (fun caps => jsTrim (String.mk (capsGet caps 0)))

/-- Split on `,` or `\n` (the `searchContent.split(/[,\n]/)` of
`extractSearches`). -/
def splitCommaNl : List Char → List (List Char)
  | [] => [[]]
  | c :: rest =>
    if c = ',' || c = '\n' then [] :: splitCommaNl rest
    else
      match splitCommaNl rest with
      | [] => [[c]]
      | l :: ls => (c :: l) :: ls

def extractSearches (s : String) : List String :=
  ((execAll searchPieces s.data).map (fun caps =>
    ((splitCommaNl (jsTrimChars (capsGet caps 0))).map jsTrimChars).filterMap
      (fun k => if k = [] then none else some (String.mk k)))).flatten

def isDigitChar (c : Char) : Bool :=
  c = '0' || c = '1' || c = '2' || c = '3' || c = '4' ||
  c = '5' || c = '6' || c = '7' || c = '8' || c = '9'

/-- The value of the longest leading digit run (`none` when there is no
leading digit, i.e. `parseInt` yields `NaN`). -/
def digitsValue (cs : List Char) : Option Nat :=
  let ds := cs.takeWhile isDigitChar
  if ds = [] then none
  else some (ds.foldl (fun a c => 10 * a + (c.toNat - 48)) 0)

/-- Sign and digit-run handling of `parseInt` after whitespace
skipping. -/
def jsParseIntSigned : List Char → Option Int
  | [] => none
  | c :: rest =>
    if c = '-' then
      match digitsValue rest with
      | some v => some (-(Int.ofNat v))
      | none => none
    else if c = '+' then
      match digitsValue rest with
      | some v => some (Int.ofNat v)
      | none => none
    else
      match digitsValue (c :: rest) with
      | some v => some (Int.ofNat v)
      | none => none

/-- `parseInt(str, 10)`: skip leading whitespace, optional sign, longest
digit prefix; `none` models `NaN`. -/
def jsParseIntChars (cs : List Char) : Option Int :=
  jsParseIntSigned (cs.dropWhile jsWsChar)

def extractReadLines (s : String) : List ReadLinesAction :=
  (execAll readLinesPieces s.data).filterMap (fun caps =>
    match jsParseIntChars (jsTrimChars (capsGet caps 1)),
          jsParseIntChars (jsTrimChars (capsGet caps 2)) with
    | some a, some b => some
      { path := cleanPath (String.mk (capsGet caps 0))
        startLine := a
        endLine := b }
    | _, _ => none)

/-- `parseResponse` (the `originalText` and `plainText` fields, which
merely echo/strip the input for display, are not consulted by the
action pipeline and are omitted). -/
structure ParsedResponse where
  fileEdits : List FileEditAction
  fileCreates : List FileCreateAction
  fileDeletes : List FileDeleteAction
  taskUpdates : List TaskUpdateItem
  questions : List String
  searches : List String
  readLines : List ReadLinesAction
deriving Repr, DecidableEq

def parseResponse (s : String) : ParsedResponse where
  fileEdits := extractFileEdits s
  fileCreates := extractFileCreates s
  fileDeletes := extractFileDeletes s
  taskUpdates := extractTaskUpdates s
  questions := extractQuestions s
  searches := extractSearches s
  readLines := extractReadLines s

/-! ### Grammar B: tool calls -/

/-- The argument object of a tool call, as read by
`convertToolCallsToActions` (a missing JSON key reads as `undefined`,
i.e. `none`). -/
structure ToolArgs where
  path : Option String
  old_text : Option String
  new_text : Option String
  description : Option String
  content : Option String
  reason : Option String
  status : Option String
  keywords : Option (List String)
  start_line : Option Int
  end_line : Option Int
deriving Repr, DecidableEq

def emptyToolArgs : ToolArgs :=
  ⟨none, none, none, none, none, none, none, none, none, none⟩

/-- A raw `tool_calls` entry: `id`, `function.name`, and the outcome of
`JSON.parse(function.arguments)` (`none` = the parse threw). -/
structure RawToolCall where
  id : String
  name : String
  argsJson : Option ToolArgs
deriving Repr, DecidableEq

/-- A `parseToolCalls` result entry; `parseFailed` models the
`error: 'Failed to parse arguments'` marker of the catch branch. -/
structure ParsedToolCall where
  id : String
  name : String
  arguments : ToolArgs
  parseFailed : Bool
deriving Repr, DecidableEq

/-- `parseToolCalls(response)`: every call is kept; a failing argument
parse yields the call with an empty argument object and the error
marker (it is *not* dropped).  An absent/empty `tool_calls` list yields
`[]`. -/
def parseToolCalls (toolCalls : List RawToolCall) : List ParsedToolCall :=
  toolCalls.map (fun tc =>
    match tc.argsJson with
    | some args => ⟨tc.id, tc.name, args, false⟩
    | none => ⟨tc.id, tc.name, emptyToolArgs, true⟩)

structure ToolEditItem where
  path : Option String
  oldText : Option String
  newText : Option String
  description : Option String
deriving Repr, DecidableEq

structure ToolCreateItem where
  path : Option String
  content : Option String
  description : Option String
deriving Repr, DecidableEq

structure ToolDeleteItem where
  path : Option String
  reason : Option String
deriving Repr, DecidableEq

structure ToolTaskItem where
  description : Option String
  status : Option String
deriving Repr, DecidableEq

structure ToolReadLinesItem where
  path : Option String
  startLine : Option Int
  endLine : Option Int
deriving Repr, DecidableEq

/-- The action-set record produced by `convertToolCallsToActions`
(same field layout as the `parseResponse` result, so tool-based
responses feed the existing execution pipeline). -/
structure ToolActions where
  searches : List String
  readLines : List ToolReadLinesItem
  fileEdits : List ToolEditItem
  fileCreates : List ToolCreateItem
  fileDeletes : List ToolDeleteItem
  taskUpdates : List ToolTaskItem
deriving Repr, DecidableEq

def emptyToolActions : ToolActions := ⟨[], [], [], [], [], []⟩

/-- `convertToolCallsToActions(toolCalls)`: the fixed name→kind table;
`search_code` flattens its keyword array (`args.keywords || []`) into
the shared `searches` list; unknown names are skipped; the `error`
marker of a failed parse is never consulted. -/
def convertToolCallsToActions (toolCalls : List ParsedToolCall) : ToolActions :=
  toolCalls.foldl (fun actions tc =>
    match tc.name with
    | "search_code" =>
      { actions with searches := actions.searches ++ (tc.arguments.keywords.getD []) }
    | "read_file_lines" =>
      { actions with readLines := actions.readLines ++
          [⟨tc.arguments.path, tc.arguments.start_line, tc.arguments.end_line⟩] }
    | "edit_file" =>
      { actions with fileEdits := actions.fileEdits ++
          [⟨tc.arguments.path, tc.arguments.old_text, tc.arguments.new_text,
            tc.arguments.description⟩] }
    | "create_file" =>
      { actions with fileCreates := actions.fileCreates ++
          [⟨tc.arguments.path, tc.arguments.content, tc.arguments.description⟩] }
    | "delete_file" =>
      { actions with fileDeletes := actions.fileDeletes ++
          [⟨tc.arguments.path, tc.arguments.reason⟩] }
    | "update_task" =>
      { actions with taskUpdates := actions.taskUpdates ++
          [⟨tc.arguments.description, tc.arguments.status⟩] }
    | _ => actions) emptyToolActions

/-! ### The canonical action set

The canonical content of an action is the fields the executor
(`executeActions` and the follow-up handling in src/src/index.js)
consumes: `path`/`oldText`/`newText` for edits, `path`/`content` for
creates, `path` for deletes, `description`/`status` for task updates,
the flat keyword list for searches, and `path`/`startLine`/`endLine`
for read-range requests.  Tool-side values sit in `Option` because a
malformed argument object leaves them `undefined`; the tagged-block
parser always produces present strings. -/

structure CanonActions where
  searches : List String
  readLines : List (Option String × Option Int × Option Int)
  fileEdits : List (Option String × Option String × Option String)
  fileCreates : List (Option String × Option String)
  fileDeletes : List (Option String)
  taskUpdates : List (Option String × Option String)
deriving Repr, DecidableEq

def canonOfParsed (p : ParsedResponse) : CanonActions where
  searches := p.searches
  readLines := p.readLines.map (fun r => (some r.path, some r.startLine, some r.endLine))
  fileEdits := p.fileEdits.map (fun e => (some e.path, some e.oldText, some e.newText))
  fileCreates := p.fileCreates.map (fun c => (some c.path, some c.content))
  fileDeletes := p.fileDeletes.map (fun d => some d.path)
  taskUpdates := p.taskUpdates.map (fun t => (some t.description, some t.status))

def canonOfTool (t : ToolActions) : CanonActions where
  searches := t.searches
  readLines := t.readLines.map (fun r => (r.path, r.startLine, r.endLine))
  fileEdits := t.fileEdits.map (fun e => (e.path, e.oldText, e.newText))
  fileCreates := t.fileCreates.map (fun c => (c.path, c.content))
  fileDeletes := t.fileDeletes.map (fun d => d.path)
  taskUpdates := t.taskUpdates.map (fun u => (u.description, u.status))

/-! ### Intents and their renderings in the two grammars -/

/-- An intent expressible in both surface grammars (the task-update
intent carries completed/pending, the two statuses of the function-call
schema's enum). -/
inductive Intent
| edit (path oldText newText : String)
| create (path content : String)
| delete (path : String)
| taskUpd (description : String) (completed : Bool)
| search (keywords : List String)
| readRange (path : String) (startLine endLine : Int)
deriving Repr, DecidableEq

def digitChar : Nat → Char
  | 0 => '0' | 1 => '1' | 2 => '2' | 3 => '3' | 4 => '4'
  | 5 => '5' | 6 => '6' | 7 => '7' | 8 => '8' | _ => '9'

/-- Decimal digits of `n` (fuel-based: `n / 10 < n`). -/
def natDecAux : Nat → Nat → List Char
  | 0, _ => []
  | fuel + 1, n =>
    if n < 10 then [digitChar n]
    else natDecAux fuel (n / 10) ++ [digitChar (n % 10)]

def natDec (n : Nat) : List Char :=
  natDecAux (n + 1) n

def intDec (n : Int) : List Char :=
  if n < 0 then '-' :: natDec (-n).toNat else natDec n.toNat

/-- Comma-space joining of the search keywords (`k1, k2, k3`). -/
def joinComma : List (List Char) → List Char
  | [] => []
  | [k] => k
  | k :: k2 :: rest => k ++ (',' :: ' ' :: joinComma (k2 :: rest))

/-- The tagged-block rendering of an intent, in the exact shape the
system prompt instructs the model to produce. -/
def renderTaggedChars : Intent → List Char
  | .edit p o n =>
    "<file_edit>".data ++ ("\n".data ++ ("<path>".data ++ (p.data ++ ("</path>".data ++
      ("\n".data ++ ("<operation>".data ++ ("replace".data ++ ("</operation>".data ++
      ("\n".data ++ ("<old>".data ++ (o.data ++ ("</old>".data ++
      ("\n".data ++ ("<new>".data ++ (n.data ++ ("</new>".data ++
      ("\n".data ++ "</file_edit>".data)))))))))))))))))
  | .create p c =>
    "<file_create>".data ++ ("\n".data ++ ("<path>".data ++ (p.data ++ ("</path>".data ++
      ("\n".data ++ ("<content>".data ++ (c.data ++ ("</content>".data ++
      ("\n".data ++ "</file_create>".data)))))))))
  | .delete p =>
    "<file_delete>".data ++ ("\n".data ++ ("<path>".data ++ (p.data ++ ("</path>".data ++
      ("\n".data ++ "</file_delete>".data)))))
  | .taskUpd d completed =>
    "<task_update>".data ++
      (("\n".data ++ ((if completed then "- DONE: ".data else "- TODO: ".data) ++
        (d.data ++ "\n".data))) ++ "</task_update>".data)
  | .search kws =>
    "<search>".data ++
      (("\n".data ++ (joinComma (kws.map String.data) ++ "\n".data)) ++
        "</search>".data)
  | .readRange p a b =>
    "<read_lines>".data ++ ("\n".data ++ ("<path>".data ++ (p.data ++ ("</path>".data ++
      ("\n".data ++ ("<start>".data ++ (intDec a ++ ("</start>".data ++
      ("\n".data ++ ("<end>".data ++ (intDec b ++ ("</end>".data ++
      ("\n".data ++ "</read_lines>".data)))))))))))))

def renderTagged (i : Intent) : String :=
  String.mk (renderTaggedChars i)

/-- The function-call rendering of an intent, per the
`getToolDefinitions` schema.  The schema-required `description` (for
edit/create) and `reason` (for delete) fields have no tagged-block
counterpart and are sent empty; the canonical projection never reads
them. -/
def renderToolCall : Intent → RawToolCall
  | .edit p o n =>
    ⟨"call_1", "edit_file", some { emptyToolArgs with
      path := some p, old_text := some o, new_text := some n, description := some "" }⟩
  | .create p c =>
    ⟨"call_1", "create_file", some { emptyToolArgs with
      path := some p, content := some c, description := some "" }⟩
  | .delete p =>
    ⟨"call_1", "delete_file", some { emptyToolArgs with
      path := some p, reason := some "" }⟩
  | .taskUpd d completed =>
    ⟨"call_1", "update_task", some { emptyToolArgs with
      description := some d,
      status := some (if completed then "completed" else "pending") }⟩
  | .search kws =>
    ⟨"call_1", "search_code", some { emptyToolArgs with keywords := some kws }⟩
  | .readRange p a b =>
    ⟨"call_1", "read_file_lines", some { emptyToolArgs with
      path := some p, start_line := some a, end_line := some b }⟩

/-! ### Matcher lemmas -/

def noTagCharB (cs : List Char) : Bool := cs.all (fun c => !(chEqCI c '<'))

def noNlCharB (cs : List Char) : Bool := cs.all (fun c => !(isNlChar c))

/-- Prepend a capture to a pending match result. -/
def capWrap (cap : List Char) (res : Option (List (List Char) × List Char)) :
    Option (List (List Char) × List Char) :=
  match res with
  | some (caps, rem) => some (cap :: caps, rem)
  | none => none

/-- "There is a case-insensitive occurrence of `l` starting at some
position of `s`." -/
def hasCIAt (l : List Char) : List Char → Bool
  | [] => ciStarts l []
  | c :: rest => ciStarts l (c :: rest) || hasCIAt l rest

/-! ### Well-formed intents

An intent is well-formed for the tagged-block grammar when its text
fields survive the round trip untouched: no `<` (which would open a
tag), paths single-line and already in `cleanPath` normal form, bodies
already trimmed, task descriptions non-empty and single-line, keyword
lists non-empty with trimmed, comma/newline-free, non-empty keywords. -/

def pathOkB (p : String) : Bool :=
  noTagCharB p.data && noNlCharB p.data && (cleanPath p == p)

def bodyOkB (t : String) : Bool :=
  noTagCharB t.data && (jsTrim t == t)

def descOkB (d : String) : Bool :=
  noTagCharB d.data && noNlCharB d.data && (jsTrim d == d) && !(d == "")

def kwOkB (k : String) : Bool :=
  noTagCharB k.data && (jsTrim k == k) && !(k == "") &&
    k.data.all (fun c => !(c = ',' || c = '\n'))

def wellFormedIntent : Intent → Bool
  | .edit p o n => pathOkB p && bodyOkB o && bodyOkB n
  | .create p c => pathOkB p && bodyOkB c
  | .delete p => pathOkB p
  | .taskUpd d _ => descOkB d
  | .search kws => !kws.isEmpty && kws.all kwOkB
  | .readRange p _ _ => pathOkB p

theorem countTokens_append_le (a b : String) :
    countTokens (a ++ b) ≤ countTokens a + countTokens b := by
  simp only [countTokens, estimateTokens, String.length_append]
  have h1 := Nat.div_add_mod (2 * a.length + 6) 7
  have h2 := Nat.div_add_mod (2 * b.length + 6) 7
  have h3 := Nat.div_add_mod (2 * (a.length + b.length) + 6) 7
  have m1 : (2 * a.length + 6) % 7 < 7 := Nat.mod_lt _ (by omega)
  have m2 : (2 * b.length + 6) % 7 < 7 := Nat.mod_lt _ (by omega)
  have m3 : (2 * (a.length + b.length) + 6) % 7 < 7 := Nat.mod_lt _ (by omega)
  omega

theorem countTokens_empty : countTokens "" = 0 := rfl

theorem truncShrinkFuel_le (maxTokens : Nat) :
    ∀ (fuel : Nat) (s : String), s.length < fuel →
      countTokens (truncShrinkFuel maxTokens fuel s) ≤ maxTokens := by
  intro fuel
  induction fuel with
  | zero => intro s h; omega
  | succ f ih =>
    intro s h
    rw [truncShrinkFuel]
    by_cases hc : countTokens s > maxTokens ∧ 0 < s.length
    · rw [if_pos hc]
      apply ih
      have hlen : (jsSubstringTo s (s.length - 100)).length = min (s.length - 100) s.length := by
        show (s.data.take (s.length - 100)).length = _
        rw [List.length_take]
        rfl
      omega
    · rw [if_neg hc]
      rcases Nat.lt_or_ge maxTokens (countTokens s) with hgt | hle
      · have hz : s.length = 0 := by
          by_contra hne
          exact hc ⟨hgt, Nat.pos_of_ne_zero hne⟩
        have : countTokens s = 0 := by
          simp [countTokens, estimateTokens, hz]
        omega
      · exact hle

theorem truncShrink_le (maxTokens : Nat) (s : String) :
    countTokens (truncShrink maxTokens s) ≤ maxTokens :=
  truncShrinkFuel_le maxTokens (s.length + 1) s (Nat.lt_succ_self _)

/-- Claim C1 fails on the code: the truncation marker is appended *after*
the re-measuring shrink loop, so the returned string can measure more
than `maxTokens` tokens.  At `text = "aaaa"`, `maxTokens = 0` the result
is exactly the marker, which measures 5 tokens. -/
theorem truncateToTokenLimit_marker_exceeds :
    truncateToTokenLimit "aaaa" 0 = "\n... [truncated]" ∧
    countTokens (truncateToTokenLimit "aaaa" 0) = 5 ∧
    ¬ countTokens (truncateToTokenLimit "aaaa" 0) ≤ 0 := by
  refine ⟨?_, ?_, ?_⟩ <;> decide

/-- Claim C1 (amended): the body kept by the re-measuring loop measures
at most `maxTokens`, so the returned string (body plus marker) measures
at most `maxTokens` plus the token cost of the marker (5 tokens under
the repository's estimation measure). -/
theorem truncateToTokenLimit_le_plus_marker (text : String) (maxTokens : Nat) :
    countTokens (truncateToTokenLimit text maxTokens) ≤
      maxTokens + countTokens truncationMarker := by
  rw [truncateToTokenLimit]
  by_cases h0 : text = ""
  · rw [if_pos h0]
    have h : countTokens "" = 0 := rfl
    omega
  · rw [if_neg h0]
    by_cases h1 : countTokens text ≤ maxTokens
    · rw [if_pos h1]
      omega
    · rw [if_neg h1]
      calc countTokens (truncShrink maxTokens
              (jsSubstringTo text (19 * text.length * maxTokens / (20 * countTokens text)))
              ++ truncationMarker)
          ≤ countTokens (truncShrink maxTokens
              (jsSubstringTo text (19 * text.length * maxTokens / (20 * countTokens text))))
              + countTokens truncationMarker := countTokens_append_le _ _
        _ ≤ maxTokens + countTokens truncationMarker := by
            have := truncShrink_le maxTokens
              (jsSubstringTo text (19 * text.length * maxTokens / (20 * countTokens text)))
            omega

/-- Claim C6: `compressHistory` leaves the ledger unchanged whenever the
full window has at most `keepRecentCount` messages or the summarization
collaborator errors. -/
theorem compressHistory_noop (h : History) (k : Nat) (res : Except String String)
    (hcond : h.full.length ≤ k ∨ res.isOk = false) :
    compressHistory h k res = h := by
  rw [compressHistory]
  by_cases hlen : h.full.length ≤ k
  · rw [if_pos hlen]
  · rw [if_neg hlen]
    rcases hcond with hc | hc
    · exact absurd hc hlen
    · by_cases hz : (if k = 0 then ([] : List ChatMessage)
        else h.full.take (h.full.length - k)).length = 0
      · rw [if_pos hz]
      · rw [if_neg hz]
        cases res with
        | error e => rfl
        | ok s => exact Bool.noConfusion (show true = false from hc)

/-- Witness for C6: a one-message window with `keepRecentCount = 5` is
left untouched even when the collaborator would have succeeded. -/
theorem compressHistory_noop_witness :
    compressHistory ⟨[⟨"user", "hi"⟩], ""⟩ 5 (Except.ok "summary") =
      ⟨[⟨"user", "hi"⟩], ""⟩ :=
  compressHistory_noop ⟨[⟨"user", "hi"⟩], ""⟩ 5 (Except.ok "summary")
    (Or.inl (by decide))

/-- Claim C7 fails on the code at two points: with `keepRecentCount = 0`
a window longer than `keepRecentCount` is not compressed at all
(`slice(0, -0)` is empty, so the full window keeps its old length
instead of becoming `keepRecentCount`), and a successful compression
whose collaborator returns the empty summary leaves `compressed` empty,
not non-empty. -/
theorem compressHistory_c7_cex :
    compressHistory ⟨[⟨"user", "a"⟩], ""⟩ 0 (Except.ok "s") = ⟨[⟨"user", "a"⟩], ""⟩ ∧
    (compressHistory ⟨[⟨"user", "a"⟩], ""⟩ 0 (Except.ok "s")).full.length = 1 ∧
    (compressHistory ⟨[⟨"user", "a"⟩, ⟨"user", "b"⟩], ""⟩ 1 (Except.ok "")).compressed = "" := by
  refine ⟨?_, ?_, ?_⟩ <;> decide

/-- Claim C7 (amended): for `keepRecentCount ≥ 1` and a window longer
than `keepRecentCount`, a successful compression keeps exactly the last
`keepRecentCount` messages in order, appends the new summary to a
pre-existing one after a `"\n\n"` separator rather than replacing it,
and the summary string is non-empty whenever the collaborator's summary
or the prior summary is non-empty. -/
theorem compressHistory_success (h : History) (k : Nat) (s : String)
    (hk : 1 ≤ k) (hlen : k < h.full.length) :
    (compressHistory h k (Except.ok s)).full = h.full.drop (h.full.length - k) ∧
    (compressHistory h k (Except.ok s)).full.length = k ∧
    (compressHistory h k (Except.ok s)).compressed =
      (if h.compressed = "" then s else h.compressed ++ "\n\n" ++ s) ∧
    ((s ≠ "" ∨ h.compressed ≠ "") → (compressHistory h k (Except.ok s)).compressed ≠ "") := by
  have hk0 : k ≠ 0 := by omega
  have hnle : ¬ h.full.length ≤ k := by omega
  have htake : (h.full.take (h.full.length - k)).length = h.full.length - k := by
    rw [List.length_take]
    omega
  have hres : compressHistory h k (Except.ok s) =
      { full := h.full.drop (h.full.length - k)
        compressed := if h.compressed = "" then s else h.compressed ++ "\n\n" ++ s } := by
    rw [compressHistory, if_neg hnle]
    simp only [if_neg hk0]
    rw [if_neg (by rw [htake]; omega : ¬ (h.full.take (h.full.length - k)).length = 0)]
  refine ⟨by rw [hres], ?_, by rw [hres], ?_⟩
  · rw [hres]
    show (h.full.drop (h.full.length - k)).length = k
    rw [List.length_drop]
    omega
  · intro hne
    rw [hres]
    by_cases hc : h.compressed = ""
    · rcases hne with hs | hcc
      · simpa [hc] using hs
      · exact absurd hc hcc
    · simp only [if_neg hc]
      intro heq
      have hlen2 := congrArg String.length heq
      rw [String.length_append, String.length_append] at hlen2
      have h2 : (String.length "\n\n") = 2 := rfl
      have h0 : (String.length "") = 0 := rfl
      omega

/-- Witness for C7 (amended): three messages, keep 1, summary `"S"`
appended to the prior summary `"P"` after the separator. -/
theorem compressHistory_success_witness :
    (compressHistory ⟨[⟨"user", "a"⟩, ⟨"assistant", "b"⟩, ⟨"user", "c"⟩], "P"⟩ 1
        (Except.ok "S")).full =
      ([⟨"user", "a"⟩, ⟨"assistant", "b"⟩, ⟨"user", "c"⟩] : List ChatMessage).drop (3 - 1) ∧
    (compressHistory ⟨[⟨"user", "a"⟩, ⟨"assistant", "b"⟩, ⟨"user", "c"⟩], "P"⟩ 1
        (Except.ok "S")).full.length = 1 ∧
    (compressHistory ⟨[⟨"user", "a"⟩, ⟨"assistant", "b"⟩, ⟨"user", "c"⟩], "P"⟩ 1
        (Except.ok "S")).compressed =
      (if ("P" : String) = "" then "S" else "P" ++ "\n\n" ++ "S") ∧
    (compressHistory ⟨[⟨"user", "a"⟩, ⟨"assistant", "b"⟩, ⟨"user", "c"⟩], "P"⟩ 1
        (Except.ok "S")).compressed ≠ "" := by
  have h := compressHistory_success
    ⟨[⟨"user", "a"⟩, ⟨"assistant", "b"⟩, ⟨"user", "c"⟩], "P"⟩ 1 "S"
    (by decide) (by decide)
  exact ⟨h.1, h.2.1, h.2.2.1, h.2.2.2 (Or.inl (by decide))⟩

/-- Claim C10 fails as stated at `recentCount = 0`: `slice(-0)` returns
the whole window, not the last 0 messages. -/
theorem getMessagesForPrompt_count_zero_cex :
    (getMessagesForPrompt ⟨[⟨"user", "hi"⟩], ""⟩ 100 0).recentMessages =
      [⟨"user", "hi"⟩] ∧
    (getMessagesForPrompt ⟨[⟨"user", "hi"⟩], ""⟩ 100 0).recentMessages ≠ [] := by
  refine ⟨?_, ?_⟩ <;> decide

/-- Claim C10 (amended): `getMessagesForPrompt` returns a verbatim
suffix of the full window — for `recentCount ≥ 1` exactly the last
`recentCount` messages, for `recentCount = 0` the whole window — and it
never truncates them, whatever the budget; only the compressed summary
is ever returned truncated or emptied, and it is returned unchanged
whenever recent messages plus summary fit the budget. -/
theorem getMessagesForPrompt_frame (h : History) (budget count : Nat) :
    List.IsSuffix (getMessagesForPrompt h budget count).recentMessages h.full ∧
    (1 ≤ count → (getMessagesForPrompt h budget count).recentMessages =
      h.full.drop (h.full.length - count)) ∧
    (count = 0 → (getMessagesForPrompt h budget count).recentMessages = h.full) ∧
    (countMessagesTokens (getRecentMessages h count) + countTokens h.compressed ≤ budget →
      (getMessagesForPrompt h budget count).compressedHistory = h.compressed) ∧
    ((getMessagesForPrompt h budget count).compressedHistory = h.compressed ∨
     (getMessagesForPrompt h budget count).compressedHistory =
       truncateToTokenLimit h.compressed
         (budget - countMessagesTokens (getRecentMessages h count)) ∨
     (getMessagesForPrompt h budget count).compressedHistory = "") := by
  have hrec : (getMessagesForPrompt h budget count).recentMessages =
      getRecentMessages h count := by
    rw [getMessagesForPrompt]
    by_cases h1 : countMessagesTokens (getRecentMessages h count) +
        countTokens h.compressed > budget
    · rw [if_pos h1]
      by_cases h2 : countMessagesTokens (getRecentMessages h count) < budget
      · rw [if_pos h2]
      · rw [if_neg h2]
    · rw [if_neg h1]
  refine ⟨?_, ?_, ?_, ?_, ?_⟩
  · rw [hrec, getRecentMessages]
    by_cases hc : count = 0
    · rw [if_pos hc]
    · rw [if_neg hc]
      exact List.drop_suffix _ _
  · intro hc
    rw [hrec, getRecentMessages, if_neg (by omega : ¬ count = 0)]
  · intro hc
    rw [hrec, getRecentMessages, if_pos hc]
  · intro hfits
    rw [getMessagesForPrompt, if_neg (by omega)]
  · rw [getMessagesForPrompt]
    by_cases h1 : countMessagesTokens (getRecentMessages h count) +
        countTokens h.compressed > budget
    · rw [if_pos h1]
      by_cases h2 : countMessagesTokens (getRecentMessages h count) < budget
      · rw [if_pos h2]
        right; left; rfl
      · rw [if_neg h2]
        right; right; rfl
    · rw [if_neg h1]
      left; rfl

/-- Witness for C10 (amended): with two messages and `recentCount = 1`
only the last message is returned, and a fitting summary is unchanged. -/
theorem getMessagesForPrompt_frame_witness :
    (getMessagesForPrompt ⟨[⟨"user", "a"⟩, ⟨"assistant", "b"⟩], "cc"⟩ 100 1).recentMessages =
      ([⟨"user", "a"⟩, ⟨"assistant", "b"⟩] : List ChatMessage).drop (2 - 1) ∧
    (getMessagesForPrompt ⟨[⟨"user", "a"⟩, ⟨"assistant", "b"⟩], "cc"⟩ 100 1).compressedHistory =
      "cc" := by
  have h := getMessagesForPrompt_frame ⟨[⟨"user", "a"⟩, ⟨"assistant", "b"⟩], "cc"⟩ 100 1
  exact ⟨h.2.1 (by decide), h.2.2.2.1 (by decide)⟩

theorem splitNl_ne_nil (cs : List Char) : splitNl cs ≠ [] := by
  cases cs with
  | nil => simp [splitNl]
  | cons c rest =>
    rw [splitNl]
    by_cases hc : c = '\n'
    · rw [if_pos hc]; simp
    · rw [if_neg hc]
      cases splitNl rest <;> simp

/-- Claim C8: with 1-indexed bounds (`1 ≤ startLine`), `readLineRange`
errors exactly when `startLine > endLine` or `startLine` is beyond the
end of the file; otherwise it clamps the range to the file and returns
the selected lines together with the total line count. -/
theorem readLineRange_spec (content : String) (s e : Int) (hs : 1 ≤ s) :
    ((∃ msg, readLineRange content s e = Except.error msg) ↔
      (e < s ∨ ((linesOf content).length : Int) < s)) ∧
    (¬ (e < s ∨ ((linesOf content).length : Int) < s) →
      readLineRange content s e = Except.ok
        { startLine := s
          endLine := min ((linesOf content).length : Int) e
          totalLines := (linesOf content).length
          lines := ((linesOf content).drop (s - 1).toNat).take
            ((min ((linesOf content).length : Int) e - s + 1).toNat)
          content := String.intercalate "\n"
            (((linesOf content).drop (s - 1).toNat).take
              ((min ((linesOf content).length : Int) e - s + 1).toNat)) }) := by
  have hcond : (max 0 (s - 1) > min (((linesOf content).length : Int) - 1) (e - 1) ∨
      max 0 (s - 1) ≥ ((linesOf content).length : Int)) ↔
      (e < s ∨ ((linesOf content).length : Int) < s) := by
    omega
  constructor
  · constructor
    · rintro ⟨msg, hmsg⟩
      rw [readLineRange] at hmsg
      by_cases hc : (max 0 (s - 1) > min (((linesOf content).length : Int) - 1) (e - 1) ∨
          max 0 (s - 1) ≥ ((linesOf content).length : Int))
      · exact hcond.mp hc
      · rw [if_neg hc] at hmsg
        exact Except.noConfusion hmsg
    · intro hc
      refine ⟨"Invalid line range", ?_⟩
      rw [readLineRange, if_pos (hcond.mpr hc)]
  · intro hc
    rw [readLineRange, if_neg (fun hx => hc (hcond.mp hx))]
    rw [show max 0 (s - 1) = s - 1 from by omega]
    rw [show min (((linesOf content).length : Int) - 1) (e - 1) =
      min ((linesOf content).length : Int) e - 1 from by omega]
    rw [show (s - 1 + 1 : Int) = s from by omega]
    rw [show (min ((linesOf content).length : Int) e - 1 + 1 : Int) =
      min ((linesOf content).length : Int) e from by omega]
    rw [show (min ((linesOf content).length : Int) e - 1 - (s - 1) + 1 : Int) =
      min ((linesOf content).length : Int) e - s + 1 from by omega]

/-- Witness for C8: on a 10-line file, `readLineRange(path, 5, 3)`
(start > end) errors, and `readLineRange(path, 1, 10)` returns all 10
lines with `totalLines = 10`. -/
theorem readLineRange_spec_witness :
    (∃ msg, readLineRange "l1\nl2\nl3\nl4\nl5\nl6\nl7\nl8\nl9\nl10" 5 3 =
      Except.error msg) ∧
    readLineRange "l1\nl2\nl3\nl4\nl5\nl6\nl7\nl8\nl9\nl10" 1 10 = Except.ok
      { startLine := 1
        endLine := 10
        totalLines := 10
        lines := ["l1", "l2", "l3", "l4", "l5", "l6", "l7", "l8", "l9", "l10"]
        content := "l1\nl2\nl3\nl4\nl5\nl6\nl7\nl8\nl9\nl10" } := by
  constructor
  · exact (readLineRange_spec "l1\nl2\nl3\nl4\nl5\nl6\nl7\nl8\nl9\nl10" 5 3
      (by decide)).1.mpr (Or.inl (by decide))
  · exact ((readLineRange_spec "l1\nl2\nl3\nl4\nl5\nl6\nl7\nl8\nl9\nl10" 1 10
      (by decide)).2 (by decide)).trans (by rfl)

theorem stableSortBy_nil (gt : α → α → Prop) [DecidableRel gt] :
    stableSortBy gt ([] : List α) = [] := rfl

theorem length_insertDescBy (gt : α → α → Prop) [DecidableRel gt] (a : α) (l : List α) :
    (insertDescBy gt a l).length = l.length + 1 := by
  induction l with
  | nil => rfl
  | cons b bs ih =>
    rw [insertDescBy]
    by_cases h : gt a b
    · rw [if_pos h]; rfl
    · rw [if_neg h]
      simp [ih]

theorem length_stableSortBy (gt : α → α → Prop) [DecidableRel gt] (l : List α) :
    (stableSortBy gt l).length = l.length := by
  have haux : ∀ (l acc : List α),
      (l.foldl (fun acc a => insertDescBy gt a acc) acc).length = acc.length + l.length := by
    intro l
    induction l with
    | nil => intro acc; simp
    | cons x xs ih =>
      intro acc
      rw [List.foldl_cons, ih, length_insertDescBy, List.length_cons]
      omega
  rw [stableSortBy, haux]
  simp

theorem mem_insertDescBy (gt : α → α → Prop) [DecidableRel gt] (a x : α) (l : List α) :
    x ∈ insertDescBy gt a l ↔ x = a ∨ x ∈ l := by
  induction l with
  | nil => simp [insertDescBy]
  | cons b bs ih =>
    rw [insertDescBy]
    by_cases h : gt a b
    · rw [if_pos h]
      simp only [List.mem_cons]
    · rw [if_neg h]
      simp only [List.mem_cons, ih]
      tauto

theorem mem_stableSortBy (gt : α → α → Prop) [DecidableRel gt] (x : α) (l : List α) :
    x ∈ stableSortBy gt l ↔ x ∈ l := by
  have haux : ∀ (l acc : List α),
      (x ∈ l.foldl (fun acc a => insertDescBy gt a acc) acc ↔ x ∈ acc ∨ x ∈ l) := by
    intro l
    induction l with
    | nil => intro acc; simp
    | cons y ys ih =>
      intro acc
      rw [List.foldl_cons, ih, mem_insertDescBy]
      simp only [List.mem_cons]
      tauto
  rw [stableSortBy, haux]
  simp

theorem pairwise_insertDescBy (k : α → Nat) (a : α) (l : List α)
    (hl : List.Pairwise (fun x y => k y ≤ k x) l) :
    List.Pairwise (fun x y => k y ≤ k x)
      (insertDescBy (fun x y => k y < k x) a l) := by
  induction l with
  | nil => simp [insertDescBy]
  | cons b bs ih =>
    rw [insertDescBy]
    rcases List.pairwise_cons.mp hl with ⟨hb, hbs⟩
    by_cases h : k b < k a
    · rw [if_pos h]
      refine List.pairwise_cons.mpr ⟨?_, hl⟩
      intro x hx
      rcases List.mem_cons.mp hx with rfl | hxbs
      · omega
      · have := hb x hxbs
        omega
    · rw [if_neg h]
      refine List.pairwise_cons.mpr ⟨?_, ih hbs⟩
      intro x hx
      rcases (mem_insertDescBy _ a x bs).mp hx with rfl | hxbs
      · omega
      · exact hb x hxbs

theorem pairwise_stableSortBy (k : α → Nat) (l : List α) :
    List.Pairwise (fun x y => k y ≤ k x)
      (stableSortBy (fun x y => k y < k x) l) := by
  have haux : ∀ (l acc : List α),
      List.Pairwise (fun x y => k y ≤ k x) acc →
      List.Pairwise (fun x y => k y ≤ k x)
        (l.foldl (fun acc a => insertDescBy (fun x y => k y < k x) a acc) acc) := by
    intro l
    induction l with
    | nil => intro acc h; simpa using h
    | cons x xs ih =>
      intro acc h
      rw [List.foldl_cons]
      exact ih _ (pairwise_insertDescBy k x acc h)
  exact haux l [] List.Pairwise.nil

/-- Claim C9 fails as stated at `limit = 0`: with a non-empty index and
no positive scores, `searchFiles` returns `sortedByDate.slice(0, 0)`,
the empty list, contradicting "never returns an empty result when the
index is non-empty". -/
theorem searchFiles_limit_zero_cex :
    searchFiles [⟨"a.txt", [], [], [], 5⟩] "z" 0 = [] ∧
    ([⟨"a.txt", [], [], [], 5⟩] : List IndexEntry) ≠ [] := by
  refine ⟨?_, ?_⟩ <;> decide

/-- Claim C9 (amended): for `limit ≥ 1`, a non-empty index and a query
giving every indexed file score zero, `searchFiles` returns the whole
index when its size is at most `limit`, and otherwise exactly the
`limit` most recently modified files (the prefix of the stable
descending-by-modification-time order); in particular the result is
drawn from the index and is non-empty. -/
theorem searchFiles_zero_score (files : List IndexEntry) (query : String) (limit : Nat)
    (hlim : 1 ≤ limit) (hne : files ≠ [])
    (hzero : ∀ f ∈ files, scoreFile (strLower query) f = 0) :
    (files.length ≤ limit → searchFiles files query limit = files) ∧
    (limit < files.length →
      searchFiles files query limit =
        (stableSortBy (fun a b => b.modified < a.modified) files).take limit ∧
      (searchFiles files query limit).length = limit ∧
      List.Pairwise (fun a b => b.modified ≤ a.modified) (searchFiles files query limit)) ∧
    (∀ f ∈ searchFiles files query limit, f ∈ files) ∧
    searchFiles files query limit ≠ [] := by
  have hres : (files.map (fun f => (f, scoreFile (strLower query) f))).filter
      (fun p => 0 < p.2) = [] := by
    rw [List.filter_eq_nil_iff]
    intro p hp
    rcases List.mem_map.mp hp with ⟨f, hf, rfl⟩
    have := hzero f hf
    simp [this]
  have hsf : searchFiles files query limit =
      (if files.length ≤ limit then files
       else (stableSortBy (fun a b => b.modified < a.modified) files).take limit) := by
    rw [searchFiles]
    rw [hres]
    exact if_pos ⟨by simp [stableSortBy_nil], hne⟩
  by_cases hfit : files.length ≤ limit
  · rw [hsf, if_pos hfit]
    refine ⟨fun _ => rfl, fun h => absurd h (by omega), fun f hf => hf, hne⟩
  · rw [hsf, if_neg hfit]
    have hlen : ((stableSortBy (fun a b => b.modified < a.modified) files).take limit).length
        = limit := by
      rw [List.length_take, length_stableSortBy]
      omega
    refine ⟨fun h => absurd h hfit, fun _ => ⟨rfl, hlen, ?_⟩, ?_, ?_⟩
    · exact List.Pairwise.sublist (List.take_sublist _ _)
        (pairwise_stableSortBy (fun e => e.modified) files)
    · intro f hf
      have hmem := List.mem_of_mem_take hf
      exact (mem_stableSortBy _ f files).mp hmem
    · intro hnil
      have := congrArg List.length hnil
      rw [hlen] at this
      simp at this
      omega

/-- Witness for C9 (amended): three zero-scoring files with a requested
limit of 2 yield exactly the 2 most recently modified files. -/
theorem searchFiles_zero_score_witness :
    searchFiles [⟨"a.txt", [], [], [], 1⟩, ⟨"b.txt", [], [], [], 9⟩,
        ⟨"c.txt", [], [], [], 5⟩] "q" 2 =
      [⟨"b.txt", [], [], [], 9⟩, ⟨"c.txt", [], [], [], 5⟩] ∧
    (searchFiles [⟨"a.txt", [], [], [], 1⟩, ⟨"b.txt", [], [], [], 9⟩,
        ⟨"c.txt", [], [], [], 5⟩] "q" 2).length = 2 := by
  have h := searchFiles_zero_score
    [⟨"a.txt", [], [], [], 1⟩, ⟨"b.txt", [], [], [], 9⟩, ⟨"c.txt", [], [], [], 5⟩]
    "q" 2 (by decide) (by decide) (by decide)
  exact ⟨((h.2.1 (by decide)).1).trans (by decide), (h.2.1 (by decide)).2.1⟩

/-- Claim C2 is contradicted by the code at this input: the prompt as
first assembled measures 32 > 20 available tokens, the degrade ladder
fires and removes the history message (3 messages become 2, now 16 ≤ 20
tokens), yet the returned `wasReduced` is `false`, because the source
computes it as `actualTokens > availableTokens` *after* reduction —
contradicting its own `// Flag if we had to reduce` comment.  The
ladder itself does reduce to within budget here, as the claim's second
half predicts. -/
theorem buildPrompt_wasReduced_bug :
    calculateAvailableTokens 820 800 = 20 ∧
    countMessagesTokens (assembleMessages "sy" none "No pending tasks." []
      (getMessagesForPrompt ⟨[⟨"user", overlongContent⟩], ""⟩
        ((allocateTokenBudget 20).recentHistory + (allocateTokenBudget 20).compressedHistory) 5)
      "q" (allocateTokenBudget 20)) = 32 ∧
    (buildPrompt "sy" none "No pending tasks." [] ⟨[⟨"user", overlongContent⟩], ""⟩
      5 "q" 820).messages.length = 2 ∧
    (buildPrompt "sy" none "No pending tasks." [] ⟨[⟨"user", overlongContent⟩], ""⟩
      5 "q" 820).metadata.totalTokens = 16 ∧
    (buildPrompt "sy" none "No pending tasks." [] ⟨[⟨"user", overlongContent⟩], ""⟩
      5 "q" 820).metadata.wasReduced = false := by
  refine ⟨?_, ?_, ?_, ?_, ?_⟩ <;> decide

theorem chEqCI_self (a : Char) : chEqCI a a = true := by
  simp [chEqCI]

theorem chEqCI_symm_false {a b : Char} (h : chEqCI a b = false) : chEqCI b a = false := by
  rw [chEqCI] at h ⊢
  rw [beq_eq_false_iff_ne] at h ⊢
  exact fun e => h e.symm

theorem ciStarts_self_append (l r : List Char) : ciStarts l (l ++ r) = true := by
  induction l with
  | nil => rfl
  | cons a as ih =>
    rw [List.cons_append, ciStarts, chEqCI_self, ih]
    rfl

theorem ciStarts_nonempty_nil (c : Char) (l : List Char) : ciStarts (c :: l) [] = false := rfl

/-- Lazy capture over a clean body: the first occurrence of the closer
is exactly where it was spliced in. -/
theorem scanClose_exact (dotOnly : Bool) (ct : List Char) :
    ∀ (p r : List Char),
      (∀ c ∈ p, chEqCI c '<' = false ∧ (dotOnly = true → isNlChar c = false)) →
      scanClose dotOnly ('<' :: ct) (p ++ (('<' :: ct) ++ r)) = some (p, r) := by
  intro p
  induction p with
  | nil =>
    intro r _
    rw [List.nil_append, List.cons_append, scanClose]
    rw [if_pos (by
      have := ciStarts_self_append ('<' :: ct) r
      rwa [List.cons_append] at this)]
    rw [show ('<' :: (ct ++ r)).drop ('<' :: ct).length = r from by
      have := List.drop_left ('<' :: ct) r
      rwa [List.cons_append] at this]
  | cons x xs ih =>
    intro r hp
    have hx := hp x (List.mem_cons_self x xs)
    rw [List.cons_append, scanClose]
    rw [if_neg (by
      rw [ciStarts, chEqCI_symm_false hx.1]
      simp)]
    have hguard : (dotOnly && isNlChar x) = false := by
      rcases hd : dotOnly with _ | _
      · rfl
      · rw [hx.2 hd]; rfl
    rw [if_neg (by rw [hguard]; simp)]
    rw [ih r (fun c hc => hp c (List.mem_cons_of_mem x hc))]

/-- `(.*?)` capture followed by its closing literal, over a clean
single-line body. -/
theorem matchPieces_capDot_exact (ct : List Char) (ps : List PatPiece) (p r : List Char)
    (hp : ∀ c ∈ p, chEqCI c '<' = false) (hn : ∀ c ∈ p, isNlChar c = false) :
    matchPieces (.capDot :: .lit ('<' :: ct) :: ps) (p ++ (('<' :: ct) ++ r)) =
      capWrap p (matchPieces ps r) := by
  show (match scanClose true ('<' :: ct) (p ++ (('<' :: ct) ++ r)) with
    | some (cap, rem) =>
      match matchPieces ps rem with
      | some (caps, rem2) => some (cap :: caps, rem2)
      | none => none
    | none => none) = _
  rw [scanClose_exact true ct p r (fun c hc => ⟨hp c hc, fun _ => hn c hc⟩)]
  rfl

/-- `([\s\S]*?)` capture followed by its closing literal, over a clean
body. -/
theorem matchPieces_capAll_exact (ct : List Char) (ps : List PatPiece) (p r : List Char)
    (hp : ∀ c ∈ p, chEqCI c '<' = false) :
    matchPieces (.capAll :: .lit ('<' :: ct) :: ps) (p ++ (('<' :: ct) ++ r)) =
      capWrap p (matchPieces ps r) := by
  show (match scanClose false ('<' :: ct) (p ++ (('<' :: ct) ++ r)) with
    | some (cap, rem) =>
      match matchPieces ps rem with
      | some (caps, rem2) => some (cap :: caps, rem2)
      | none => none
    | none => none) = _
  rw [scanClose_exact false ct p r (fun c hc => ⟨hp c hc, fun h => by cases h⟩)]
  rfl

theorem execAllFuel_nil (pieces : List PatPiece) (fuel : Nat) :
    execAllFuel pieces fuel [] = [] := by
  cases fuel <;> rfl

/-- A single full match at position 0 consuming the whole string yields
exactly one capture list. -/
theorem execAll_of_match (c0 : Char) (l0 : List Char) (ps : List PatPiece)
    (s : List Char) (caps : List (List Char))
    (hm : matchPieces (.lit (c0 :: l0) :: ps) s = some (caps, [])) :
    execAll (.lit (c0 :: l0) :: ps) s = [caps] := by
  cases s with
  | nil =>
    rw [matchPieces, ciStarts_nonempty_nil] at hm
    simp at hm
  | cons a rest =>
    show execAllFuel _ ((a :: rest).length + 1) (a :: rest) = [caps]
    rw [List.length_cons, execAllFuel, hm]
    show caps :: execAllFuel (.lit (c0 :: l0) :: ps) (rest.length + 1) [] = [caps]
    rw [execAllFuel_nil]

theorem execAllFuel_of_no_open (l : List Char) (ps : List PatPiece) :
    ∀ (fuel : Nat) (s : List Char), hasCIAt l s = false →
      execAllFuel (.lit l :: ps) fuel s = [] := by
  intro fuel
  induction fuel with
  | zero => intro s _; rfl
  | succ f ih =>
    intro s hs
    cases s with
    | nil => rfl
    | cons c rest =>
      rw [hasCIAt, Bool.or_eq_false_iff] at hs
      rw [execAllFuel]
      rw [show matchPieces (.lit l :: ps) (c :: rest) = none from by
        rw [matchPieces, if_neg (by rw [hs.1]; simp)]]
      exact ih rest hs.2

theorem execAll_of_no_open (l : List Char) (ps : List PatPiece) (s : List Char)
    (hs : hasCIAt l s = false) : execAll (.lit l :: ps) s = [] :=
  execAllFuel_of_no_open l ps (s.length + 1) s hs

/-- Skip a spliced-in clean body during the occurrence search. -/
theorem hasCIAt_append_skip (hd : Char) (lt : List Char) :
    ∀ (p rest : List Char), (∀ c ∈ p, chEqCI c hd = false) →
      hasCIAt (hd :: lt) (p ++ rest) = hasCIAt (hd :: lt) rest := by
  intro p
  induction p with
  | nil => intro rest _; rfl
  | cons x xs ih =>
    intro rest hp
    rw [List.cons_append, hasCIAt, ciStarts,
      chEqCI_symm_false (hp x (List.mem_cons_self x xs))]
    rw [ih rest (fun c hc => hp c (List.mem_cons_of_mem x hc))]
    rfl

/-! ### Trim lemmas -/

theorem dropWhile_eq_self_of_head {p : Char → Bool} :
    ∀ {cs : List Char}, (∀ c, cs.head? = some c → p c = false) → cs.dropWhile p = cs := by
  intro cs h
  cases cs with
  | nil => rfl
  | cons c rest =>
    rw [List.dropWhile_cons, h c rfl]
    simp

theorem jsTrimChars_head_drop {cs : List Char} (h : jsTrimChars cs = cs) :
    cs.dropWhile jsWsChar = cs := by
  cases cs with
  | nil => rfl
  | cons c rest =>
    by_cases hc : jsWsChar c = true
    · exfalso
      have hlen : (jsTrimChars (c :: rest)).length ≤ rest.length := by
        rw [jsTrimChars]
        rw [show (c :: rest).dropWhile jsWsChar = rest.dropWhile jsWsChar from by
          rw [List.dropWhile_cons, hc]; simp]
        calc (((rest.dropWhile jsWsChar).reverse.dropWhile jsWsChar).reverse).length
            = ((rest.dropWhile jsWsChar).reverse.dropWhile jsWsChar).length :=
              List.length_reverse _
          _ ≤ (rest.dropWhile jsWsChar).reverse.length :=
              (List.dropWhile_suffix jsWsChar).sublist.length_le
          _ = (rest.dropWhile jsWsChar).length := List.length_reverse _
          _ ≤ rest.length := (List.dropWhile_suffix jsWsChar).sublist.length_le
      rw [h, List.length_cons] at hlen
      omega
    · rw [List.dropWhile_cons, if_neg (by simp at hc; simp [hc])]

theorem jsTrimChars_rev_drop {cs : List Char} (h : jsTrimChars cs = cs) :
    cs.reverse.dropWhile jsWsChar = cs.reverse := by
  have h2 := h
  rw [jsTrimChars, jsTrimChars_head_drop h] at h2
  have h3 := congrArg List.reverse h2
  rwa [List.reverse_reverse] at h3

theorem jsTrimChars_eq_self_of_ends {cs : List Char}
    (hh : cs.dropWhile jsWsChar = cs) (ht : cs.reverse.dropWhile jsWsChar = cs.reverse) :
    jsTrimChars cs = cs := by
  rw [jsTrimChars, hh, ht, List.reverse_reverse]

theorem noTagB_spec {cs : List Char} (h : noTagCharB cs = true) :
    ∀ c ∈ cs, chEqCI c '<' = false := by
  intro c hc
  have := List.all_eq_true.mp h c hc
  simpa using this

theorem noNlB_spec {cs : List Char} (h : noNlCharB cs = true) :
    ∀ c ∈ cs, isNlChar c = false := by
  intro c hc
  have := List.all_eq_true.mp h c hc
  simpa using this

theorem matchPieces_edit (p o n : String)
    (hp : ∀ c ∈ p.data, chEqCI c '<' = false) (hpn : ∀ c ∈ p.data, isNlChar c = false)
    (ho : ∀ c ∈ o.data, chEqCI c '<' = false) (hn : ∀ c ∈ n.data, chEqCI c '<' = false) :
    matchPieces fileEditPieces (renderTaggedChars (.edit p o n)) =
      some ([p.data, "replace".data, o.data, n.data], []) := by
  have hTail : matchPieces
      [.capAll, .lit ('<' :: "/old>".data), .ws, .lit "<new>".data,
       .capAll, .lit ('<' :: "/new>".data), .ws, .lit "</file_edit>".data]
      (o.data ++ (('<' :: "/old>".data) ++
        ("\n".data ++ ("<new>".data ++ (n.data ++ ("</new>".data ++
          ("\n".data ++ "</file_edit>".data))))))) =
      some ([o.data, n.data], []) := by
    rw [matchPieces_capAll_exact "/old>".data
      [.ws, .lit "<new>".data, .capAll, .lit ('<' :: "/new>".data), .ws, .lit "</file_edit>".data]
      o.data
      ("\n".data ++ ("<new>".data ++ (n.data ++ ("</new>".data ++
        ("\n".data ++ "</file_edit>".data)))))
      ho]
    have h4 : matchPieces
        [.ws, .lit "<new>".data, .capAll, .lit ('<' :: "/new>".data), .ws, .lit "</file_edit>".data]
        ("\n".data ++ ("<new>".data ++ (n.data ++ ("</new>".data ++
          ("\n".data ++ "</file_edit>".data))))) =
        matchPieces
          [.capAll, .lit ('<' :: "/new>".data), .ws, .lit "</file_edit>".data]
          (n.data ++ (('<' :: "/new>".data) ++ ("\n".data ++ "</file_edit>".data))) := rfl
    rw [h4, matchPieces_capAll_exact "/new>".data
      [.ws, .lit "</file_edit>".data]
      n.data
      ("\n".data ++ "</file_edit>".data)
      hn]
    rfl
  have h1 : matchPieces fileEditPieces (renderTaggedChars (.edit p o n)) =
      matchPieces
        (.capDot :: .lit ('<' :: "/path>".data) ::
          [.ws, .lit "<operation>".data, .capDot, .lit "</operation>".data,
           .ws, .lit "<old>".data, .capAll, .lit "</old>".data,
           .ws, .lit "<new>".data, .capAll, .lit "</new>".data,
           .ws, .lit "</file_edit>".data])
        (p.data ++ (('<' :: "/path>".data) ++
          ("\n".data ++ ("<operation>".data ++ ("replace".data ++ ("</operation>".data ++
            ("\n".data ++ ("<old>".data ++ (o.data ++ ("</old>".data ++
              ("\n".data ++ ("<new>".data ++ (n.data ++ ("</new>".data ++
                ("\n".data ++ "</file_edit>".data))))))))))))))) := rfl
  rw [h1, matchPieces_capDot_exact "/path>".data
    [.ws, .lit "<operation>".data, .capDot, .lit "</operation>".data,
     .ws, .lit "<old>".data, .capAll, .lit "</old>".data,
     .ws, .lit "<new>".data, .capAll, .lit "</new>".data,
     .ws, .lit "</file_edit>".data]
    p.data
    ("\n".data ++ ("<operation>".data ++ ("replace".data ++ ("</operation>".data ++
      ("\n".data ++ ("<old>".data ++ (o.data ++ ("</old>".data ++
        ("\n".data ++ ("<new>".data ++ (n.data ++ ("</new>".data ++
          ("\n".data ++ "</file_edit>".data)))))))))))))
    hp hpn]
  have h2 : matchPieces
      [.ws, .lit "<operation>".data, .capDot, .lit "</operation>".data,
       .ws, .lit "<old>".data, .capAll, .lit "</old>".data,
       .ws, .lit "<new>".data, .capAll, .lit "</new>".data,
       .ws, .lit "</file_edit>".data]
      ("\n".data ++ ("<operation>".data ++ ("replace".data ++ ("</operation>".data ++
        ("\n".data ++ ("<old>".data ++ (o.data ++ ("</old>".data ++
          ("\n".data ++ ("<new>".data ++ (n.data ++ ("</new>".data ++
            ("\n".data ++ "</file_edit>".data))))))))))))) =
      capWrap "replace".data (matchPieces
        [.capAll, .lit ('<' :: "/old>".data), .ws, .lit "<new>".data,
         .capAll, .lit ('<' :: "/new>".data), .ws, .lit "</file_edit>".data]
        (o.data ++ (('<' :: "/old>".data) ++
          ("\n".data ++ ("<new>".data ++ (n.data ++ ("</new>".data ++
            ("\n".data ++ "</file_edit>".data)))))))) := rfl
  rw [h2, hTail]
  rfl

theorem digitChar_props (d : Nat) (h : d < 10) :
    chEqCI (digitChar d) '<' = false ∧ isNlChar (digitChar d) = false ∧
    jsWsChar (digitChar d) = false ∧ isDigitChar (digitChar d) = true ∧
    (digitChar d).toNat - 48 = d ∧ (digitChar d) ≠ '-' ∧ (digitChar d) ≠ '+' := by
  interval_cases d <;> exact (by decide)

theorem natDecAux_mem : ∀ (fuel n : Nat), n < fuel →
    ∀ c ∈ natDecAux fuel n, ∃ d, d < 10 ∧ c = digitChar d := by
  intro fuel
  induction fuel with
  | zero => intro n h; omega
  | succ f ih =>
    intro n h c hc
    rw [natDecAux] at hc
    by_cases h10 : n < 10
    · rw [if_pos h10] at hc
      rcases List.mem_singleton.mp hc with rfl
      exact ⟨n, h10, rfl⟩
    · rw [if_neg h10] at hc
      rcases List.mem_append.mp hc with h1 | h2
      · have hlt : n / 10 < f := by
          have := Nat.div_lt_self (by omega : 0 < n) (by omega : 1 < 10)
          omega
        exact ih (n / 10) hlt c h1
      · rcases List.mem_singleton.mp h2 with rfl
        exact ⟨n % 10, Nat.mod_lt _ (by omega), rfl⟩

theorem natDec_mem (n : Nat) : ∀ c ∈ natDec n, ∃ d, d < 10 ∧ c = digitChar d :=
  natDecAux_mem (n + 1) n (Nat.lt_succ_self n)

theorem intDec_props (x : Int) :
    ∀ c ∈ intDec x, chEqCI c '<' = false ∧ isNlChar c = false ∧ jsWsChar c = false := by
  intro c hc
  rw [intDec] at hc
  by_cases hx : x < 0
  · rw [if_pos hx] at hc
    rcases List.mem_cons.mp hc with rfl | hm
    · exact ⟨by decide, by decide, by decide⟩
    · rcases natDec_mem _ c hm with ⟨d, hd, rfl⟩
      rcases digitChar_props d hd with ⟨h1, h2, h3, _⟩
      exact ⟨h1, h2, h3⟩
  · rw [if_neg hx] at hc
    rcases natDec_mem _ c hc with ⟨d, hd, rfl⟩
    rcases digitChar_props d hd with ⟨h1, h2, h3, _⟩
    exact ⟨h1, h2, h3⟩

theorem natDecAux_ne_nil (f n : Nat) : natDecAux (f + 1) n ≠ [] := by
  rw [natDecAux]
  by_cases h10 : n < 10
  · rw [if_pos h10]; simp
  · rw [if_neg h10]; simp

theorem takeWhile_all {p : Char → Bool} :
    ∀ {l : List Char}, (∀ c ∈ l, p c = true) → l.takeWhile p = l := by
  intro l
  induction l with
  | nil => intro _; rfl
  | cons c rest ih =>
    intro h
    rw [List.takeWhile_cons, h c (List.mem_cons_self c rest)]
    rw [ih (fun x hx => h x (List.mem_cons_of_mem c hx))]
    simp

theorem dropWhile_all {p : Char → Bool} {l : List Char}
    (h : ∀ c ∈ l, p c = false) : l.dropWhile p = l := by
  cases l with
  | nil => rfl
  | cons c rest =>
    rw [List.dropWhile_cons, h c (List.mem_cons_self c rest)]
    simp

theorem natDecAux_foldl : ∀ (fuel n a : Nat), n < fuel →
    List.foldl (fun acc c => 10 * acc + (c.toNat - 48)) a (natDecAux fuel n) =
      a * 10 ^ (natDecAux fuel n).length + n := by
  intro fuel
  induction fuel with
  | zero => intro n a h; omega
  | succ f ih =>
    intro n a h
    rw [natDecAux]
    by_cases h10 : n < 10
    · rw [if_pos h10]
      rw [List.foldl_cons, List.foldl_nil, List.length_singleton]
      rw [(digitChar_props n h10).2.2.2.2.1]
      rw [pow_one]
      omega
    · rw [if_neg h10]
      have hlt : n / 10 < f := by
        have := Nat.div_lt_self (by omega : 0 < n) (by omega : 1 < 10)
        omega
      rw [List.foldl_append, List.foldl_cons, List.foldl_nil]
      rw [ih (n / 10) a hlt]
      rw [(digitChar_props (n % 10) (Nat.mod_lt _ (by omega))).2.2.2.2.1]
      rw [List.length_append, List.length_singleton, pow_succ]
      have hdm := Nat.div_add_mod n 10
      calc 10 * (a * 10 ^ (natDecAux f (n / 10)).length + n / 10) + n % 10
          = a * (10 ^ (natDecAux f (n / 10)).length * 10) + (10 * (n / 10) + n % 10) := by ring
        _ = a * (10 ^ (natDecAux f (n / 10)).length * 10) + n := by rw [hdm]

theorem digitsValue_natDec (n : Nat) : digitsValue (natDec n) = some n := by
  have hdig : ∀ c ∈ natDec n, isDigitChar c = true := by
    intro c hc
    rcases natDec_mem n c hc with ⟨d, hd, rfl⟩
    exact (digitChar_props d hd).2.2.2.1
  show (if (natDec n).takeWhile isDigitChar = [] then none
    else some (List.foldl (fun a c => 10 * a + (c.toNat - 48)) 0
      ((natDec n).takeWhile isDigitChar))) = some n
  rw [show (natDec n).takeWhile isDigitChar = natDec n from takeWhile_all hdig]
  rw [if_neg (show ¬ natDec n = [] from natDecAux_ne_nil n n)]
  rw [show List.foldl (fun a c => 10 * a + (c.toNat - 48)) 0 (natDec n) =
    0 * 10 ^ (natDec n).length + n from natDecAux_foldl (n + 1) n 0 (Nat.lt_succ_self n)]
  simp

theorem jsParseIntChars_intDec (x : Int) : jsParseIntChars (intDec x) = some x := by
  have hnws : ∀ c ∈ intDec x, jsWsChar c = false := fun c hc => (intDec_props x c hc).2.2
  rw [jsParseIntChars, dropWhile_all hnws]
  by_cases hx : x < 0
  · rw [show intDec x = '-' :: natDec (-x).toNat from by rw [intDec, if_pos hx]]
    show (match digitsValue (natDec (-x).toNat) with
      | some v => some (-(Int.ofNat v))
      | none => none) = some x
    rw [digitsValue_natDec]
    show some (-(Int.ofNat (-x).toNat)) = some x
    rw [show Int.ofNat (-x).toNat = (((-x).toNat : Nat) : Int) from rfl,
      Int.toNat_of_nonneg (by omega), neg_neg]
  · rw [show intDec x = natDec x.toNat from by rw [intDec, if_neg hx]]
    obtain ⟨d, hd, rest, hcr⟩ : ∃ d, d < 10 ∧ ∃ rest, natDec x.toNat = digitChar d :: rest := by
      rcases h : natDec x.toNat with _ | ⟨c, rest⟩
      · exact absurd h (natDecAux_ne_nil _ _)
      · rcases natDec_mem x.toNat c (by rw [h]; exact List.mem_cons_self c rest) with ⟨d, hd, rfl⟩
        exact ⟨d, hd, rest, rfl⟩
    rw [hcr, jsParseIntSigned]
    rw [if_neg ((digitChar_props d hd).2.2.2.2.2.1)]
    rw [if_neg ((digitChar_props d hd).2.2.2.2.2.2)]
    rw [← hcr, digitsValue_natDec]
    show some (Int.ofNat x.toNat) = some x
    rw [show Int.ofNat x.toNat = ((x.toNat : Nat) : Int) from rfl,
      Int.toNat_of_nonneg (by omega)]

theorem dropWhile_append_of_head {p : Char → Bool} {cs : List Char} (ds : List Char)
    (h : cs.dropWhile p = cs) (hne : cs ≠ []) :
    (cs ++ ds).dropWhile p = cs ++ ds := by
  cases cs with
  | nil => exact absurd rfl hne
  | cons c rest =>
    have hc : p c = false := by
      by_contra hcc
      rw [List.dropWhile_cons] at h
      rw [if_pos (by simpa using hcc)] at h
      have := congrArg List.length h
      have hle : (rest.dropWhile p).length ≤ rest.length :=
        (List.dropWhile_suffix p).sublist.length_le
      rw [List.length_cons] at this
      omega
    rw [List.cons_append, List.dropWhile_cons, hc]
    simp

theorem head_not_ws_of_trimmed {cs : List Char} (h : cs.dropWhile jsWsChar = cs) :
    ∀ c rest, cs = c :: rest → jsWsChar c = false := by
  intro c rest hcr
  subst hcr
  by_contra hcc
  rw [List.dropWhile_cons, if_pos (by simpa using hcc)] at h
  have hl := congrArg List.length h
  have hle : (rest.dropWhile jsWsChar).length ≤ rest.length :=
    (List.dropWhile_suffix jsWsChar).sublist.length_le
  rw [List.length_cons] at hl
  omega

/-- Trimming `'\n' :: (x ++ ['\n'])` for a non-empty `x` with
whitespace-free ends gives back `x`. -/
theorem jsTrimChars_nl_sandwich {x : List Char}
    (hh : x.dropWhile jsWsChar = x) (hr : x.reverse.dropWhile jsWsChar = x.reverse)
    (hx : x ≠ []) :
    jsTrimChars ('\n' :: (x ++ ['\n'])) = x := by
  rw [jsTrimChars]
  rw [show ('\n' :: (x ++ ['\n'])).dropWhile jsWsChar = (x ++ ['\n']).dropWhile jsWsChar from by
    rw [List.dropWhile_cons]; simp [jsWsChar]]
  rw [dropWhile_append_of_head ['\n'] hh hx]
  rw [show (x ++ ['\n']).reverse = '\n' :: x.reverse from by
    rw [List.reverse_append]; rfl]
  rw [show ('\n' :: x.reverse).dropWhile jsWsChar = x.reverse.dropWhile jsWsChar from by
    rw [List.dropWhile_cons]; simp [jsWsChar]]
  rw [hr, List.reverse_reverse]

theorem splitNl_no_nl {cs : List Char} (h : ∀ c ∈ cs, (c = '\n') = False) :
    splitNl cs = [cs] := by
  induction cs with
  | nil => rfl
  | cons c rest ih =>
    rw [splitNl]
    rw [if_neg (by
      intro hc
      exact (h c (List.mem_cons_self c rest)).mp hc)]
    rw [ih (fun x hx => h x (List.mem_cons_of_mem c hx))]

theorem splitCommaNl_ne_nil (cs : List Char) : splitCommaNl cs ≠ [] := by
  cases cs with
  | nil => simp [splitCommaNl]
  | cons c rest =>
    rw [splitCommaNl]
    by_cases hc : (c = ',' || c = '\n') = true
    · rw [if_pos hc]; simp
    · rw [if_neg hc]
      cases splitCommaNl rest <;> simp

theorem splitCommaNl_clean {k : List Char}
    (hk : ∀ c ∈ k, (c = ',') = False ∧ (c = '\n') = False) :
    splitCommaNl k = [k] := by
  induction k with
  | nil => rfl
  | cons c rest ih =>
    rw [splitCommaNl]
    rw [if_neg (by
      rcases hk c (List.mem_cons_self c rest) with ⟨h1, h2⟩
      simp [h1, h2])]
    rw [ih (fun x hx => hk x (List.mem_cons_of_mem c hx))]

theorem splitCommaNl_sep {k : List Char} (rest : List Char)
    (hk : ∀ c ∈ k, (c = ',') = False ∧ (c = '\n') = False) :
    splitCommaNl (k ++ ',' :: rest) = k :: splitCommaNl rest := by
  induction k with
  | nil =>
    rw [List.nil_append, splitCommaNl]
    rw [if_pos (by simp)]
  | cons c cs ih =>
    rw [List.cons_append, splitCommaNl]
    rw [if_neg (by
      rcases hk c (List.mem_cons_self c cs) with ⟨h1, h2⟩
      simp [h1, h2])]
    rw [ih (fun x hx => hk x (List.mem_cons_of_mem c hx))]

theorem jsTrimChars_cons_ws {c : Char} (hc : jsWsChar c = true) (l : List Char) :
    jsTrimChars (c :: l) = jsTrimChars l := by
  rw [jsTrimChars, jsTrimChars]
  rw [List.dropWhile_cons, if_pos (by simpa using hc)]

theorem splitCommaNl_space_skip (cs : List Char) :
    (splitCommaNl (' ' :: cs)).map jsTrimChars = (splitCommaNl cs).map jsTrimChars := by
  rw [splitCommaNl]
  rw [if_neg (by simp)]
  rcases h : splitCommaNl cs with _ | ⟨l, ls⟩
  · exact absurd h (splitCommaNl_ne_nil cs)
  · rw [List.map_cons, List.map_cons, jsTrimChars_cons_ws (by decide)]

theorem mem_joinComma : ∀ (ks : List (List Char)) (c : Char), c ∈ joinComma ks →
    (∃ k ∈ ks, c ∈ k) ∨ c = ',' ∨ c = ' ' := by
  intro ks
  induction ks with
  | nil => intro c hc; cases hc
  | cons k rest ih =>
    intro c hc
    cases rest with
    | nil =>
      rw [joinComma] at hc
      exact Or.inl ⟨k, List.mem_cons_self k [], hc⟩
    | cons k2 ks2 =>
      rw [joinComma] at hc
      rcases List.mem_append.mp hc with h1 | h2
      · exact Or.inl ⟨k, List.mem_cons_self _ _, h1⟩
      · rcases List.mem_cons.mp h2 with rfl | h3
        · exact Or.inr (Or.inl rfl)
        · rcases List.mem_cons.mp h3 with rfl | h4
          · exact Or.inr (Or.inr rfl)
          · rcases ih c h4 with ⟨k3, hk3, hck⟩ | hcs
            · exact Or.inl ⟨k3, List.mem_cons_of_mem k hk3, hck⟩
            · exact Or.inr hcs

/-- Splitting, trimming and filtering the rendered keyword list recovers
the keywords. -/
theorem splitCommaNl_joinComma (ks : List (List Char))
    (hks : ∀ k ∈ ks, k ≠ [] ∧ jsTrimChars k = k ∧
      (∀ c ∈ k, (c = ',') = False ∧ (c = '\n') = False)) :
    ((splitCommaNl (joinComma ks)).map jsTrimChars).filterMap
      (fun k => if k = [] then none else some (String.mk k)) = ks.map String.mk := by
  induction ks with
  | nil => rfl
  | cons k rest ih =>
    cases rest with
    | nil =>
      rcases hks k (List.mem_cons_self k []) with ⟨hne, htrim, hcl⟩
      rw [joinComma, splitCommaNl_clean hcl, List.map_cons, List.map_nil, htrim]
      rw [List.filterMap, if_neg hne]
      rfl
    | cons k2 ks2 =>
      rcases hks k (List.mem_cons_self k _) with ⟨hne, htrim, hcl⟩
      rw [joinComma]
      rw [splitCommaNl_sep (' ' :: joinComma (k2 :: ks2)) hcl]
      rw [List.map_cons, htrim]
      rw [List.filterMap, if_neg hne]
      rw [splitCommaNl_space_skip (joinComma (k2 :: ks2))]
      rw [ih (fun x hx => hks x (List.mem_cons_of_mem k hx))]
      rfl

theorem isPrefixOf_append_self : ∀ (l r : List Char), l.isPrefixOf (l ++ r) = true := by
  intro l r
  induction l with
  | nil => simp [List.isPrefixOf]
  | cons a as ih =>
    rw [List.cons_append, List.isPrefixOf, beq_self_eq_true, ih]
    rfl

theorem joinComma_ne_nil : ∀ (ks : List (List Char)), ks ≠ [] → (∀ k ∈ ks, k ≠ []) →
    joinComma ks ≠ [] := by
  intro ks hne hk
  cases ks with
  | nil => exact absurd rfl hne
  | cons k rest =>
    cases rest with
    | nil => exact hk k (List.mem_cons_self k [])
    | cons k2 ks2 =>
      rw [joinComma, ne_eq, List.append_eq_nil]
      exact fun h => hk k (List.mem_cons_self k _) h.1

theorem joinComma_head_drop (ks : List (List Char))
    (h : ∀ k ∈ ks, k ≠ [] ∧ k.dropWhile jsWsChar = k) :
    (joinComma ks).dropWhile jsWsChar = joinComma ks := by
  cases ks with
  | nil => rfl
  | cons k rest =>
    cases rest with
    | nil => exact (h k (List.mem_cons_self k [])).2
    | cons k2 ks2 =>
      rw [joinComma]
      exact dropWhile_append_of_head _ (h k (List.mem_cons_self k _)).2
        (h k (List.mem_cons_self k _)).1

theorem joinComma_rev_drop : ∀ (ks : List (List Char)),
    (∀ k ∈ ks, k ≠ [] ∧ k.reverse.dropWhile jsWsChar = k.reverse) →
    (joinComma ks).reverse.dropWhile jsWsChar = (joinComma ks).reverse := by
  intro ks
  induction ks with
  | nil => intro _; rfl
  | cons k rest ih =>
    intro h
    cases rest with
    | nil => exact (h k (List.mem_cons_self k [])).2
    | cons k2 ks2 =>
      rw [joinComma, List.reverse_append, List.reverse_cons, List.reverse_cons,
        List.append_assoc, List.append_assoc]
      refine dropWhile_append_of_head _
        (ih (fun x hx => h x (List.mem_cons_of_mem k hx))) ?_
      rw [ne_eq, List.reverse_eq_nil_iff]
      exact joinComma_ne_nil (k2 :: ks2) (by simp)
        (fun x hx => (h x (List.mem_cons_of_mem k hx)).1)

theorem joinComma_no_tag {ks : List (List Char)}
    (h : ∀ k ∈ ks, ∀ c ∈ k, chEqCI c '<' = false) :
    ∀ c ∈ joinComma ks, chEqCI c '<' = false := by
  intro c hc
  rcases mem_joinComma ks c hc with ⟨k, hk, hck⟩ | hcs | hcs
  · exact h k hk c hck
  · subst hcs; decide
  · subst hcs; decide

theorem matchPieces_create (p c : String)
    (hp : ∀ ch ∈ p.data, chEqCI ch '<' = false) (hpn : ∀ ch ∈ p.data, isNlChar ch = false)
    (hc : ∀ ch ∈ c.data, chEqCI ch '<' = false) :
    matchPieces fileCreatePieces (renderTaggedChars (.create p c)) =
      some ([p.data, c.data], []) := by
  have h1 : matchPieces fileCreatePieces (renderTaggedChars (.create p c)) =
      matchPieces
        (.capDot :: .lit ('<' :: "/path>".data) ::
          [.ws, .lit "<content>".data, .capAll, .lit "</content>".data,
           .ws, .lit "</file_create>".data])
        (p.data ++ (('<' :: "/path>".data) ++
          ("\n".data ++ ("<content>".data ++ (c.data ++ ("</content>".data ++
            ("\n".data ++ "</file_create>".data))))))) := rfl
  rw [h1, matchPieces_capDot_exact "/path>".data
    [.ws, .lit "<content>".data, .capAll, .lit "</content>".data,
     .ws, .lit "</file_create>".data]
    p.data
    ("\n".data ++ ("<content>".data ++ (c.data ++ ("</content>".data ++
      ("\n".data ++ "</file_create>".data)))))
    hp hpn]
  have h2 : matchPieces
      [.ws, .lit "<content>".data, .capAll, .lit "</content>".data,
       .ws, .lit "</file_create>".data]
      ("\n".data ++ ("<content>".data ++ (c.data ++ ("</content>".data ++
        ("\n".data ++ "</file_create>".data))))) =
      matchPieces
        (.capAll :: .lit ('<' :: "/content>".data) :: [.ws, .lit "</file_create>".data])
        (c.data ++ (('<' :: "/content>".data) ++
          ("\n".data ++ "</file_create>".data))) := rfl
  rw [h2, matchPieces_capAll_exact "/content>".data
    [.ws, .lit "</file_create>".data]
    c.data
    ("\n".data ++ "</file_create>".data)
    hc]
  rfl

theorem matchPieces_delete (p : String)
    (hp : ∀ ch ∈ p.data, chEqCI ch '<' = false)
    (hpn : ∀ ch ∈ p.data, isNlChar ch = false) :
    matchPieces fileDeletePieces (renderTaggedChars (.delete p)) =
      some ([p.data], []) := by
  have h1 : matchPieces fileDeletePieces (renderTaggedChars (.delete p)) =
      matchPieces
        (.capDot :: .lit ('<' :: "/path>".data) :: [.ws, .lit "</file_delete>".data])
        (p.data ++ (('<' :: "/path>".data) ++
          ("\n".data ++ "</file_delete>".data))) := rfl
  rw [h1, matchPieces_capDot_exact "/path>".data
    [.ws, .lit "</file_delete>".data]
    p.data
    ("\n".data ++ "</file_delete>".data)
    hp hpn]
  rfl

theorem matchPieces_task (d : String) (completed : Bool)
    (hd : ∀ ch ∈ d.data, chEqCI ch '<' = false) :
    matchPieces taskUpdatePieces (renderTaggedChars (.taskUpd d completed)) =
      some (["\n".data ++ ((if completed then "- DONE: ".data else "- TODO: ".data) ++
        (d.data ++ "\n".data))], []) := by
  cases completed with
  | true =>
    have hbody : ∀ ch ∈ "\n".data ++ ("- DONE: ".data ++ (d.data ++ "\n".data)),
        chEqCI ch '<' = false := by
      intro ch hch
      rcases List.mem_append.mp hch with h1 | h2
      · exact noTagB_spec (by decide) ch h1
      · rcases List.mem_append.mp h2 with h3 | h4
        · exact noTagB_spec (by decide) ch h3
        · rcases List.mem_append.mp h4 with h5 | h6
          · exact hd ch h5
          · exact noTagB_spec (by decide) ch h6
    have h1 : matchPieces taskUpdatePieces (renderTaggedChars (.taskUpd d true)) =
        matchPieces (.capAll :: .lit ('<' :: "/task_update>".data) :: [])
          (("\n".data ++ ("- DONE: ".data ++ (d.data ++ "\n".data))) ++
            (('<' :: "/task_update>".data) ++ [])) := rfl
    rw [h1, matchPieces_capAll_exact "/task_update>".data []
      ("\n".data ++ ("- DONE: ".data ++ (d.data ++ "\n".data))) [] hbody]
    rfl
  | false =>
    have hbody : ∀ ch ∈ "\n".data ++ ("- TODO: ".data ++ (d.data ++ "\n".data)),
        chEqCI ch '<' = false := by
      intro ch hch
      rcases List.mem_append.mp hch with h1 | h2
      · exact noTagB_spec (by decide) ch h1
      · rcases List.mem_append.mp h2 with h3 | h4
        · exact noTagB_spec (by decide) ch h3
        · rcases List.mem_append.mp h4 with h5 | h6
          · exact hd ch h5
          · exact noTagB_spec (by decide) ch h6
    have h1 : matchPieces taskUpdatePieces (renderTaggedChars (.taskUpd d false)) =
        matchPieces (.capAll :: .lit ('<' :: "/task_update>".data) :: [])
          (("\n".data ++ ("- TODO: ".data ++ (d.data ++ "\n".data))) ++
            (('<' :: "/task_update>".data) ++ [])) := rfl
    rw [h1, matchPieces_capAll_exact "/task_update>".data []
      ("\n".data ++ ("- TODO: ".data ++ (d.data ++ "\n".data))) [] hbody]
    rfl

theorem matchPieces_search (kws : List String)
    (hk : ∀ k ∈ kws, ∀ ch ∈ k.data, chEqCI ch '<' = false) :
    matchPieces searchPieces (renderTaggedChars (.search kws)) =
      some (["\n".data ++ (joinComma (kws.map String.data) ++ "\n".data)], []) := by
  have hbody : ∀ ch ∈ "\n".data ++ (joinComma (kws.map String.data) ++ "\n".data),
      chEqCI ch '<' = false := by
    intro ch hch
    rcases List.mem_append.mp hch with h1 | h2
    · exact noTagB_spec (by decide) ch h1
    · rcases List.mem_append.mp h2 with h3 | h4
      · refine joinComma_no_tag ?_ ch h3
        intro k hkm c hc
        rcases List.mem_map.mp hkm with ⟨s, hs, rfl⟩
        exact hk s hs c hc
      · exact noTagB_spec (by decide) ch h4
  have h1 : matchPieces searchPieces (renderTaggedChars (.search kws)) =
      matchPieces (.capAll :: .lit ('<' :: "/search>".data) :: [])
        (("\n".data ++ (joinComma (kws.map String.data) ++ "\n".data)) ++
          (('<' :: "/search>".data) ++ [])) := rfl
  rw [h1, matchPieces_capAll_exact "/search>".data []
    ("\n".data ++ (joinComma (kws.map String.data) ++ "\n".data)) [] hbody]
  rfl

theorem matchPieces_readRange (p : String) (a b : Int)
    (hp : ∀ ch ∈ p.data, chEqCI ch '<' = false)
    (hpn : ∀ ch ∈ p.data, isNlChar ch = false) :
    matchPieces readLinesPieces (renderTaggedChars (.readRange p a b)) =
      some ([p.data, intDec a, intDec b], []) := by
  have h1 : matchPieces readLinesPieces (renderTaggedChars (.readRange p a b)) =
      matchPieces
        (.capDot :: .lit ('<' :: "/path>".data) ::
          [.ws, .lit "<start>".data, .capDot, .lit "</start>".data,
           .ws, .lit "<end>".data, .capDot, .lit "</end>".data,
           .ws, .lit "</read_lines>".data])
        (p.data ++ (('<' :: "/path>".data) ++
          ("\n".data ++ ("<start>".data ++ (intDec a ++ ("</start>".data ++
            ("\n".data ++ ("<end>".data ++ (intDec b ++ ("</end>".data ++
              ("\n".data ++ "</read_lines>".data))))))))))) := rfl
  rw [h1, matchPieces_capDot_exact "/path>".data
    [.ws, .lit "<start>".data, .capDot, .lit "</start>".data,
     .ws, .lit "<end>".data, .capDot, .lit "</end>".data,
     .ws, .lit "</read_lines>".data]
    p.data
    ("\n".data ++ ("<start>".data ++ (intDec a ++ ("</start>".data ++
      ("\n".data ++ ("<end>".data ++ (intDec b ++ ("</end>".data ++
        ("\n".data ++ "</read_lines>".data)))))))))
    hp hpn]
  have h2 : matchPieces
      [.ws, .lit "<start>".data, .capDot, .lit "</start>".data,
       .ws, .lit "<end>".data, .capDot, .lit "</end>".data,
       .ws, .lit "</read_lines>".data]
      ("\n".data ++ ("<start>".data ++ (intDec a ++ ("</start>".data ++
        ("\n".data ++ ("<end>".data ++ (intDec b ++ ("</end>".data ++
          ("\n".data ++ "</read_lines>".data))))))))) =
      matchPieces
        (.capDot :: .lit ('<' :: "/start>".data) ::
          [.ws, .lit "<end>".data, .capDot, .lit "</end>".data,
           .ws, .lit "</read_lines>".data])
        (intDec a ++ (('<' :: "/start>".data) ++
          ("\n".data ++ ("<end>".data ++ (intDec b ++ ("</end>".data ++
            ("\n".data ++ "</read_lines>".data))))))) := rfl
  rw [h2, matchPieces_capDot_exact "/start>".data
    [.ws, .lit "<end>".data, .capDot, .lit "</end>".data,
     .ws, .lit "</read_lines>".data]
    (intDec a)
    ("\n".data ++ ("<end>".data ++ (intDec b ++ ("</end>".data ++
      ("\n".data ++ "</read_lines>".data)))))
    (fun c hc => (intDec_props a c hc).1) (fun c hc => (intDec_props a c hc).2.1)]
  have h3 : matchPieces
      [.ws, .lit "<end>".data, .capDot, .lit "</end>".data,
       .ws, .lit "</read_lines>".data]
      ("\n".data ++ ("<end>".data ++ (intDec b ++ ("</end>".data ++
        ("\n".data ++ "</read_lines>".data))))) =
      matchPieces
        (.capDot :: .lit ('<' :: "/end>".data) :: [.ws, .lit "</read_lines>".data])
        (intDec b ++ (('<' :: "/end>".data) ++
          ("\n".data ++ "</read_lines>".data))) := rfl
  rw [h3, matchPieces_capDot_exact "/end>".data
    [.ws, .lit "</read_lines>".data]
    (intDec b)
    ("\n".data ++ "</read_lines>".data)
    (fun c hc => (intDec_props b c hc).1) (fun c hc => (intDec_props b c hc).2.1)]
  rfl

theorem parseTaskLine_done (d : String)
    (htrim : jsTrimChars d.data = d.data) (hne : d.data ≠ []) :
    parseTaskLine ("- DONE: ".data ++ d.data) = some ⟨"completed", d⟩ := by
  have ht : jsTrimChars ("- DONE: ".data ++ d.data) = "- DONE: ".data ++ d.data := by
    refine jsTrimChars_eq_self_of_ends
      (dropWhile_append_of_head d.data (by decide) (by decide)) ?_
    rw [List.reverse_append]
    exact dropWhile_append_of_head "- DONE: ".data.reverse (jsTrimChars_rev_drop htrim)
      (by rw [ne_eq, List.reverse_eq_nil_iff]; exact hne)
  simp only [parseTaskLine]
  rw [ht]
  rw [show ("- DONE:".data.isPrefixOf ("- DONE: ".data ++ d.data)) = true from
    isPrefixOf_append_self "- DONE:".data (' ' :: d.data)]
  rw [if_pos rfl]
  have hdrop : (("- DONE: ".data ++ d.data).drop 7).dropWhile jsWsChar = d.data := by
    show (' ' :: d.data).dropWhile jsWsChar = d.data
    rw [List.dropWhile_cons, if_pos (by decide)]
    exact jsTrimChars_head_drop htrim
  rw [hdrop]

theorem parseTaskLine_todo (d : String)
    (htrim : jsTrimChars d.data = d.data) (hne : d.data ≠ []) :
    parseTaskLine ("- TODO: ".data ++ d.data) = some ⟨"pending", d⟩ := by
  have ht : jsTrimChars ("- TODO: ".data ++ d.data) = "- TODO: ".data ++ d.data := by
    refine jsTrimChars_eq_self_of_ends
      (dropWhile_append_of_head d.data (by decide) (by decide)) ?_
    rw [List.reverse_append]
    exact dropWhile_append_of_head "- TODO: ".data.reverse (jsTrimChars_rev_drop htrim)
      (by rw [ne_eq, List.reverse_eq_nil_iff]; exact hne)
  simp only [parseTaskLine]
  rw [ht]
  rw [show ("- DONE:".data.isPrefixOf ("- TODO: ".data ++ d.data)) = false from rfl]
  rw [if_neg (by decide)]
  rw [show ("- ✓".data.isPrefixOf ("- TODO: ".data ++ d.data)) = false from rfl]
  rw [if_neg (by decide)]
  rw [show ("- TODO:".data.isPrefixOf ("- TODO: ".data ++ d.data)) = true from
    isPrefixOf_append_self "- TODO:".data (' ' :: d.data)]
  rw [if_pos rfl]
  have hdrop : (("- TODO: ".data ++ d.data).drop 7).dropWhile jsWsChar = d.data := by
    show (' ' :: d.data).dropWhile jsWsChar = d.data
    rw [List.dropWhile_cons, if_pos (by decide)]
    exact jsTrimChars_head_drop htrim
  rw [hdrop]

theorem extractFileEdits_render (p o n : String)
    (hp : ∀ ch ∈ p.data, chEqCI ch '<' = false) (hpn : ∀ ch ∈ p.data, isNlChar ch = false)
    (ho : ∀ ch ∈ o.data, chEqCI ch '<' = false) (hn : ∀ ch ∈ n.data, chEqCI ch '<' = false) :
    extractFileEdits (renderTagged (.edit p o n)) =
      [⟨cleanPath p, "replace", jsTrim o, jsTrim n⟩] := by
  have he : execAll fileEditPieces (renderTaggedChars (.edit p o n)) =
      [[p.data, "replace".data, o.data, n.data]] :=
    execAll_of_match '<' "file_edit>".data _ _ _ (matchPieces_edit p o n hp hpn ho hn)
  show (execAll fileEditPieces (renderTaggedChars (.edit p o n))).map _ = _
  rw [he]
  rfl

theorem extractFileCreates_render (p c : String)
    (hp : ∀ ch ∈ p.data, chEqCI ch '<' = false) (hpn : ∀ ch ∈ p.data, isNlChar ch = false)
    (hc : ∀ ch ∈ c.data, chEqCI ch '<' = false) :
    extractFileCreates (renderTagged (.create p c)) =
      [⟨cleanPath p, jsTrim c⟩] := by
  have he : execAll fileCreatePieces (renderTaggedChars (.create p c)) =
      [[p.data, c.data]] :=
    execAll_of_match '<' "file_create>".data _ _ _ (matchPieces_create p c hp hpn hc)
  show (execAll fileCreatePieces (renderTaggedChars (.create p c))).map _ = _
  rw [he]
  rfl

theorem extractFileDeletes_render (p : String)
    (hp : ∀ ch ∈ p.data, chEqCI ch '<' = false)
    (hpn : ∀ ch ∈ p.data, isNlChar ch = false) :
    extractFileDeletes (renderTagged (.delete p)) = [⟨cleanPath p⟩] := by
  have he : execAll fileDeletePieces (renderTaggedChars (.delete p)) = [[p.data]] :=
    execAll_of_match '<' "file_delete>".data _ _ _ (matchPieces_delete p hp hpn)
  show (execAll fileDeletePieces (renderTaggedChars (.delete p))).map _ = _
  rw [he]
  rfl

theorem extractReadLines_render (p : String) (a b : Int)
    (hp : ∀ ch ∈ p.data, chEqCI ch '<' = false)
    (hpn : ∀ ch ∈ p.data, isNlChar ch = false) :
    extractReadLines (renderTagged (.readRange p a b)) = [⟨cleanPath p, a, b⟩] := by
  have he : execAll readLinesPieces (renderTaggedChars (.readRange p a b)) =
      [[p.data, intDec a, intDec b]] :=
    execAll_of_match '<' "read_lines>".data _ _ _ (matchPieces_readRange p a b hp hpn)
  have h1 : jsTrimChars (capsGet [p.data, intDec a, intDec b] 1) = intDec a :=
    jsTrimChars_eq_self_of_ends
      (dropWhile_all (fun c hc => (intDec_props a c hc).2.2))
      (dropWhile_all (fun c hc => (intDec_props a c (List.mem_reverse.mp hc)).2.2))
  have h2 : jsTrimChars (capsGet [p.data, intDec a, intDec b] 2) = intDec b :=
    jsTrimChars_eq_self_of_ends
      (dropWhile_all (fun c hc => (intDec_props b c hc).2.2))
      (dropWhile_all (fun c hc => (intDec_props b c (List.mem_reverse.mp hc)).2.2))
  show (execAll readLinesPieces (renderTaggedChars (.readRange p a b))).filterMap _ = _
  rw [he, List.filterMap]
  rw [h1, h2, jsParseIntChars_intDec, jsParseIntChars_intDec]
  rfl

theorem extractTaskUpdates_render (d : String) (completed : Bool)
    (hd : ∀ ch ∈ d.data, chEqCI ch '<' = false)
    (hdn : ∀ ch ∈ d.data, isNlChar ch = false)
    (htrim : jsTrimChars d.data = d.data) (hne : d.data ≠ []) :
    extractTaskUpdates (renderTagged (.taskUpd d completed)) =
      [⟨if completed then "completed" else "pending", d⟩] := by
  cases completed with
  | true =>
    have he : execAll taskUpdatePieces (renderTaggedChars (.taskUpd d true)) =
        [["\n".data ++ ("- DONE: ".data ++ (d.data ++ "\n".data))]] :=
      execAll_of_match '<' "task_update>".data _ _ _ (matchPieces_task d true hd)
    have hb : jsTrimChars ("\n".data ++ ("- DONE: ".data ++ (d.data ++ "\n".data))) =
        "- DONE: ".data ++ d.data := by
      have hh : ("- DONE: ".data ++ d.data).dropWhile jsWsChar =
          "- DONE: ".data ++ d.data :=
        dropWhile_append_of_head d.data (by decide) (by decide)
      have hr : ("- DONE: ".data ++ d.data).reverse.dropWhile jsWsChar =
          ("- DONE: ".data ++ d.data).reverse := by
        rw [List.reverse_append]
        exact dropWhile_append_of_head "- DONE: ".data.reverse (jsTrimChars_rev_drop htrim)
          (by rw [ne_eq, List.reverse_eq_nil_iff]; exact hne)
      have hx : "- DONE: ".data ++ d.data ≠ [] := by
        rw [ne_eq, List.append_eq_nil]
        exact fun h => hne h.2
      exact @jsTrimChars_nl_sandwich ("- DONE: ".data ++ d.data) hh hr hx
    have hjt : jsTrim (String.mk
        (capsGet ["\n".data ++ ("- DONE: ".data ++ (d.data ++ "\n".data))] 0)) =
        String.mk ("- DONE: ".data ++ d.data) := congrArg String.mk hb
    have hsplit : splitNl ("- DONE: ".data ++ d.data) =
        ["- DONE: ".data ++ d.data] := by
      refine splitNl_no_nl ?_
      intro c hc
      apply eq_false
      intro hceq
      subst hceq
      rcases List.mem_append.mp hc with h1 | h2
      · exact absurd h1 (by decide)
      · exact absurd (hdn '\n' h2) (by decide)
    show ((execAll taskUpdatePieces (renderTaggedChars (.taskUpd d true))).map
      (fun caps => parseTaskUpdateContent (jsTrim (String.mk (capsGet caps 0))))).flatten = _
    rw [he]
    show parseTaskUpdateContent (jsTrim (String.mk
      (capsGet ["\n".data ++ ("- DONE: ".data ++ (d.data ++ "\n".data))] 0))) ++ [] = _
    rw [hjt]
    show (splitNl ("- DONE: ".data ++ d.data)).filterMap parseTaskLine ++ [] = _
    rw [hsplit, List.filterMap, parseTaskLine_done d htrim hne]
    rfl
  | false =>
    have he : execAll taskUpdatePieces (renderTaggedChars (.taskUpd d false)) =
        [["\n".data ++ ("- TODO: ".data ++ (d.data ++ "\n".data))]] :=
      execAll_of_match '<' "task_update>".data _ _ _ (matchPieces_task d false hd)
    have hb : jsTrimChars ("\n".data ++ ("- TODO: ".data ++ (d.data ++ "\n".data))) =
        "- TODO: ".data ++ d.data := by
      have hh : ("- TODO: ".data ++ d.data).dropWhile jsWsChar =
          "- TODO: ".data ++ d.data :=
        dropWhile_append_of_head d.data (by decide) (by decide)
      have hr : ("- TODO: ".data ++ d.data).reverse.dropWhile jsWsChar =
          ("- TODO: ".data ++ d.data).reverse := by
        rw [List.reverse_append]
        exact dropWhile_append_of_head "- TODO: ".data.reverse (jsTrimChars_rev_drop htrim)
          (by rw [ne_eq, List.reverse_eq_nil_iff]; exact hne)
      have hx : "- TODO: ".data ++ d.data ≠ [] := by
        rw [ne_eq, List.append_eq_nil]
        exact fun h => hne h.2
      exact @jsTrimChars_nl_sandwich ("- TODO: ".data ++ d.data) hh hr hx
    have hjt : jsTrim (String.mk
        (capsGet ["\n".data ++ ("- TODO: ".data ++ (d.data ++ "\n".data))] 0)) =
        String.mk ("- TODO: ".data ++ d.data) := congrArg String.mk hb
    have hsplit : splitNl ("- TODO: ".data ++ d.data) =
        ["- TODO: ".data ++ d.data] := by
      refine splitNl_no_nl ?_
      intro c hc
      apply eq_false
      intro hceq
      subst hceq
      rcases List.mem_append.mp hc with h1 | h2
      · exact absurd h1 (by decide)
      · exact absurd (hdn '\n' h2) (by decide)
    show ((execAll taskUpdatePieces (renderTaggedChars (.taskUpd d false))).map
      (fun caps => parseTaskUpdateContent (jsTrim (String.mk (capsGet caps 0))))).flatten = _
    rw [he]
    show parseTaskUpdateContent (jsTrim (String.mk
      (capsGet ["\n".data ++ ("- TODO: ".data ++ (d.data ++ "\n".data))] 0))) ++ [] = _
    rw [hjt]
    show (splitNl ("- TODO: ".data ++ d.data)).filterMap parseTaskLine ++ [] = _
    rw [hsplit, List.filterMap, parseTaskLine_todo d htrim hne]
    rfl

theorem extractSearches_render (kws : List String) (hne : kws ≠ [])
    (hk : ∀ k ∈ kws, k.data ≠ [] ∧ jsTrimChars k.data = k.data ∧
      (∀ ch ∈ k.data, chEqCI ch '<' = false) ∧
      (∀ ch ∈ k.data, (ch = ',') = False ∧ (ch = '\n') = False)) :
    extractSearches (renderTagged (.search kws)) = kws := by
  have he : execAll searchPieces (renderTaggedChars (.search kws)) =
      [["\n".data ++ (joinComma (kws.map String.data) ++ "\n".data)]] :=
    execAll_of_match '<' "search>".data _ _ _
      (matchPieces_search kws (fun k hkm => (hk k hkm).2.2.1))
  have hks : ∀ k ∈ kws.map String.data, k ≠ [] ∧ jsTrimChars k = k ∧
      (∀ c ∈ k, (c = ',') = False ∧ (c = '\n') = False) := by
    intro k hkm
    rcases List.mem_map.mp hkm with ⟨s, hs, rfl⟩
    exact ⟨(hk s hs).1, (hk s hs).2.1, (hk s hs).2.2.2⟩
  have hcb : jsTrimChars ("\n".data ++ (joinComma (kws.map String.data) ++ "\n".data)) =
      joinComma (kws.map String.data) := by
    have hh := joinComma_head_drop (kws.map String.data)
      (fun k hkm => ⟨(hks k hkm).1, jsTrimChars_head_drop (hks k hkm).2.1⟩)
    have hr := joinComma_rev_drop (kws.map String.data)
      (fun k hkm => ⟨(hks k hkm).1, jsTrimChars_rev_drop (hks k hkm).2.1⟩)
    have hx : joinComma (kws.map String.data) ≠ [] := by
      refine joinComma_ne_nil _ ?_ (fun k hkm => (hks k hkm).1)
      rw [ne_eq, List.map_eq_nil_iff]
      exact hne
    exact @jsTrimChars_nl_sandwich (joinComma (kws.map String.data)) hh hr hx
  show ((execAll searchPieces (renderTaggedChars (.search kws))).map
    (fun caps => ((splitCommaNl (jsTrimChars (capsGet caps 0))).map jsTrimChars).filterMap
      (fun k => if k = [] then none else some (String.mk k)))).flatten = kws
  rw [he]
  show ((splitCommaNl (jsTrimChars ("\n".data ++
      (joinComma (kws.map String.data) ++ "\n".data)))).map jsTrimChars).filterMap
      (fun k => if k = [] then none else some (String.mk k)) ++ [] = kws
  rw [hcb, splitCommaNl_joinComma (kws.map String.data) hks]
  rw [List.append_nil, List.map_map]
  show List.map id kws = kws
  exact List.map_id kws

theorem negEdit_noCreate (p o n : String)
    (hp : ∀ c ∈ p.data, chEqCI c '<' = false)
    (ho : ∀ c ∈ o.data, chEqCI c '<' = false)
    (hn : ∀ c ∈ n.data, chEqCI c '<' = false) :
    execAll fileCreatePieces (renderTaggedChars (.edit p o n)) = [] := by
  refine execAll_of_no_open ('<' :: "file_create>".data) _ _ ?_
  have s1 : hasCIAt ('<' :: "file_create>".data) (renderTaggedChars (.edit p o n)) =
      hasCIAt ('<' :: "file_create>".data) (p.data ++ ("</path>".data ++ ("\n".data ++ ("<operation>".data ++ ("replace".data ++ ("</operation>".data ++ ("\n".data ++ ("<old>".data ++ (o.data ++ ("</old>".data ++ ("\n".data ++ ("<new>".data ++ (n.data ++ ("</new>".data ++ ("\n".data ++ ("</file_edit>".data)))))))))))))))) := rfl
  rw [s1, hasCIAt_append_skip '<' "file_create>".data p.data
    ("</path>".data ++ ("\n".data ++ ("<operation>".data ++ ("replace".data ++ ("</operation>".data ++ ("\n".data ++ ("<old>".data ++ (o.data ++ ("</old>".data ++ ("\n".data ++ ("<new>".data ++ (n.data ++ ("</new>".data ++ ("\n".data ++ ("</file_edit>".data))))))))))))))) hp]
  have s2 : hasCIAt ('<' :: "file_create>".data) ("</path>".data ++ ("\n".data ++ ("<operation>".data ++ ("replace".data ++ ("</operation>".data ++ ("\n".data ++ ("<old>".data ++ (o.data ++ ("</old>".data ++ ("\n".data ++ ("<new>".data ++ (n.data ++ ("</new>".data ++ ("\n".data ++ ("</file_edit>".data))))))))))))))) =
      hasCIAt ('<' :: "file_create>".data) (o.data ++ ("</old>".data ++ ("\n".data ++ ("<new>".data ++ (n.data ++ ("</new>".data ++ ("\n".data ++ ("</file_edit>".data)))))))) := rfl
  rw [s2, hasCIAt_append_skip '<' "file_create>".data o.data
    ("</old>".data ++ ("\n".data ++ ("<new>".data ++ (n.data ++ ("</new>".data ++ ("\n".data ++ ("</file_edit>".data))))))) ho]
  have s3 : hasCIAt ('<' :: "file_create>".data) ("</old>".data ++ ("\n".data ++ ("<new>".data ++ (n.data ++ ("</new>".data ++ ("\n".data ++ ("</file_edit>".data))))))) =
      hasCIAt ('<' :: "file_create>".data) (n.data ++ ("</new>".data ++ ("\n".data ++ ("</file_edit>".data)))) := rfl
  rw [s3, hasCIAt_append_skip '<' "file_create>".data n.data
    ("</new>".data ++ ("\n".data ++ ("</file_edit>".data))) hn]
  rfl

theorem negEdit_noDelete (p o n : String)
    (hp : ∀ c ∈ p.data, chEqCI c '<' = false)
    (ho : ∀ c ∈ o.data, chEqCI c '<' = false)
    (hn : ∀ c ∈ n.data, chEqCI c '<' = false) :
    execAll fileDeletePieces (renderTaggedChars (.edit p o n)) = [] := by
  refine execAll_of_no_open ('<' :: "file_delete>".data) _ _ ?_
  have s1 : hasCIAt ('<' :: "file_delete>".data) (renderTaggedChars (.edit p o n)) =
      hasCIAt ('<' :: "file_delete>".data) (p.data ++ ("</path>".data ++ ("\n".data ++ ("<operation>".data ++ ("replace".data ++ ("</operation>".data ++ ("\n".data ++ ("<old>".data ++ (o.data ++ ("</old>".data ++ ("\n".data ++ ("<new>".data ++ (n.data ++ ("</new>".data ++ ("\n".data ++ ("</file_edit>".data)))))))))))))))) := rfl
  rw [s1, hasCIAt_append_skip '<' "file_delete>".data p.data
    ("</path>".data ++ ("\n".data ++ ("<operation>".data ++ ("replace".data ++ ("</operation>".data ++ ("\n".data ++ ("<old>".data ++ (o.data ++ ("</old>".data ++ ("\n".data ++ ("<new>".data ++ (n.data ++ ("</new>".data ++ ("\n".data ++ ("</file_edit>".data))))))))))))))) hp]
  have s2 : hasCIAt ('<' :: "file_delete>".data) ("</path>".data ++ ("\n".data ++ ("<operation>".data ++ ("replace".data ++ ("</operation>".data ++ ("\n".data ++ ("<old>".data ++ (o.data ++ ("</old>".data ++ ("\n".data ++ ("<new>".data ++ (n.data ++ ("</new>".data ++ ("\n".data ++ ("</file_edit>".data))))))))))))))) =
      hasCIAt ('<' :: "file_delete>".data) (o.data ++ ("</old>".data ++ ("\n".data ++ ("<new>".data ++ (n.data ++ ("</new>".data ++ ("\n".data ++ ("</file_edit>".data)))))))) := rfl
  rw [s2, hasCIAt_append_skip '<' "file_delete>".data o.data
    ("</old>".data ++ ("\n".data ++ ("<new>".data ++ (n.data ++ ("</new>".data ++ ("\n".data ++ ("</file_edit>".data))))))) ho]
  have s3 : hasCIAt ('<' :: "file_delete>".data) ("</old>".data ++ ("\n".data ++ ("<new>".data ++ (n.data ++ ("</new>".data ++ ("\n".data ++ ("</file_edit>".data))))))) =
      hasCIAt ('<' :: "file_delete>".data) (n.data ++ ("</new>".data ++ ("\n".data ++ ("</file_edit>".data)))) := rfl
  rw [s3, hasCIAt_append_skip '<' "file_delete>".data n.data
    ("</new>".data ++ ("\n".data ++ ("</file_edit>".data))) hn]
  rfl

theorem negEdit_noTask (p o n : String)
    (hp : ∀ c ∈ p.data, chEqCI c '<' = false)
    (ho : ∀ c ∈ o.data, chEqCI c '<' = false)
    (hn : ∀ c ∈ n.data, chEqCI c '<' = false) :
    execAll taskUpdatePieces (renderTaggedChars (.edit p o n)) = [] := by
  refine execAll_of_no_open ('<' :: "task_update>".data) _ _ ?_
  have s1 : hasCIAt ('<' :: "task_update>".data) (renderTaggedChars (.edit p o n)) =
      hasCIAt ('<' :: "task_update>".data) (p.data ++ ("</path>".data ++ ("\n".data ++ ("<operation>".data ++ ("replace".data ++ ("</operation>".data ++ ("\n".data ++ ("<old>".data ++ (o.data ++ ("</old>".data ++ ("\n".data ++ ("<new>".data ++ (n.data ++ ("</new>".data ++ ("\n".data ++ ("</file_edit>".data)))))))))))))))) := rfl
  rw [s1, hasCIAt_append_skip '<' "task_update>".data p.data
    ("</path>".data ++ ("\n".data ++ ("<operation>".data ++ ("replace".data ++ ("</operation>".data ++ ("\n".data ++ ("<old>".data ++ (o.data ++ ("</old>".data ++ ("\n".data ++ ("<new>".data ++ (n.data ++ ("</new>".data ++ ("\n".data ++ ("</file_edit>".data))))))))))))))) hp]
  have s2 : hasCIAt ('<' :: "task_update>".data) ("</path>".data ++ ("\n".data ++ ("<operation>".data ++ ("replace".data ++ ("</operation>".data ++ ("\n".data ++ ("<old>".data ++ (o.data ++ ("</old>".data ++ ("\n".data ++ ("<new>".data ++ (n.data ++ ("</new>".data ++ ("\n".data ++ ("</file_edit>".data))))))))))))))) =
      hasCIAt ('<' :: "task_update>".data) (o.data ++ ("</old>".data ++ ("\n".data ++ ("<new>".data ++ (n.data ++ ("</new>".data ++ ("\n".data ++ ("</file_edit>".data)))))))) := rfl
  rw [s2, hasCIAt_append_skip '<' "task_update>".data o.data
    ("</old>".data ++ ("\n".data ++ ("<new>".data ++ (n.data ++ ("</new>".data ++ ("\n".data ++ ("</file_edit>".data))))))) ho]
  have s3 : hasCIAt ('<' :: "task_update>".data) ("</old>".data ++ ("\n".data ++ ("<new>".data ++ (n.data ++ ("</new>".data ++ ("\n".data ++ ("</file_edit>".data))))))) =
      hasCIAt ('<' :: "task_update>".data) (n.data ++ ("</new>".data ++ ("\n".data ++ ("</file_edit>".data)))) := rfl
  rw [s3, hasCIAt_append_skip '<' "task_update>".data n.data
    ("</new>".data ++ ("\n".data ++ ("</file_edit>".data))) hn]
  rfl

theorem negEdit_noQuestion (p o n : String)
    (hp : ∀ c ∈ p.data, chEqCI c '<' = false)
    (ho : ∀ c ∈ o.data, chEqCI c '<' = false)
    (hn : ∀ c ∈ n.data, chEqCI c '<' = false) :
    execAll questionPieces (renderTaggedChars (.edit p o n)) = [] := by
  refine execAll_of_no_open ('<' :: "question>".data) _ _ ?_
  have s1 : hasCIAt ('<' :: "question>".data) (renderTaggedChars (.edit p o n)) =
      hasCIAt ('<' :: "question>".data) (p.data ++ ("</path>".data ++ ("\n".data ++ ("<operation>".data ++ ("replace".data ++ ("</operation>".data ++ ("\n".data ++ ("<old>".data ++ (o.data ++ ("</old>".data ++ ("\n".data ++ ("<new>".data ++ (n.data ++ ("</new>".data ++ ("\n".data ++ ("</file_edit>".data)))))))))))))))) := rfl
  rw [s1, hasCIAt_append_skip '<' "question>".data p.data
    ("</path>".data ++ ("\n".data ++ ("<operation>".data ++ ("replace".data ++ ("</operation>".data ++ ("\n".data ++ ("<old>".data ++ (o.data ++ ("</old>".data ++ ("\n".data ++ ("<new>".data ++ (n.data ++ ("</new>".data ++ ("\n".data ++ ("</file_edit>".data))))))))))))))) hp]
  have s2 : hasCIAt ('<' :: "question>".data) ("</path>".data ++ ("\n".data ++ ("<operation>".data ++ ("replace".data ++ ("</operation>".data ++ ("\n".data ++ ("<old>".data ++ (o.data ++ ("</old>".data ++ ("\n".data ++ ("<new>".data ++ (n.data ++ ("</new>".data ++ ("\n".data ++ ("</file_edit>".data))))))))))))))) =
      hasCIAt ('<' :: "question>".data) (o.data ++ ("</old>".data ++ ("\n".data ++ ("<new>".data ++ (n.data ++ ("</new>".data ++ ("\n".data ++ ("</file_edit>".data)))))))) := rfl
  rw [s2, hasCIAt_append_skip '<' "question>".data o.data
    ("</old>".data ++ ("\n".data ++ ("<new>".data ++ (n.data ++ ("</new>".data ++ ("\n".data ++ ("</file_edit>".data))))))) ho]
  have s3 : hasCIAt ('<' :: "question>".data) ("</old>".data ++ ("\n".data ++ ("<new>".data ++ (n.data ++ ("</new>".data ++ ("\n".data ++ ("</file_edit>".data))))))) =
      hasCIAt ('<' :: "question>".data) (n.data ++ ("</new>".data ++ ("\n".data ++ ("</file_edit>".data)))) := rfl
  rw [s3, hasCIAt_append_skip '<' "question>".data n.data
    ("</new>".data ++ ("\n".data ++ ("</file_edit>".data))) hn]
  rfl

theorem negEdit_noSearch (p o n : String)
    (hp : ∀ c ∈ p.data, chEqCI c '<' = false)
    (ho : ∀ c ∈ o.data, chEqCI c '<' = false)
    (hn : ∀ c ∈ n.data, chEqCI c '<' = false) :
    execAll searchPieces (renderTaggedChars (.edit p o n)) = [] := by
  refine execAll_of_no_open ('<' :: "search>".data) _ _ ?_
  have s1 : hasCIAt ('<' :: "search>".data) (renderTaggedChars (.edit p o n)) =
      hasCIAt ('<' :: "search>".data) (p.data ++ ("</path>".data ++ ("\n".data ++ ("<operation>".data ++ ("replace".data ++ ("</operation>".data ++ ("\n".data ++ ("<old>".data ++ (o.data ++ ("</old>".data ++ ("\n".data ++ ("<new>".data ++ (n.data ++ ("</new>".data ++ ("\n".data ++ ("</file_edit>".data)))))))))))))))) := rfl
  rw [s1, hasCIAt_append_skip '<' "search>".data p.data
    ("</path>".data ++ ("\n".data ++ ("<operation>".data ++ ("replace".data ++ ("</operation>".data ++ ("\n".data ++ ("<old>".data ++ (o.data ++ ("</old>".data ++ ("\n".data ++ ("<new>".data ++ (n.data ++ ("</new>".data ++ ("\n".data ++ ("</file_edit>".data))))))))))))))) hp]
  have s2 : hasCIAt ('<' :: "search>".data) ("</path>".data ++ ("\n".data ++ ("<operation>".data ++ ("replace".data ++ ("</operation>".data ++ ("\n".data ++ ("<old>".data ++ (o.data ++ ("</old>".data ++ ("\n".data ++ ("<new>".data ++ (n.data ++ ("</new>".data ++ ("\n".data ++ ("</file_edit>".data))))))))))))))) =
      hasCIAt ('<' :: "search>".data) (o.data ++ ("</old>".data ++ ("\n".data ++ ("<new>".data ++ (n.data ++ ("</new>".data ++ ("\n".data ++ ("</file_edit>".data)))))))) := rfl
  rw [s2, hasCIAt_append_skip '<' "search>".data o.data
    ("</old>".data ++ ("\n".data ++ ("<new>".data ++ (n.data ++ ("</new>".data ++ ("\n".data ++ ("</file_edit>".data))))))) ho]
  have s3 : hasCIAt ('<' :: "search>".data) ("</old>".data ++ ("\n".data ++ ("<new>".data ++ (n.data ++ ("</new>".data ++ ("\n".data ++ ("</file_edit>".data))))))) =
      hasCIAt ('<' :: "search>".data) (n.data ++ ("</new>".data ++ ("\n".data ++ ("</file_edit>".data)))) := rfl
  rw [s3, hasCIAt_append_skip '<' "search>".data n.data
    ("</new>".data ++ ("\n".data ++ ("</file_edit>".data))) hn]
  rfl

theorem negEdit_noRead (p o n : String)
    (hp : ∀ c ∈ p.data, chEqCI c '<' = false)
    (ho : ∀ c ∈ o.data, chEqCI c '<' = false)
    (hn : ∀ c ∈ n.data, chEqCI c '<' = false) :
    execAll readLinesPieces (renderTaggedChars (.edit p o n)) = [] := by
  refine execAll_of_no_open ('<' :: "read_lines>".data) _ _ ?_
  have s1 : hasCIAt ('<' :: "read_lines>".data) (renderTaggedChars (.edit p o n)) =
      hasCIAt ('<' :: "read_lines>".data) (p.data ++ ("</path>".data ++ ("\n".data ++ ("<operation>".data ++ ("replace".data ++ ("</operation>".data ++ ("\n".data ++ ("<old>".data ++ (o.data ++ ("</old>".data ++ ("\n".data ++ ("<new>".data ++ (n.data ++ ("</new>".data ++ ("\n".data ++ ("</file_edit>".data)))))))))))))))) := rfl
  rw [s1, hasCIAt_append_skip '<' "read_lines>".data p.data
    ("</path>".data ++ ("\n".data ++ ("<operation>".data ++ ("replace".data ++ ("</operation>".data ++ ("\n".data ++ ("<old>".data ++ (o.data ++ ("</old>".data ++ ("\n".data ++ ("<new>".data ++ (n.data ++ ("</new>".data ++ ("\n".data ++ ("</file_edit>".data))))))))))))))) hp]
  have s2 : hasCIAt ('<' :: "read_lines>".data) ("</path>".data ++ ("\n".data ++ ("<operation>".data ++ ("replace".data ++ ("</operation>".data ++ ("\n".data ++ ("<old>".data ++ (o.data ++ ("</old>".data ++ ("\n".data ++ ("<new>".data ++ (n.data ++ ("</new>".data ++ ("\n".data ++ ("</file_edit>".data))))))))))))))) =
      hasCIAt ('<' :: "read_lines>".data) (o.data ++ ("</old>".data ++ ("\n".data ++ ("<new>".data ++ (n.data ++ ("</new>".data ++ ("\n".data ++ ("</file_edit>".data)))))))) := rfl
  rw [s2, hasCIAt_append_skip '<' "read_lines>".data o.data
    ("</old>".data ++ ("\n".data ++ ("<new>".data ++ (n.data ++ ("</new>".data ++ ("\n".data ++ ("</file_edit>".data))))))) ho]
  have s3 : hasCIAt ('<' :: "read_lines>".data) ("</old>".data ++ ("\n".data ++ ("<new>".data ++ (n.data ++ ("</new>".data ++ ("\n".data ++ ("</file_edit>".data))))))) =
      hasCIAt ('<' :: "read_lines>".data) (n.data ++ ("</new>".data ++ ("\n".data ++ ("</file_edit>".data)))) := rfl
  rw [s3, hasCIAt_append_skip '<' "read_lines>".data n.data
    ("</new>".data ++ ("\n".data ++ ("</file_edit>".data))) hn]
  rfl

theorem negCreate_noEdit (p c : String)
    (hp : ∀ ch ∈ p.data, chEqCI ch '<' = false)
    (hc : ∀ ch ∈ c.data, chEqCI ch '<' = false) :
    execAll fileEditPieces (renderTaggedChars (.create p c)) = [] := by
  refine execAll_of_no_open ('<' :: "file_edit>".data) _ _ ?_
  have s1 : hasCIAt ('<' :: "file_edit>".data) (renderTaggedChars (.create p c)) =
      hasCIAt ('<' :: "file_edit>".data) (p.data ++ ("</path>".data ++ ("\n".data ++ ("<content>".data ++ (c.data ++ ("</content>".data ++ ("\n".data ++ ("</file_create>".data)))))))) := rfl
  rw [s1, hasCIAt_append_skip '<' "file_edit>".data p.data
    ("</path>".data ++ ("\n".data ++ ("<content>".data ++ (c.data ++ ("</content>".data ++ ("\n".data ++ ("</file_create>".data))))))) hp]
  have s2 : hasCIAt ('<' :: "file_edit>".data) ("</path>".data ++ ("\n".data ++ ("<content>".data ++ (c.data ++ ("</content>".data ++ ("\n".data ++ ("</file_create>".data))))))) =
      hasCIAt ('<' :: "file_edit>".data) (c.data ++ ("</content>".data ++ ("\n".data ++ ("</file_create>".data)))) := rfl
  rw [s2, hasCIAt_append_skip '<' "file_edit>".data c.data
    ("</content>".data ++ ("\n".data ++ ("</file_create>".data))) hc]
  rfl

theorem negCreate_noDelete (p c : String)
    (hp : ∀ ch ∈ p.data, chEqCI ch '<' = false)
    (hc : ∀ ch ∈ c.data, chEqCI ch '<' = false) :
    execAll fileDeletePieces (renderTaggedChars (.create p c)) = [] := by
  refine execAll_of_no_open ('<' :: "file_delete>".data) _ _ ?_
  have s1 : hasCIAt ('<' :: "file_delete>".data) (renderTaggedChars (.create p c)) =
      hasCIAt ('<' :: "file_delete>".data) (p.data ++ ("</path>".data ++ ("\n".data ++ ("<content>".data ++ (c.data ++ ("</content>".data ++ ("\n".data ++ ("</file_create>".data)))))))) := rfl
  rw [s1, hasCIAt_append_skip '<' "file_delete>".data p.data
    ("</path>".data ++ ("\n".data ++ ("<content>".data ++ (c.data ++ ("</content>".data ++ ("\n".data ++ ("</file_create>".data))))))) hp]
  have s2 : hasCIAt ('<' :: "file_delete>".data) ("</path>".data ++ ("\n".data ++ ("<content>".data ++ (c.data ++ ("</content>".data ++ ("\n".data ++ ("</file_create>".data))))))) =
      hasCIAt ('<' :: "file_delete>".data) (c.data ++ ("</content>".data ++ ("\n".data ++ ("</file_create>".data)))) := rfl
  rw [s2, hasCIAt_append_skip '<' "file_delete>".data c.data
    ("</content>".data ++ ("\n".data ++ ("</file_create>".data))) hc]
  rfl

theorem negCreate_noTask (p c : String)
    (hp : ∀ ch ∈ p.data, chEqCI ch '<' = false)
    (hc : ∀ ch ∈ c.data, chEqCI ch '<' = false) :
    execAll taskUpdatePieces (renderTaggedChars (.create p c)) = [] := by
  refine execAll_of_no_open ('<' :: "task_update>".data) _ _ ?_
  have s1 : hasCIAt ('<' :: "task_update>".data) (renderTaggedChars (.create p c)) =
      hasCIAt ('<' :: "task_update>".data) (p.data ++ ("</path>".data ++ ("\n".data ++ ("<content>".data ++ (c.data ++ ("</content>".data ++ ("\n".data ++ ("</file_create>".data)))))))) := rfl
  rw [s1, hasCIAt_append_skip '<' "task_update>".data p.data
    ("</path>".data ++ ("\n".data ++ ("<content>".data ++ (c.data ++ ("</content>".data ++ ("\n".data ++ ("</file_create>".data))))))) hp]
  have s2 : hasCIAt ('<' :: "task_update>".data) ("</path>".data ++ ("\n".data ++ ("<content>".data ++ (c.data ++ ("</content>".data ++ ("\n".data ++ ("</file_create>".data))))))) =
      hasCIAt ('<' :: "task_update>".data) (c.data ++ ("</content>".data ++ ("\n".data ++ ("</file_create>".data)))) := rfl
  rw [s2, hasCIAt_append_skip '<' "task_update>".data c.data
    ("</content>".data ++ ("\n".data ++ ("</file_create>".data))) hc]
  rfl

theorem negCreate_noQuestion (p c : String)
    (hp : ∀ ch ∈ p.data, chEqCI ch '<' = false)
    (hc : ∀ ch ∈ c.data, chEqCI ch '<' = false) :
    execAll questionPieces (renderTaggedChars (.create p c)) = [] := by
  refine execAll_of_no_open ('<' :: "question>".data) _ _ ?_
  have s1 : hasCIAt ('<' :: "question>".data) (renderTaggedChars (.create p c)) =
      hasCIAt ('<' :: "question>".data) (p.data ++ ("</path>".data ++ ("\n".data ++ ("<content>".data ++ (c.data ++ ("</content>".data ++ ("\n".data ++ ("</file_create>".data)))))))) := rfl
  rw [s1, hasCIAt_append_skip '<' "question>".data p.data
    ("</path>".data ++ ("\n".data ++ ("<content>".data ++ (c.data ++ ("</content>".data ++ ("\n".data ++ ("</file_create>".data))))))) hp]
  have s2 : hasCIAt ('<' :: "question>".data) ("</path>".data ++ ("\n".data ++ ("<content>".data ++ (c.data ++ ("</content>".data ++ ("\n".data ++ ("</file_create>".data))))))) =
      hasCIAt ('<' :: "question>".data) (c.data ++ ("</content>".data ++ ("\n".data ++ ("</file_create>".data)))) := rfl
  rw [s2, hasCIAt_append_skip '<' "question>".data c.data
    ("</content>".data ++ ("\n".data ++ ("</file_create>".data))) hc]
  rfl

theorem negCreate_noSearch (p c : String)
    (hp : ∀ ch ∈ p.data, chEqCI ch '<' = false)
    (hc : ∀ ch ∈ c.data, chEqCI ch '<' = false) :
    execAll searchPieces (renderTaggedChars (.create p c)) = [] := by
  refine execAll_of_no_open ('<' :: "search>".data) _ _ ?_
  have s1 : hasCIAt ('<' :: "search>".data) (renderTaggedChars (.create p c)) =
      hasCIAt ('<' :: "search>".data) (p.data ++ ("</path>".data ++ ("\n".data ++ ("<content>".data ++ (c.data ++ ("</content>".data ++ ("\n".data ++ ("</file_create>".data)))))))) := rfl
  rw [s1, hasCIAt_append_skip '<' "search>".data p.data
    ("</path>".data ++ ("\n".data ++ ("<content>".data ++ (c.data ++ ("</content>".data ++ ("\n".data ++ ("</file_create>".data))))))) hp]
  have s2 : hasCIAt ('<' :: "search>".data) ("</path>".data ++ ("\n".data ++ ("<content>".data ++ (c.data ++ ("</content>".data ++ ("\n".data ++ ("</file_create>".data))))))) =
      hasCIAt ('<' :: "search>".data) (c.data ++ ("</content>".data ++ ("\n".data ++ ("</file_create>".data)))) := rfl
  rw [s2, hasCIAt_append_skip '<' "search>".data c.data
    ("</content>".data ++ ("\n".data ++ ("</file_create>".data))) hc]
  rfl

theorem negCreate_noRead (p c : String)
    (hp : ∀ ch ∈ p.data, chEqCI ch '<' = false)
    (hc : ∀ ch ∈ c.data, chEqCI ch '<' = false) :
    execAll readLinesPieces (renderTaggedChars (.create p c)) = [] := by
  refine execAll_of_no_open ('<' :: "read_lines>".data) _ _ ?_
  have s1 : hasCIAt ('<' :: "read_lines>".data) (renderTaggedChars (.create p c)) =
      hasCIAt ('<' :: "read_lines>".data) (p.data ++ ("</path>".data ++ ("\n".data ++ ("<content>".data ++ (c.data ++ ("</content>".data ++ ("\n".data ++ ("</file_create>".data)))))))) := rfl
  rw [s1, hasCIAt_append_skip '<' "read_lines>".data p.data
    ("</path>".data ++ ("\n".data ++ ("<content>".data ++ (c.data ++ ("</content>".data ++ ("\n".data ++ ("</file_create>".data))))))) hp]
  have s2 : hasCIAt ('<' :: "read_lines>".data) ("</path>".data ++ ("\n".data ++ ("<content>".data ++ (c.data ++ ("</content>".data ++ ("\n".data ++ ("</file_create>".data))))))) =
      hasCIAt ('<' :: "read_lines>".data) (c.data ++ ("</content>".data ++ ("\n".data ++ ("</file_create>".data)))) := rfl
  rw [s2, hasCIAt_append_skip '<' "read_lines>".data c.data
    ("</content>".data ++ ("\n".data ++ ("</file_create>".data))) hc]
  rfl

theorem negDelete_noEdit (p : String)
    (hp : ∀ ch ∈ p.data, chEqCI ch '<' = false) :
    execAll fileEditPieces (renderTaggedChars (.delete p)) = [] := by
  refine execAll_of_no_open ('<' :: "file_edit>".data) _ _ ?_
  have s1 : hasCIAt ('<' :: "file_edit>".data) (renderTaggedChars (.delete p)) =
      hasCIAt ('<' :: "file_edit>".data) (p.data ++ ("</path>".data ++ ("\n".data ++ ("</file_delete>".data)))) := rfl
  rw [s1, hasCIAt_append_skip '<' "file_edit>".data p.data
    ("</path>".data ++ ("\n".data ++ ("</file_delete>".data))) hp]
  rfl

theorem negDelete_noCreate (p : String)
    (hp : ∀ ch ∈ p.data, chEqCI ch '<' = false) :
    execAll fileCreatePieces (renderTaggedChars (.delete p)) = [] := by
  refine execAll_of_no_open ('<' :: "file_create>".data) _ _ ?_
  have s1 : hasCIAt ('<' :: "file_create>".data) (renderTaggedChars (.delete p)) =
      hasCIAt ('<' :: "file_create>".data) (p.data ++ ("</path>".data ++ ("\n".data ++ ("</file_delete>".data)))) := rfl
  rw [s1, hasCIAt_append_skip '<' "file_create>".data p.data
    ("</path>".data ++ ("\n".data ++ ("</file_delete>".data))) hp]
  rfl

theorem negDelete_noTask (p : String)
    (hp : ∀ ch ∈ p.data, chEqCI ch '<' = false) :
    execAll taskUpdatePieces (renderTaggedChars (.delete p)) = [] := by
  refine execAll_of_no_open ('<' :: "task_update>".data) _ _ ?_
  have s1 : hasCIAt ('<' :: "task_update>".data) (renderTaggedChars (.delete p)) =
      hasCIAt ('<' :: "task_update>".data) (p.data ++ ("</path>".data ++ ("\n".data ++ ("</file_delete>".data)))) := rfl
  rw [s1, hasCIAt_append_skip '<' "task_update>".data p.data
    ("</path>".data ++ ("\n".data ++ ("</file_delete>".data))) hp]
  rfl

theorem negDelete_noQuestion (p : String)
    (hp : ∀ ch ∈ p.data, chEqCI ch '<' = false) :
    execAll questionPieces (renderTaggedChars (.delete p)) = [] := by
  refine execAll_of_no_open ('<' :: "question>".data) _ _ ?_
  have s1 : hasCIAt ('<' :: "question>".data) (renderTaggedChars (.delete p)) =
      hasCIAt ('<' :: "question>".data) (p.data ++ ("</path>".data ++ ("\n".data ++ ("</file_delete>".data)))) := rfl
  rw [s1, hasCIAt_append_skip '<' "question>".data p.data
    ("</path>".data ++ ("\n".data ++ ("</file_delete>".data))) hp]
  rfl

theorem negDelete_noSearch (p : String)
    (hp : ∀ ch ∈ p.data, chEqCI ch '<' = false) :
    execAll searchPieces (renderTaggedChars (.delete p)) = [] := by
  refine execAll_of_no_open ('<' :: "search>".data) _ _ ?_
  have s1 : hasCIAt ('<' :: "search>".data) (renderTaggedChars (.delete p)) =
      hasCIAt ('<' :: "search>".data) (p.data ++ ("</path>".data ++ ("\n".data ++ ("</file_delete>".data)))) := rfl
  rw [s1, hasCIAt_append_skip '<' "search>".data p.data
    ("</path>".data ++ ("\n".data ++ ("</file_delete>".data))) hp]
  rfl

theorem negDelete_noRead (p : String)
    (hp : ∀ ch ∈ p.data, chEqCI ch '<' = false) :
    execAll readLinesPieces (renderTaggedChars (.delete p)) = [] := by
  refine execAll_of_no_open ('<' :: "read_lines>".data) _ _ ?_
  have s1 : hasCIAt ('<' :: "read_lines>".data) (renderTaggedChars (.delete p)) =
      hasCIAt ('<' :: "read_lines>".data) (p.data ++ ("</path>".data ++ ("\n".data ++ ("</file_delete>".data)))) := rfl
  rw [s1, hasCIAt_append_skip '<' "read_lines>".data p.data
    ("</path>".data ++ ("\n".data ++ ("</file_delete>".data))) hp]
  rfl

theorem negRead_noEdit (p : String) (a b : Int)
    (hp : ∀ ch ∈ p.data, chEqCI ch '<' = false) :
    execAll fileEditPieces (renderTaggedChars (.readRange p a b)) = [] := by
  refine execAll_of_no_open ('<' :: "file_edit>".data) _ _ ?_
  have s1 : hasCIAt ('<' :: "file_edit>".data) (renderTaggedChars (.readRange p a b)) =
      hasCIAt ('<' :: "file_edit>".data) (p.data ++ ("</path>".data ++ ("\n".data ++ ("<start>".data ++ (intDec a ++ ("</start>".data ++ ("\n".data ++ ("<end>".data ++ (intDec b ++ ("</end>".data ++ ("\n".data ++ ("</read_lines>".data)))))))))))) := rfl
  rw [s1, hasCIAt_append_skip '<' "file_edit>".data p.data
    ("</path>".data ++ ("\n".data ++ ("<start>".data ++ (intDec a ++ ("</start>".data ++ ("\n".data ++ ("<end>".data ++ (intDec b ++ ("</end>".data ++ ("\n".data ++ ("</read_lines>".data))))))))))) hp]
  have s2 : hasCIAt ('<' :: "file_edit>".data) ("</path>".data ++ ("\n".data ++ ("<start>".data ++ (intDec a ++ ("</start>".data ++ ("\n".data ++ ("<end>".data ++ (intDec b ++ ("</end>".data ++ ("\n".data ++ ("</read_lines>".data))))))))))) =
      hasCIAt ('<' :: "file_edit>".data) (intDec a ++ ("</start>".data ++ ("\n".data ++ ("<end>".data ++ (intDec b ++ ("</end>".data ++ ("\n".data ++ ("</read_lines>".data)))))))) := rfl
  rw [s2, hasCIAt_append_skip '<' "file_edit>".data (intDec a)
    ("</start>".data ++ ("\n".data ++ ("<end>".data ++ (intDec b ++ ("</end>".data ++ ("\n".data ++ ("</read_lines>".data))))))) (fun c hc => (intDec_props a c hc).1)]
  have s3 : hasCIAt ('<' :: "file_edit>".data) ("</start>".data ++ ("\n".data ++ ("<end>".data ++ (intDec b ++ ("</end>".data ++ ("\n".data ++ ("</read_lines>".data))))))) =
      hasCIAt ('<' :: "file_edit>".data) (intDec b ++ ("</end>".data ++ ("\n".data ++ ("</read_lines>".data)))) := rfl
  rw [s3, hasCIAt_append_skip '<' "file_edit>".data (intDec b)
    ("</end>".data ++ ("\n".data ++ ("</read_lines>".data))) (fun c hc => (intDec_props b c hc).1)]
  rfl

theorem negRead_noCreate (p : String) (a b : Int)
    (hp : ∀ ch ∈ p.data, chEqCI ch '<' = false) :
    execAll fileCreatePieces (renderTaggedChars (.readRange p a b)) = [] := by
  refine execAll_of_no_open ('<' :: "file_create>".data) _ _ ?_
  have s1 : hasCIAt ('<' :: "file_create>".data) (renderTaggedChars (.readRange p a b)) =
      hasCIAt ('<' :: "file_create>".data) (p.data ++ ("</path>".data ++ ("\n".data ++ ("<start>".data ++ (intDec a ++ ("</start>".data ++ ("\n".data ++ ("<end>".data ++ (intDec b ++ ("</end>".data ++ ("\n".data ++ ("</read_lines>".data)))))))))))) := rfl
  rw [s1, hasCIAt_append_skip '<' "file_create>".data p.data
    ("</path>".data ++ ("\n".data ++ ("<start>".data ++ (intDec a ++ ("</start>".data ++ ("\n".data ++ ("<end>".data ++ (intDec b ++ ("</end>".data ++ ("\n".data ++ ("</read_lines>".data))))))))))) hp]
  have s2 : hasCIAt ('<' :: "file_create>".data) ("</path>".data ++ ("\n".data ++ ("<start>".data ++ (intDec a ++ ("</start>".data ++ ("\n".data ++ ("<end>".data ++ (intDec b ++ ("</end>".data ++ ("\n".data ++ ("</read_lines>".data))))))))))) =
      hasCIAt ('<' :: "file_create>".data) (intDec a ++ ("</start>".data ++ ("\n".data ++ ("<end>".data ++ (intDec b ++ ("</end>".data ++ ("\n".data ++ ("</read_lines>".data)))))))) := rfl
  rw [s2, hasCIAt_append_skip '<' "file_create>".data (intDec a)
    ("</start>".data ++ ("\n".data ++ ("<end>".data ++ (intDec b ++ ("</end>".data ++ ("\n".data ++ ("</read_lines>".data))))))) (fun c hc => (intDec_props a c hc).1)]
  have s3 : hasCIAt ('<' :: "file_create>".data) ("</start>".data ++ ("\n".data ++ ("<end>".data ++ (intDec b ++ ("</end>".data ++ ("\n".data ++ ("</read_lines>".data))))))) =
      hasCIAt ('<' :: "file_create>".data) (intDec b ++ ("</end>".data ++ ("\n".data ++ ("</read_lines>".data)))) := rfl
  rw [s3, hasCIAt_append_skip '<' "file_create>".data (intDec b)
    ("</end>".data ++ ("\n".data ++ ("</read_lines>".data))) (fun c hc => (intDec_props b c hc).1)]
  rfl

theorem negRead_noDelete (p : String) (a b : Int)
    (hp : ∀ ch ∈ p.data, chEqCI ch '<' = false) :
    execAll fileDeletePieces (renderTaggedChars (.readRange p a b)) = [] := by
  refine execAll_of_no_open ('<' :: "file_delete>".data) _ _ ?_
  have s1 : hasCIAt ('<' :: "file_delete>".data) (renderTaggedChars (.readRange p a b)) =
      hasCIAt ('<' :: "file_delete>".data) (p.data ++ ("</path>".data ++ ("\n".data ++ ("<start>".data ++ (intDec a ++ ("</start>".data ++ ("\n".data ++ ("<end>".data ++ (intDec b ++ ("</end>".data ++ ("\n".data ++ ("</read_lines>".data)))))))))))) := rfl
  rw [s1, hasCIAt_append_skip '<' "file_delete>".data p.data
    ("</path>".data ++ ("\n".data ++ ("<start>".data ++ (intDec a ++ ("</start>".data ++ ("\n".data ++ ("<end>".data ++ (intDec b ++ ("</end>".data ++ ("\n".data ++ ("</read_lines>".data))))))))))) hp]
  have s2 : hasCIAt ('<' :: "file_delete>".data) ("</path>".data ++ ("\n".data ++ ("<start>".data ++ (intDec a ++ ("</start>".data ++ ("\n".data ++ ("<end>".data ++ (intDec b ++ ("</end>".data ++ ("\n".data ++ ("</read_lines>".data))))))))))) =
      hasCIAt ('<' :: "file_delete>".data) (intDec a ++ ("</start>".data ++ ("\n".data ++ ("<end>".data ++ (intDec b ++ ("</end>".data ++ ("\n".data ++ ("</read_lines>".data)))))))) := rfl
  rw [s2, hasCIAt_append_skip '<' "file_delete>".data (intDec a)
    ("</start>".data ++ ("\n".data ++ ("<end>".data ++ (intDec b ++ ("</end>".data ++ ("\n".data ++ ("</read_lines>".data))))))) (fun c hc => (intDec_props a c hc).1)]
  have s3 : hasCIAt ('<' :: "file_delete>".data) ("</start>".data ++ ("\n".data ++ ("<end>".data ++ (intDec b ++ ("</end>".data ++ ("\n".data ++ ("</read_lines>".data))))))) =
      hasCIAt ('<' :: "file_delete>".data) (intDec b ++ ("</end>".data ++ ("\n".data ++ ("</read_lines>".data)))) := rfl
  rw [s3, hasCIAt_append_skip '<' "file_delete>".data (intDec b)
    ("</end>".data ++ ("\n".data ++ ("</read_lines>".data))) (fun c hc => (intDec_props b c hc).1)]
  rfl

theorem negRead_noTask (p : String) (a b : Int)
    (hp : ∀ ch ∈ p.data, chEqCI ch '<' = false) :
    execAll taskUpdatePieces (renderTaggedChars (.readRange p a b)) = [] := by
  refine execAll_of_no_open ('<' :: "task_update>".data) _ _ ?_
  have s1 : hasCIAt ('<' :: "task_update>".data) (renderTaggedChars (.readRange p a b)) =
      hasCIAt ('<' :: "task_update>".data) (p.data ++ ("</path>".data ++ ("\n".data ++ ("<start>".data ++ (intDec a ++ ("</start>".data ++ ("\n".data ++ ("<end>".data ++ (intDec b ++ ("</end>".data ++ ("\n".data ++ ("</read_lines>".data)))))))))))) := rfl
  rw [s1, hasCIAt_append_skip '<' "task_update>".data p.data
    ("</path>".data ++ ("\n".data ++ ("<start>".data ++ (intDec a ++ ("</start>".data ++ ("\n".data ++ ("<end>".data ++ (intDec b ++ ("</end>".data ++ ("\n".data ++ ("</read_lines>".data))))))))))) hp]
  have s2 : hasCIAt ('<' :: "task_update>".data) ("</path>".data ++ ("\n".data ++ ("<start>".data ++ (intDec a ++ ("</start>".data ++ ("\n".data ++ ("<end>".data ++ (intDec b ++ ("</end>".data ++ ("\n".data ++ ("</read_lines>".data))))))))))) =
      hasCIAt ('<' :: "task_update>".data) (intDec a ++ ("</start>".data ++ ("\n".data ++ ("<end>".data ++ (intDec b ++ ("</end>".data ++ ("\n".data ++ ("</read_lines>".data)))))))) := rfl
  rw [s2, hasCIAt_append_skip '<' "task_update>".data (intDec a)
    ("</start>".data ++ ("\n".data ++ ("<end>".data ++ (intDec b ++ ("</end>".data ++ ("\n".data ++ ("</read_lines>".data))))))) (fun c hc => (intDec_props a c hc).1)]
  have s3 : hasCIAt ('<' :: "task_update>".data) ("</start>".data ++ ("\n".data ++ ("<end>".data ++ (intDec b ++ ("</end>".data ++ ("\n".data ++ ("</read_lines>".data))))))) =
      hasCIAt ('<' :: "task_update>".data) (intDec b ++ ("</end>".data ++ ("\n".data ++ ("</read_lines>".data)))) := rfl
  rw [s3, hasCIAt_append_skip '<' "task_update>".data (intDec b)
    ("</end>".data ++ ("\n".data ++ ("</read_lines>".data))) (fun c hc => (intDec_props b c hc).1)]
  rfl

theorem negRead_noQuestion (p : String) (a b : Int)
    (hp : ∀ ch ∈ p.data, chEqCI ch '<' = false) :
    execAll questionPieces (renderTaggedChars (.readRange p a b)) = [] := by
  refine execAll_of_no_open ('<' :: "question>".data) _ _ ?_
  have s1 : hasCIAt ('<' :: "question>".data) (renderTaggedChars (.readRange p a b)) =
      hasCIAt ('<' :: "question>".data) (p.data ++ ("</path>".data ++ ("\n".data ++ ("<start>".data ++ (intDec a ++ ("</start>".data ++ ("\n".data ++ ("<end>".data ++ (intDec b ++ ("</end>".data ++ ("\n".data ++ ("</read_lines>".data)))))))))))) := rfl
  rw [s1, hasCIAt_append_skip '<' "question>".data p.data
    ("</path>".data ++ ("\n".data ++ ("<start>".data ++ (intDec a ++ ("</start>".data ++ ("\n".data ++ ("<end>".data ++ (intDec b ++ ("</end>".data ++ ("\n".data ++ ("</read_lines>".data))))))))))) hp]
  have s2 : hasCIAt ('<' :: "question>".data) ("</path>".data ++ ("\n".data ++ ("<start>".data ++ (intDec a ++ ("</start>".data ++ ("\n".data ++ ("<end>".data ++ (intDec b ++ ("</end>".data ++ ("\n".data ++ ("</read_lines>".data))))))))))) =
      hasCIAt ('<' :: "question>".data) (intDec a ++ ("</start>".data ++ ("\n".data ++ ("<end>".data ++ (intDec b ++ ("</end>".data ++ ("\n".data ++ ("</read_lines>".data)))))))) := rfl
  rw [s2, hasCIAt_append_skip '<' "question>".data (intDec a)
    ("</start>".data ++ ("\n".data ++ ("<end>".data ++ (intDec b ++ ("</end>".data ++ ("\n".data ++ ("</read_lines>".data))))))) (fun c hc => (intDec_props a c hc).1)]
  have s3 : hasCIAt ('<' :: "question>".data) ("</start>".data ++ ("\n".data ++ ("<end>".data ++ (intDec b ++ ("</end>".data ++ ("\n".data ++ ("</read_lines>".data))))))) =
      hasCIAt ('<' :: "question>".data) (intDec b ++ ("</end>".data ++ ("\n".data ++ ("</read_lines>".data)))) := rfl
  rw [s3, hasCIAt_append_skip '<' "question>".data (intDec b)
    ("</end>".data ++ ("\n".data ++ ("</read_lines>".data))) (fun c hc => (intDec_props b c hc).1)]
  rfl

theorem negRead_noSearch (p : String) (a b : Int)
    (hp : ∀ ch ∈ p.data, chEqCI ch '<' = false) :
    execAll searchPieces (renderTaggedChars (.readRange p a b)) = [] := by
  refine execAll_of_no_open ('<' :: "search>".data) _ _ ?_
  have s1 : hasCIAt ('<' :: "search>".data) (renderTaggedChars (.readRange p a b)) =
      hasCIAt ('<' :: "search>".data) (p.data ++ ("</path>".data ++ ("\n".data ++ ("<start>".data ++ (intDec a ++ ("</start>".data ++ ("\n".data ++ ("<end>".data ++ (intDec b ++ ("</end>".data ++ ("\n".data ++ ("</read_lines>".data)))))))))))) := rfl
  rw [s1, hasCIAt_append_skip '<' "search>".data p.data
    ("</path>".data ++ ("\n".data ++ ("<start>".data ++ (intDec a ++ ("</start>".data ++ ("\n".data ++ ("<end>".data ++ (intDec b ++ ("</end>".data ++ ("\n".data ++ ("</read_lines>".data))))))))))) hp]
  have s2 : hasCIAt ('<' :: "search>".data) ("</path>".data ++ ("\n".data ++ ("<start>".data ++ (intDec a ++ ("</start>".data ++ ("\n".data ++ ("<end>".data ++ (intDec b ++ ("</end>".data ++ ("\n".data ++ ("</read_lines>".data))))))))))) =
      hasCIAt ('<' :: "search>".data) (intDec a ++ ("</start>".data ++ ("\n".data ++ ("<end>".data ++ (intDec b ++ ("</end>".data ++ ("\n".data ++ ("</read_lines>".data)))))))) := rfl
  rw [s2, hasCIAt_append_skip '<' "search>".data (intDec a)
    ("</start>".data ++ ("\n".data ++ ("<end>".data ++ (intDec b ++ ("</end>".data ++ ("\n".data ++ ("</read_lines>".data))))))) (fun c hc => (intDec_props a c hc).1)]
  have s3 : hasCIAt ('<' :: "search>".data) ("</start>".data ++ ("\n".data ++ ("<end>".data ++ (intDec b ++ ("</end>".data ++ ("\n".data ++ ("</read_lines>".data))))))) =
      hasCIAt ('<' :: "search>".data) (intDec b ++ ("</end>".data ++ ("\n".data ++ ("</read_lines>".data)))) := rfl
  rw [s3, hasCIAt_append_skip '<' "search>".data (intDec b)
    ("</end>".data ++ ("\n".data ++ ("</read_lines>".data))) (fun c hc => (intDec_props b c hc).1)]
  rfl

theorem negTask_noEdit (d : String) (completed : Bool)
    (hd : ∀ ch ∈ d.data, chEqCI ch '<' = false) :
    execAll fileEditPieces (renderTaggedChars (.taskUpd d completed)) = [] := by
  refine execAll_of_no_open ('<' :: "file_edit>".data) _ _ ?_
  cases completed with
  | true =>
    have s1 : hasCIAt ('<' :: "file_edit>".data) (renderTaggedChars (.taskUpd d true)) =
        hasCIAt ('<' :: "file_edit>".data) ((d.data ++ "\n".data) ++ "</task_update>".data) := rfl
    rw [s1, List.append_assoc, hasCIAt_append_skip '<' "file_edit>".data d.data
      ("\n".data ++ "</task_update>".data) hd]
    rfl
  | false =>
    have s1 : hasCIAt ('<' :: "file_edit>".data) (renderTaggedChars (.taskUpd d false)) =
        hasCIAt ('<' :: "file_edit>".data) ((d.data ++ "\n".data) ++ "</task_update>".data) := rfl
    rw [s1, List.append_assoc, hasCIAt_append_skip '<' "file_edit>".data d.data
      ("\n".data ++ "</task_update>".data) hd]
    rfl

theorem negTask_noCreate (d : String) (completed : Bool)
    (hd : ∀ ch ∈ d.data, chEqCI ch '<' = false) :
    execAll fileCreatePieces (renderTaggedChars (.taskUpd d completed)) = [] := by
  refine execAll_of_no_open ('<' :: "file_create>".data) _ _ ?_
  cases completed with
  | true =>
    have s1 : hasCIAt ('<' :: "file_create>".data) (renderTaggedChars (.taskUpd d true)) =
        hasCIAt ('<' :: "file_create>".data) ((d.data ++ "\n".data) ++ "</task_update>".data) := rfl
    rw [s1, List.append_assoc, hasCIAt_append_skip '<' "file_create>".data d.data
      ("\n".data ++ "</task_update>".data) hd]
    rfl
  | false =>
    have s1 : hasCIAt ('<' :: "file_create>".data) (renderTaggedChars (.taskUpd d false)) =
        hasCIAt ('<' :: "file_create>".data) ((d.data ++ "\n".data) ++ "</task_update>".data) := rfl
    rw [s1, List.append_assoc, hasCIAt_append_skip '<' "file_create>".data d.data
      ("\n".data ++ "</task_update>".data) hd]
    rfl

theorem negTask_noDelete (d : String) (completed : Bool)
    (hd : ∀ ch ∈ d.data, chEqCI ch '<' = false) :
    execAll fileDeletePieces (renderTaggedChars (.taskUpd d completed)) = [] := by
  refine execAll_of_no_open ('<' :: "file_delete>".data) _ _ ?_
  cases completed with
  | true =>
    have s1 : hasCIAt ('<' :: "file_delete>".data) (renderTaggedChars (.taskUpd d true)) =
        hasCIAt ('<' :: "file_delete>".data) ((d.data ++ "\n".data) ++ "</task_update>".data) := rfl
    rw [s1, List.append_assoc, hasCIAt_append_skip '<' "file_delete>".data d.data
      ("\n".data ++ "</task_update>".data) hd]
    rfl
  | false =>
    have s1 : hasCIAt ('<' :: "file_delete>".data) (renderTaggedChars (.taskUpd d false)) =
        hasCIAt ('<' :: "file_delete>".data) ((d.data ++ "\n".data) ++ "</task_update>".data) := rfl
    rw [s1, List.append_assoc, hasCIAt_append_skip '<' "file_delete>".data d.data
      ("\n".data ++ "</task_update>".data) hd]
    rfl

theorem negTask_noQuestion (d : String) (completed : Bool)
    (hd : ∀ ch ∈ d.data, chEqCI ch '<' = false) :
    execAll questionPieces (renderTaggedChars (.taskUpd d completed)) = [] := by
  refine execAll_of_no_open ('<' :: "question>".data) _ _ ?_
  cases completed with
  | true =>
    have s1 : hasCIAt ('<' :: "question>".data) (renderTaggedChars (.taskUpd d true)) =
        hasCIAt ('<' :: "question>".data) ((d.data ++ "\n".data) ++ "</task_update>".data) := rfl
    rw [s1, List.append_assoc, hasCIAt_append_skip '<' "question>".data d.data
      ("\n".data ++ "</task_update>".data) hd]
    rfl
  | false =>
    have s1 : hasCIAt ('<' :: "question>".data) (renderTaggedChars (.taskUpd d false)) =
        hasCIAt ('<' :: "question>".data) ((d.data ++ "\n".data) ++ "</task_update>".data) := rfl
    rw [s1, List.append_assoc, hasCIAt_append_skip '<' "question>".data d.data
      ("\n".data ++ "</task_update>".data) hd]
    rfl

theorem negTask_noSearch (d : String) (completed : Bool)
    (hd : ∀ ch ∈ d.data, chEqCI ch '<' = false) :
    execAll searchPieces (renderTaggedChars (.taskUpd d completed)) = [] := by
  refine execAll_of_no_open ('<' :: "search>".data) _ _ ?_
  cases completed with
  | true =>
    have s1 : hasCIAt ('<' :: "search>".data) (renderTaggedChars (.taskUpd d true)) =
        hasCIAt ('<' :: "search>".data) ((d.data ++ "\n".data) ++ "</task_update>".data) := rfl
    rw [s1, List.append_assoc, hasCIAt_append_skip '<' "search>".data d.data
      ("\n".data ++ "</task_update>".data) hd]
    rfl
  | false =>
    have s1 : hasCIAt ('<' :: "search>".data) (renderTaggedChars (.taskUpd d false)) =
        hasCIAt ('<' :: "search>".data) ((d.data ++ "\n".data) ++ "</task_update>".data) := rfl
    rw [s1, List.append_assoc, hasCIAt_append_skip '<' "search>".data d.data
      ("\n".data ++ "</task_update>".data) hd]
    rfl

theorem negTask_noRead (d : String) (completed : Bool)
    (hd : ∀ ch ∈ d.data, chEqCI ch '<' = false) :
    execAll readLinesPieces (renderTaggedChars (.taskUpd d completed)) = [] := by
  refine execAll_of_no_open ('<' :: "read_lines>".data) _ _ ?_
  cases completed with
  | true =>
    have s1 : hasCIAt ('<' :: "read_lines>".data) (renderTaggedChars (.taskUpd d true)) =
        hasCIAt ('<' :: "read_lines>".data) ((d.data ++ "\n".data) ++ "</task_update>".data) := rfl
    rw [s1, List.append_assoc, hasCIAt_append_skip '<' "read_lines>".data d.data
      ("\n".data ++ "</task_update>".data) hd]
    rfl
  | false =>
    have s1 : hasCIAt ('<' :: "read_lines>".data) (renderTaggedChars (.taskUpd d false)) =
        hasCIAt ('<' :: "read_lines>".data) ((d.data ++ "\n".data) ++ "</task_update>".data) := rfl
    rw [s1, List.append_assoc, hasCIAt_append_skip '<' "read_lines>".data d.data
      ("\n".data ++ "</task_update>".data) hd]
    rfl

theorem negSearch_noEdit (kws : List String)
    (hJ : ∀ c ∈ joinComma (kws.map String.data), chEqCI c '<' = false) :
    execAll fileEditPieces (renderTaggedChars (.search kws)) = [] := by
  refine execAll_of_no_open ('<' :: "file_edit>".data) _ _ ?_
  have s1 : hasCIAt ('<' :: "file_edit>".data) (renderTaggedChars (.search kws)) =
      hasCIAt ('<' :: "file_edit>".data) ((joinComma (kws.map String.data) ++ "\n".data) ++
        "</search>".data) := rfl
  rw [s1, List.append_assoc, hasCIAt_append_skip '<' "file_edit>".data (joinComma (kws.map String.data))
    ("\n".data ++ "</search>".data) hJ]
  rfl

theorem negSearch_noCreate (kws : List String)
    (hJ : ∀ c ∈ joinComma (kws.map String.data), chEqCI c '<' = false) :
    execAll fileCreatePieces (renderTaggedChars (.search kws)) = [] := by
  refine execAll_of_no_open ('<' :: "file_create>".data) _ _ ?_
  have s1 : hasCIAt ('<' :: "file_create>".data) (renderTaggedChars (.search kws)) =
      hasCIAt ('<' :: "file_create>".data) ((joinComma (kws.map String.data) ++ "\n".data) ++
        "</search>".data) := rfl
  rw [s1, List.append_assoc, hasCIAt_append_skip '<' "file_create>".data (joinComma (kws.map String.data))
    ("\n".data ++ "</search>".data) hJ]
  rfl

theorem negSearch_noDelete (kws : List String)
    (hJ : ∀ c ∈ joinComma (kws.map String.data), chEqCI c '<' = false) :
    execAll fileDeletePieces (renderTaggedChars (.search kws)) = [] := by
  refine execAll_of_no_open ('<' :: "file_delete>".data) _ _ ?_
  have s1 : hasCIAt ('<' :: "file_delete>".data) (renderTaggedChars (.search kws)) =
      hasCIAt ('<' :: "file_delete>".data) ((joinComma (kws.map String.data) ++ "\n".data) ++
        "</search>".data) := rfl
  rw [s1, List.append_assoc, hasCIAt_append_skip '<' "file_delete>".data (joinComma (kws.map String.data))
    ("\n".data ++ "</search>".data) hJ]
  rfl

theorem negSearch_noTask (kws : List String)
    (hJ : ∀ c ∈ joinComma (kws.map String.data), chEqCI c '<' = false) :
    execAll taskUpdatePieces (renderTaggedChars (.search kws)) = [] := by
  refine execAll_of_no_open ('<' :: "task_update>".data) _ _ ?_
  have s1 : hasCIAt ('<' :: "task_update>".data) (renderTaggedChars (.search kws)) =
      hasCIAt ('<' :: "task_update>".data) ((joinComma (kws.map String.data) ++ "\n".data) ++
        "</search>".data) := rfl
  rw [s1, List.append_assoc, hasCIAt_append_skip '<' "task_update>".data (joinComma (kws.map String.data))
    ("\n".data ++ "</search>".data) hJ]
  rfl

theorem negSearch_noQuestion (kws : List String)
    (hJ : ∀ c ∈ joinComma (kws.map String.data), chEqCI c '<' = false) :
    execAll questionPieces (renderTaggedChars (.search kws)) = [] := by
  refine execAll_of_no_open ('<' :: "question>".data) _ _ ?_
  have s1 : hasCIAt ('<' :: "question>".data) (renderTaggedChars (.search kws)) =
      hasCIAt ('<' :: "question>".data) ((joinComma (kws.map String.data) ++ "\n".data) ++
        "</search>".data) := rfl
  rw [s1, List.append_assoc, hasCIAt_append_skip '<' "question>".data (joinComma (kws.map String.data))
    ("\n".data ++ "</search>".data) hJ]
  rfl

theorem negSearch_noRead (kws : List String)
    (hJ : ∀ c ∈ joinComma (kws.map String.data), chEqCI c '<' = false) :
    execAll readLinesPieces (renderTaggedChars (.search kws)) = [] := by
  refine execAll_of_no_open ('<' :: "read_lines>".data) _ _ ?_
  have s1 : hasCIAt ('<' :: "read_lines>".data) (renderTaggedChars (.search kws)) =
      hasCIAt ('<' :: "read_lines>".data) ((joinComma (kws.map String.data) ++ "\n".data) ++
        "</search>".data) := rfl
  rw [s1, List.append_assoc, hasCIAt_append_skip '<' "read_lines>".data (joinComma (kws.map String.data))
    ("\n".data ++ "</search>".data) hJ]
  rfl

theorem pathOkB_spec {p : String} (h : pathOkB p = true) :
    (∀ c ∈ p.data, chEqCI c '<' = false) ∧ (∀ c ∈ p.data, isNlChar c = false) ∧
    cleanPath p = p := by
  rw [pathOkB, Bool.and_eq_true, Bool.and_eq_true] at h
  exact ⟨noTagB_spec h.1.1, noNlB_spec h.1.2, eq_of_beq h.2⟩

theorem bodyOkB_spec {t : String} (h : bodyOkB t = true) :
    (∀ c ∈ t.data, chEqCI c '<' = false) ∧ jsTrimChars t.data = t.data ∧
    jsTrim t = t := by
  rw [bodyOkB, Bool.and_eq_true] at h
  have he : jsTrim t = t := eq_of_beq h.2
  exact ⟨noTagB_spec h.1, congrArg String.data he, he⟩

theorem descOkB_spec {d : String} (h : descOkB d = true) :
    (∀ c ∈ d.data, chEqCI c '<' = false) ∧ (∀ c ∈ d.data, isNlChar c = false) ∧
    jsTrimChars d.data = d.data ∧ d.data ≠ [] := by
  rw [descOkB, Bool.and_eq_true, Bool.and_eq_true, Bool.and_eq_true] at h
  refine ⟨noTagB_spec h.1.1.1, noNlB_spec h.1.1.2,
    congrArg String.data (eq_of_beq h.1.2), ?_⟩
  intro hd
  have : d = "" := congrArg String.mk hd
  rw [Bool.not_eq_eq_eq_not, Bool.not_true, beq_eq_false_iff_ne] at h
  exact h.2 this

theorem kwOkB_spec {k : String} (h : kwOkB k = true) :
    k.data ≠ [] ∧ jsTrimChars k.data = k.data ∧
    (∀ c ∈ k.data, chEqCI c '<' = false) ∧
    (∀ c ∈ k.data, (c = ',') = False ∧ (c = '\n') = False) := by
  rw [kwOkB, Bool.and_eq_true, Bool.and_eq_true, Bool.and_eq_true] at h
  refine ⟨?_, congrArg String.data (eq_of_beq h.1.1.2), noTagB_spec h.1.1.1, ?_⟩
  · intro hd
    have : k = "" := congrArg String.mk hd
    have h2 := h.1.2
    rw [Bool.not_eq_eq_eq_not, Bool.not_true, beq_eq_false_iff_ne] at h2
    exact h2 this
  · intro c hc
    have := List.all_eq_true.mp h.2 c hc
    constructor
    · apply eq_false
      intro hc2
      subst hc2
      simp at this
    · apply eq_false
      intro hc2
      subst hc2
      simp at this

/-- C3 (amended): for every intent expressible in both surface grammars whose
fields are well-formed for the tagged-block grammar — tag-free single-line
paths already in `cleanPath` normal form, tag-free already-trimmed bodies,
non-empty single-line task descriptions, non-empty lists of trimmed
comma/newline-free keywords — the canonical action set extracted from the
tagged-block rendering by `parseResponse` is structurally equal to the one
obtained from the function-call rendering via `parseToolCalls` followed by
`convertToolCallsToActions`. -/
theorem c3_grammar_equivalence (i : Intent) (h : wellFormedIntent i = true) :
    canonOfParsed (parseResponse (renderTagged i)) =
      canonOfTool (convertToolCallsToActions (parseToolCalls [renderToolCall i])) := by
  cases i with
  | edit p o n =>
    rw [show wellFormedIntent (.edit p o n) = (pathOkB p && bodyOkB o && bodyOkB n)
      from rfl, Bool.and_eq_true, Bool.and_eq_true] at h
    obtain ⟨⟨hP, hO⟩, hN⟩ := h
    obtain ⟨hp, hpn, hpc⟩ := pathOkB_spec hP
    obtain ⟨ho, hot, hoe⟩ := bodyOkB_spec hO
    obtain ⟨hn, hnt, hne2⟩ := bodyOkB_spec hN
    have hE := extractFileEdits_render p o n hp hpn ho hn
    have hC : extractFileCreates (renderTagged (.edit p o n)) = [] := by
      show (execAll fileCreatePieces (renderTaggedChars (.edit p o n))).map _ = []
      rw [negEdit_noCreate p o n hp ho hn]
      rfl
    have hD : extractFileDeletes (renderTagged (.edit p o n)) = [] := by
      show (execAll fileDeletePieces (renderTaggedChars (.edit p o n))).map _ = []
      rw [negEdit_noDelete p o n hp ho hn]
      rfl
    have hT : extractTaskUpdates (renderTagged (.edit p o n)) = [] := by
      show ((execAll taskUpdatePieces (renderTaggedChars (.edit p o n))).map _).flatten = []
      rw [negEdit_noTask p o n hp ho hn]
      rfl
    have hQ : extractQuestions (renderTagged (.edit p o n)) = [] := by
      show (execAll questionPieces (renderTaggedChars (.edit p o n))).map _ = []
      rw [negEdit_noQuestion p o n hp ho hn]
      rfl
    have hS : extractSearches (renderTagged (.edit p o n)) = [] := by
      show ((execAll searchPieces (renderTaggedChars (.edit p o n))).map _).flatten = []
      rw [negEdit_noSearch p o n hp ho hn]
      rfl
    have hR : extractReadLines (renderTagged (.edit p o n)) = [] := by
      show (execAll readLinesPieces (renderTaggedChars (.edit p o n))).filterMap _ = []
      rw [negEdit_noRead p o n hp ho hn]
      rfl
    have hPR : parseResponse (renderTagged (.edit p o n)) =
        ⟨[⟨cleanPath p, "replace", jsTrim o, jsTrim n⟩], [], [], [], [], [], []⟩ := by
      show ParsedResponse.mk _ _ _ _ _ _ _ = _
      rw [hE, hC, hD, hT, hQ, hS, hR]
    rw [hPR, hpc, hoe, hne2]
    rfl
  | create p c =>
    rw [show wellFormedIntent (.create p c) = (pathOkB p && bodyOkB c)
      from rfl, Bool.and_eq_true] at h
    obtain ⟨hP, hC0⟩ := h
    obtain ⟨hp, hpn, hpc⟩ := pathOkB_spec hP
    obtain ⟨hc, hct, hce⟩ := bodyOkB_spec hC0
    have hC := extractFileCreates_render p c hp hpn hc
    have hE : extractFileEdits (renderTagged (.create p c)) = [] := by
      show (execAll fileEditPieces (renderTaggedChars (.create p c))).map _ = []
      rw [negCreate_noEdit p c hp hc]
      rfl
    have hD : extractFileDeletes (renderTagged (.create p c)) = [] := by
      show (execAll fileDeletePieces (renderTaggedChars (.create p c))).map _ = []
      rw [negCreate_noDelete p c hp hc]
      rfl
    have hT : extractTaskUpdates (renderTagged (.create p c)) = [] := by
      show ((execAll taskUpdatePieces (renderTaggedChars (.create p c))).map _).flatten = []
      rw [negCreate_noTask p c hp hc]
      rfl
    have hQ : extractQuestions (renderTagged (.create p c)) = [] := by
      show (execAll questionPieces (renderTaggedChars (.create p c))).map _ = []
      rw [negCreate_noQuestion p c hp hc]
      rfl
    have hS : extractSearches (renderTagged (.create p c)) = [] := by
      show ((execAll searchPieces (renderTaggedChars (.create p c))).map _).flatten = []
      rw [negCreate_noSearch p c hp hc]
      rfl
    have hR : extractReadLines (renderTagged (.create p c)) = [] := by
      show (execAll readLinesPieces (renderTaggedChars (.create p c))).filterMap _ = []
      rw [negCreate_noRead p c hp hc]
      rfl
    have hPR : parseResponse (renderTagged (.create p c)) =
        ⟨[], [⟨cleanPath p, jsTrim c⟩], [], [], [], [], []⟩ := by
      show ParsedResponse.mk _ _ _ _ _ _ _ = _
      rw [hE, hC, hD, hT, hQ, hS, hR]
    rw [hPR, hpc, hce]
    rfl
  | delete p =>
    have hP : pathOkB p = true := h
    obtain ⟨hp, hpn, hpc⟩ := pathOkB_spec hP
    have hD := extractFileDeletes_render p hp hpn
    have hE : extractFileEdits (renderTagged (.delete p)) = [] := by
      show (execAll fileEditPieces (renderTaggedChars (.delete p))).map _ = []
      rw [negDelete_noEdit p hp]
      rfl
    have hC : extractFileCreates (renderTagged (.delete p)) = [] := by
      show (execAll fileCreatePieces (renderTaggedChars (.delete p))).map _ = []
      rw [negDelete_noCreate p hp]
      rfl
    have hT : extractTaskUpdates (renderTagged (.delete p)) = [] := by
      show ((execAll taskUpdatePieces (renderTaggedChars (.delete p))).map _).flatten = []
      rw [negDelete_noTask p hp]
      rfl
    have hQ : extractQuestions (renderTagged (.delete p)) = [] := by
      show (execAll questionPieces (renderTaggedChars (.delete p))).map _ = []
      rw [negDelete_noQuestion p hp]
      rfl
    have hS : extractSearches (renderTagged (.delete p)) = [] := by
      show ((execAll searchPieces (renderTaggedChars (.delete p))).map _).flatten = []
      rw [negDelete_noSearch p hp]
      rfl
    have hR : extractReadLines (renderTagged (.delete p)) = [] := by
      show (execAll readLinesPieces (renderTaggedChars (.delete p))).filterMap _ = []
      rw [negDelete_noRead p hp]
      rfl
    have hPR : parseResponse (renderTagged (.delete p)) =
        ⟨[], [], [⟨cleanPath p⟩], [], [], [], []⟩ := by
      show ParsedResponse.mk _ _ _ _ _ _ _ = _
      rw [hE, hC, hD, hT, hQ, hS, hR]
    rw [hPR, hpc]
    rfl
  | taskUpd d completed =>
    have hD0 : descOkB d = true := h
    obtain ⟨hd, hdn, htr, hne⟩ := descOkB_spec hD0
    have hT := extractTaskUpdates_render d completed hd hdn htr hne
    have hE : extractFileEdits (renderTagged (.taskUpd d completed)) = [] := by
      show (execAll fileEditPieces (renderTaggedChars (.taskUpd d completed))).map _ = []
      rw [negTask_noEdit d completed hd]
      rfl
    have hC : extractFileCreates (renderTagged (.taskUpd d completed)) = [] := by
      show (execAll fileCreatePieces (renderTaggedChars (.taskUpd d completed))).map _ = []
      rw [negTask_noCreate d completed hd]
      rfl
    have hDl : extractFileDeletes (renderTagged (.taskUpd d completed)) = [] := by
      show (execAll fileDeletePieces (renderTaggedChars (.taskUpd d completed))).map _ = []
      rw [negTask_noDelete d completed hd]
      rfl
    have hQ : extractQuestions (renderTagged (.taskUpd d completed)) = [] := by
      show (execAll questionPieces (renderTaggedChars (.taskUpd d completed))).map _ = []
      rw [negTask_noQuestion d completed hd]
      rfl
    have hS : extractSearches (renderTagged (.taskUpd d completed)) = [] := by
      show ((execAll searchPieces (renderTaggedChars (.taskUpd d completed))).map _).flatten = []
      rw [negTask_noSearch d completed hd]
      rfl
    have hR : extractReadLines (renderTagged (.taskUpd d completed)) = [] := by
      show (execAll readLinesPieces (renderTaggedChars (.taskUpd d completed))).filterMap _ = []
      rw [negTask_noRead d completed hd]
      rfl
    have hPR : parseResponse (renderTagged (.taskUpd d completed)) =
        ⟨[], [], [], [⟨if completed then "completed" else "pending", d⟩], [], [], []⟩ := by
      show ParsedResponse.mk _ _ _ _ _ _ _ = _
      rw [hE, hC, hDl, hT, hQ, hS, hR]
    rw [hPR]
    cases completed with
    | true => rfl
    | false => rfl
  | search kws =>
    rw [show wellFormedIntent (.search kws) = (!kws.isEmpty && kws.all kwOkB)
      from rfl, Bool.and_eq_true] at h
    have hne : kws ≠ [] := by
      intro hk
      rw [hk] at h
      exact absurd h.1 (by decide)
    have hk : ∀ k ∈ kws, k.data ≠ [] ∧ jsTrimChars k.data = k.data ∧
        (∀ ch ∈ k.data, chEqCI ch '<' = false) ∧
        (∀ ch ∈ k.data, (ch = ',') = False ∧ (ch = '\n') = False) :=
      fun k hkm => kwOkB_spec (List.all_eq_true.mp h.2 k hkm)
    have hJ : ∀ c ∈ joinComma (kws.map String.data), chEqCI c '<' = false := by
      refine joinComma_no_tag ?_
      intro k hkm c hc
      rcases List.mem_map.mp hkm with ⟨s, hs, rfl⟩
      exact (hk s hs).2.2.1 c hc
    have hS := extractSearches_render kws hne hk
    have hE : extractFileEdits (renderTagged (.search kws)) = [] := by
      show (execAll fileEditPieces (renderTaggedChars (.search kws))).map _ = []
      rw [negSearch_noEdit kws hJ]
      rfl
    have hC : extractFileCreates (renderTagged (.search kws)) = [] := by
      show (execAll fileCreatePieces (renderTaggedChars (.search kws))).map _ = []
      rw [negSearch_noCreate kws hJ]
      rfl
    have hD : extractFileDeletes (renderTagged (.search kws)) = [] := by
      show (execAll fileDeletePieces (renderTaggedChars (.search kws))).map _ = []
      rw [negSearch_noDelete kws hJ]
      rfl
    have hT : extractTaskUpdates (renderTagged (.search kws)) = [] := by
      show ((execAll taskUpdatePieces (renderTaggedChars (.search kws))).map _).flatten = []
      rw [negSearch_noTask kws hJ]
      rfl
    have hQ : extractQuestions (renderTagged (.search kws)) = [] := by
      show (execAll questionPieces (renderTaggedChars (.search kws))).map _ = []
      rw [negSearch_noQuestion kws hJ]
      rfl
    have hR : extractReadLines (renderTagged (.search kws)) = [] := by
      show (execAll readLinesPieces (renderTaggedChars (.search kws))).filterMap _ = []
      rw [negSearch_noRead kws hJ]
      rfl
    have hPR : parseResponse (renderTagged (.search kws)) =
        ⟨[], [], [], [], [], kws, []⟩ := by
      show ParsedResponse.mk _ _ _ _ _ _ _ = _
      rw [hE, hC, hD, hT, hQ, hS, hR]
    rw [hPR]
    rfl
  | readRange p a b =>
    have hP : pathOkB p = true := h
    obtain ⟨hp, hpn, hpc⟩ := pathOkB_spec hP
    have hR := extractReadLines_render p a b hp hpn
    have hE : extractFileEdits (renderTagged (.readRange p a b)) = [] := by
      show (execAll fileEditPieces (renderTaggedChars (.readRange p a b))).map _ = []
      rw [negRead_noEdit p a b hp]
      rfl
    have hC : extractFileCreates (renderTagged (.readRange p a b)) = [] := by
      show (execAll fileCreatePieces (renderTaggedChars (.readRange p a b))).map _ = []
      rw [negRead_noCreate p a b hp]
      rfl
    have hD : extractFileDeletes (renderTagged (.readRange p a b)) = [] := by
      show (execAll fileDeletePieces (renderTaggedChars (.readRange p a b))).map _ = []
      rw [negRead_noDelete p a b hp]
      rfl
    have hT : extractTaskUpdates (renderTagged (.readRange p a b)) = [] := by
      show ((execAll taskUpdatePieces (renderTaggedChars (.readRange p a b))).map _).flatten = []
      rw [negRead_noTask p a b hp]
      rfl
    have hQ : extractQuestions (renderTagged (.readRange p a b)) = [] := by
      show (execAll questionPieces (renderTaggedChars (.readRange p a b))).map _ = []
      rw [negRead_noQuestion p a b hp]
      rfl
    have hS : extractSearches (renderTagged (.readRange p a b)) = [] := by
      show ((execAll searchPieces (renderTaggedChars (.readRange p a b))).map _).flatten = []
      rw [negRead_noSearch p a b hp]
      rfl
    have hPR : parseResponse (renderTagged (.readRange p a b)) =
        ⟨[], [], [], [], [], [], [⟨cleanPath p, a, b⟩]⟩ := by
      show ParsedResponse.mk _ _ _ _ _ _ _ = _
      rw [hE, hC, hD, hT, hQ, hS, hR]
    rw [hPR, hpc]
    rfl

/-- Witness: a concrete well-formed edit intent realizes the C3 equivalence. -/
theorem c3_grammar_equivalence_witness :
    wellFormedIntent (.edit "a.js" "x" "y") = true ∧
    canonOfParsed (parseResponse (renderTagged (.edit "a.js" "x" "y"))) =
      canonOfTool (convertToolCallsToActions (parseToolCalls
        [renderToolCall (.edit "a.js" "x" "y")])) :=
  ⟨by decide, c3_grammar_equivalence (.edit "a.js" "x" "y") (by decide)⟩

/-- C3 counterexample: the same edit intent rendered in the two grammars
parses to different canonical action sets when the old text carries leading
whitespace — the tagged-block parser trims the `<old>` capture, the
function-call path passes `old_text` through verbatim. -/
theorem c3_cex :
    canonOfParsed (parseResponse (renderTagged (.edit "a.js" " x" "y"))) ≠
      canonOfTool (convertToolCallsToActions (parseToolCalls
        [renderToolCall (.edit "a.js" " x" "y")])) := by
  decide

/-- C4 (amended): the tagged-block parser normalizes every extracted path —
each path-carrying action's `path` field is `cleanPath` of a raw capture —
but the function-call converter copies `args.path` verbatim into the action
and applies no normalization at all. -/
theorem c4_path_normalization :
    (∀ s : String, ∀ a ∈ (parseResponse s).fileEdits,
      ∃ r : String, a.path = cleanPath r) ∧
    (∀ s : String, ∀ a ∈ (parseResponse s).fileCreates,
      ∃ r : String, a.path = cleanPath r) ∧
    (∀ s : String, ∀ a ∈ (parseResponse s).fileDeletes,
      ∃ r : String, a.path = cleanPath r) ∧
    (∀ s : String, ∀ a ∈ (parseResponse s).readLines,
      ∃ r : String, a.path = cleanPath r) ∧
    (∀ c : ParsedToolCall, c.name = "delete_file" →
      (convertToolCallsToActions [c]).fileDeletes =
        [⟨c.arguments.path, c.arguments.reason⟩]) := by
  refine ⟨?_, ?_, ?_, ?_, ?_⟩
  · intro s a ha
    have ha2 : a ∈ (execAll fileEditPieces s.data).map (fun caps =>
        ({ path := cleanPath (String.mk (capsGet caps 0))
           operation := jsTrim (String.mk (capsGet caps 1))
           oldText := jsTrim (String.mk (capsGet caps 2))
           newText := jsTrim (String.mk (capsGet caps 3)) } : FileEditAction)) := ha
    rcases List.mem_map.mp ha2 with ⟨caps, _, rfl⟩
    exact ⟨String.mk (capsGet caps 0), rfl⟩
  · intro s a ha
    have ha2 : a ∈ (execAll fileCreatePieces s.data).map (fun caps =>
        ({ path := cleanPath (String.mk (capsGet caps 0))
           content := jsTrim (String.mk (capsGet caps 1)) } : FileCreateAction)) := ha
    rcases List.mem_map.mp ha2 with ⟨caps, _, rfl⟩
    exact ⟨String.mk (capsGet caps 0), rfl⟩
  · intro s a ha
    have ha2 : a ∈ (execAll fileDeletePieces s.data).map (fun caps =>
        ({ path := cleanPath (String.mk (capsGet caps 0)) } : FileDeleteAction)) := ha
    rcases List.mem_map.mp ha2 with ⟨caps, _, rfl⟩
    exact ⟨String.mk (capsGet caps 0), rfl⟩
  · intro s a ha
    have ha2 : a ∈ (execAll readLinesPieces s.data).filterMap (fun caps =>
        match jsParseIntChars (jsTrimChars (capsGet caps 1)),
              jsParseIntChars (jsTrimChars (capsGet caps 2)) with
        | some x, some y => some
          ({ path := cleanPath (String.mk (capsGet caps 0))
             startLine := x
             endLine := y } : ReadLinesAction)
        | _, _ => none) := ha
    rcases List.mem_filterMap.mp ha2 with ⟨caps, _, hf⟩
    rcases h1 : jsParseIntChars (jsTrimChars (capsGet caps 1)) with _ | x
    · rw [h1] at hf
      simp at hf
    · rcases h2 : jsParseIntChars (jsTrimChars (capsGet caps 2)) with _ | y
      · rw [h1, h2] at hf
        simp at hf
      · rw [h1, h2] at hf
        simp only [Option.some.injEq] at hf
        subst hf
        exact ⟨String.mk (capsGet caps 0), rfl⟩
  · intro c hc
    obtain ⟨id, name, args, pf⟩ := c
    simp only at hc
    subst hc
    rfl

/-- Witness: the tagged-block edit path is a normalized `cleanPath` image;
a delete_file tool call with a marker-decorated path is copied verbatim. -/
theorem c4_path_normalization_witness :
    (∃ r : String,
      (({ path := "a.js", operation := "replace", oldText := "x", newText := "y" } :
        FileEditAction)).path = cleanPath r) ∧
    (convertToolCallsToActions [⟨"call_1", "delete_file",
      { emptyToolArgs with path := some "--- a.js ---", reason := some "" },
      false⟩]).fileDeletes = [⟨some "--- a.js ---", some ""⟩] := by
  constructor
  · exact c4_path_normalization.1 (renderTagged (.edit "a.js" "x" "y"))
      ⟨"a.js", "replace", "x", "y"⟩ (by decide)
  · exact c4_path_normalization.2.2.2.2 ⟨"call_1", "delete_file",
      { emptyToolArgs with path := some "--- a.js ---", reason := some "" }, false⟩ rfl

/-- C4 counterexample: the function-call side does not normalize paths — a
delete_file call whose path carries the decorative `---` markers reaches the
canonical action verbatim, differing from its `cleanPath` normal form. -/
theorem c4_cex :
    (convertToolCallsToActions (parseToolCalls
      [⟨"call_1", "delete_file", some { emptyToolArgs with
        path := some "--- a.js ---", reason := some "" }⟩])).fileDeletes.map
          (fun d => d.path) = [some "--- a.js ---"] ∧
    cleanPath "--- a.js ---" = "a.js" ∧
    some "--- a.js ---" ≠ some (cleanPath "--- a.js ---") :=
  ⟨rfl, by decide, by decide⟩

/-- C5 (amended): extraction never raises and always continues past a
malformed item, but a function call with unparseable JSON arguments is kept
rather than skipped: `parseToolCalls` maps every call to an entry (a failing
parse yields the call with an empty argument object), a failed `search_code`
call contributes nothing and conversion continues over the remaining calls,
while a failed `edit_file` call contributes an edit action all of whose
fields are undefined; an unmatched `<file_edit>` block contributes no edit
action and a well-formed `<file_create>` block later in the same response is
still extracted. -/
theorem c5_malformed_items :
    (∀ calls : List RawToolCall, (parseToolCalls calls).length = calls.length) ∧
    (∀ (id : String) (rest : List RawToolCall),
      convertToolCallsToActions (parseToolCalls (⟨id, "search_code", none⟩ :: rest)) =
        convertToolCallsToActions (parseToolCalls rest)) ∧
    (∀ id : String,
      convertToolCallsToActions (parseToolCalls [⟨id, "edit_file", none⟩]) =
        { emptyToolActions with fileEdits := [⟨none, none, none, none⟩] }) ∧
    (∀ p c : String, pathOkB p = true → bodyOkB c = true →
      extractFileEdits (String.mk ("<file_edit>\n".data ++
        renderTaggedChars (.create p c))) = [] ∧
      extractFileCreates (String.mk ("<file_edit>\n".data ++
        renderTaggedChars (.create p c))) = [⟨cleanPath p, jsTrim c⟩]) := by
  refine ⟨?_, ?_, ?_, ?_⟩
  · intro calls
    exact List.length_map calls _
  · intro id rest
    rfl
  · intro id
    rfl
  · intro p c hP hC
    obtain ⟨hp, hpn, _⟩ := pathOkB_spec hP
    obtain ⟨hc, _, _⟩ := bodyOkB_spec hC
    constructor
    · show (execAll fileEditPieces
        ("<file_edit>\n".data ++ renderTaggedChars (.create p c))).map _ = []
      have hstep : execAll fileEditPieces
          ("<file_edit>\n".data ++ renderTaggedChars (.create p c)) =
          execAll fileEditPieces (renderTaggedChars (.create p c)) := rfl
      rw [hstep, negCreate_noEdit p c hp hc]
      rfl
    · show (execAll fileCreatePieces
        ("<file_edit>\n".data ++ renderTaggedChars (.create p c))).map _ = _
      have hstep2 : execAll fileCreatePieces
          ("<file_edit>\n".data ++ renderTaggedChars (.create p c)) =
          execAll fileCreatePieces (renderTaggedChars (.create p c)) := rfl
      rw [hstep2]
      exact extractFileCreates_render p c hp hpn hc

/-- Witness: a response opening with an unmatched `<file_edit>` block followed
by a complete `<file_create>` block yields no edit action but does yield the
create action. -/
theorem c5_malformed_items_witness :
    extractFileEdits (String.mk ("<file_edit>\n".data ++
      renderTaggedChars (.create "a.js" "body"))) = [] ∧
    extractFileCreates (String.mk ("<file_edit>\n".data ++
      renderTaggedChars (.create "a.js" "body"))) = [⟨"a.js", "body"⟩] := by
  have h := c5_malformed_items.2.2.2 "a.js" "body" (by decide) (by decide)
  exact ⟨h.1, h.2.trans (by decide)⟩

/-- C5 counterexample: a function call whose argument JSON fails to parse is
not skipped — an `edit_file` call with unparseable arguments still contributes
an edit action (with every field undefined) to the canonical action set. -/
theorem c5_cex :
    (convertToolCallsToActions (parseToolCalls
      [⟨"call_1", "edit_file", none⟩])).fileEdits ≠ [] := by
  decide
